import Mathlib

/-!
# Presence publication engine of `sipe-ocs2007.c`

A shallow embedding of the publication cache, the conflict reconciler, the
container (access level) store and the category builders of
`src/core/sipe-ocs2007.c`, followed by the properties proved about them.

Conventions of the embedding:

* a `gchar *` that may be `NULL` is an `Option String`;
* `guint` values are natural numbers below `2 ^ 32`, `int` values are integers;
* a `GHashTable` with string keys is an association list in which a key occurs
  at most once (insertion replaces the value of an existing key);
* a text that the C code writes with `printf` into an XML template is kept as
  the tuple of the arguments that fill the template.
-/

namespace Sipe

/-! ## Strings and integers of the C runtime -/

/-- Conversion of a C `int` to `guint` (reduction modulo `2 ^ 32`). -/
def to_guint (x : Int) : Nat := (x % 4294967296).toNat

/-- Conversion of a `long` to `int` on LP64 (two's complement truncation). -/
def long_to_int (x : Int) : Int := (x + 2147483648) % 4294967296 - 2147483648

/-- The `isspace` test of the C locale. -/
def isspace (c : Char) : Bool :=
  c.toNat = 32 || (9 ≤ c.toNat && c.toNat ≤ 13)

/-- Value of the leading decimal digits of a character list, from accumulator `acc`. -/
def atoi_digits : List Char → Nat → Nat
  | [], acc => acc
  | c :: cs, acc =>
    if 48 ≤ c.toNat ∧ c.toNat ≤ 57 then atoi_digits cs (acc * 10 + (c.toNat - 48)) else acc

/-- Sign and digits, after the leading white space has been skipped. -/
def atoi_signed : List Char → Int
  | [] => 0
  | c :: cs =>
    if c.toNat = 45 then - (atoi_digits cs 0 : Int)
    else if c.toNat = 43 then (atoi_digits cs 0 : Int)
    else (atoi_digits (c :: cs) 0 : Int)

/-- The `strtol` result for base 10: the value saturates at the bounds of `long`. -/
def strtol10 (s : String) : Int :=
  let v := atoi_signed (s.data.dropWhile isspace)
  if v < -9223372036854775808 then -9223372036854775808
  else if 9223372036854775807 < v then 9223372036854775807
  else v

/-- The C library `atoi`, which is `(int) strtol (s, NULL, 10)`. -/
def atoi (s : String) : Int := long_to_int (strtol10 s)

/-- Modelled from the spec: the helper `sipe_strequal` of `sipe-utils.c`, which is not among
the sources; exact equality of two texts, two missing texts being equal. -/
def sipe_strequal (left right : Option String) : Bool := decide (left = right)

/-- The `g_ascii_tolower` conversion on a string. -/
def ascii_lower (s : String) : List Char := s.data.map Char.toLower

/-- Modelled from the spec: the helper `sipe_strcase_equal` of `sipe-utils.c`, which is not
among the sources; both texts missing, or both present and equal ignoring ASCII case. -/
def sipe_strcase_equal (left right : Option String) : Bool :=
  match left, right with
  | none, none => true
  | some l, some r => decide (ascii_lower l = ascii_lower r)
  | _, _ => false

/-- The GLib test `g_str_has_prefix`, which fails on a missing string. -/
def g_str_has_prefix (str : Option String) (pre : String) : Bool :=
  match str with
  | none => false
  | some s => pre.data.isPrefixOf s.data

/-! ## Hash tables -/

/-- A `GHashTable` keyed by strings. -/
abbrev GHashTable (β : Type) := List (String × β)

/-- Lookup of a key (`g_hash_table_lookup`). -/
def g_hash_table_lookup {β : Type} : GHashTable β → String → Option β
  | [], _ => none
  | (k1, v) :: r, k => if k1 = k then some v else g_hash_table_lookup r k

/-- Insertion (`g_hash_table_insert`): an existing key gets the new value. -/
def g_hash_table_insert {β : Type} : GHashTable β → String → β → GHashTable β
  | [], k, v => [(k, v)]
  | (k1, v1) :: r, k, v =>
    if k1 = k then (k, v) :: r else (k1, v1) :: g_hash_table_insert r k v

/-- Removal of a key (`g_hash_table_remove`). -/
def g_hash_table_remove {β : Type} : GHashTable β → String → GHashTable β
  | [], _ => []
  | (k1, v1) :: r, k =>
    if k1 = k then g_hash_table_remove r k else (k1, v1) :: g_hash_table_remove r k

/-! ## Publication cache -/

/-- The record `struct sipe_publication`. -/
structure sipe_publication where
  category : String
  inst : Nat
  container : Nat
  version : Nat
  availability : Int := 0
  cal_event_hash : Option String := none
  note : Option String := none
  working_hours_xml_str : Option String := none
  fb_start_str : Option String := none
  free_busy_base64 : Option String := none
  deriving DecidableEq, Repr

/-- The cache `sip->our_publications`: category name, then key, then publication. -/
abbrev PublicationCache := GHashTable (GHashTable sipe_publication)

/-- The nested lookup `g_hash_table_lookup (g_hash_table_lookup (our_publications, category), key)`;
a lookup in a missing table gives nothing. -/
def lookup_publication (our_publications : PublicationCache) (category key : String) :
    Option sipe_publication :=
  match g_hash_table_lookup our_publications category with
  | none => none
  | some t => g_hash_table_lookup t key

/-- The key text `<category><instance><container>` written with `"<%s><%s><%s>"`. -/
def key_of_strings (category inst container : String) : String :=
  "<" ++ category ++ "><" ++ inst ++ "><" ++ container ++ ">"

/-- The key text `<category><instance><container>` written with `"<%s><%u><%u>"`. -/
def publication_key (category : String) (inst container : Nat) : String :=
  key_of_strings category (toString inst) (toString container)

/-! ## Conflict reconciler -/

/-- A `publication` element of the engine's own publish request, as read back by the
reconciler: the texts of its `categoryName`, `instance` and `container` attributes
(each publication element the engine writes carries the three). -/
structure PublicationNode where
  categoryName : String
  inst : String
  container : String
  deriving DecidableEq, Repr

/-- Key text built from the attributes of a publication element, with `"<%s><%s><%s>"`. -/
def node_key (node : PublicationNode) : String :=
  key_of_strings node.categoryName node.inst node.container

/-- An `operation` element of the `details` of a fault document. -/
structure FaultOperation where
  index : String
  curVersion : Option String
  deriving DecidableEq, Repr

/-- A parsed fault document: the text of `Faultcode` and the `details/operation` list. -/
structure FaultDocument where
  faultcode : Option String
  operations : List FaultOperation
  deriving DecidableEq, Repr

/-- The response message handed to the continuation: status code, `Content-Type`
header and parsed body (nothing when the body does not parse). -/
structure sipmsg where
  response : Nat
  contenttype : Option String
  body : Option FaultDocument
  deriving DecidableEq, Repr

/-- What the reconciler sends after patching the cache. -/
inductive Republish where
  | initial
  | status
  deriving DecidableEq, Repr

/-- The loop that fills the `faults` table from the `details/operation` elements. -/
def collect_faults : List FaultOperation → GHashTable (Option String) → GHashTable (Option String)
  | [], faults => faults
  | op :: ops, faults => collect_faults ops (g_hash_table_insert faults op.index op.curVersion)

/-- The value `g_hash_table_lookup (faults, idx)`, a stored `NULL` reading as nothing. -/
def fault_lookup (faults : GHashTable (Option String)) (idx : String) : Option String :=
  (g_hash_table_lookup faults idx).join

/-- The `faults` table built from a response body (empty when the body did not parse). -/
def faults_of (msg : sipmsg) : GHashTable (Option String) :=
  collect_faults (msg.body.elim [] (fun d => d.operations)) []

/-- The text of the `Faultcode` element of a response body. -/
def fault_code_of (msg : sipmsg) : Option String := msg.body.bind (fun d => d.faultcode)

/-- Body of the loop over the publication elements for a faulted element. -/
def patch_publication (our_publications : PublicationCache) (node : PublicationNode)
    (curVersion : String) : PublicationCache :=
  let key := node_key node
  match g_hash_table_lookup our_publications node.categoryName with
  | some category =>
    match g_hash_table_lookup category key with
    | some publication =>
      g_hash_table_insert our_publications node.categoryName
        (g_hash_table_insert category key
          { publication with version := to_guint (atoi curVersion) })
    | none => our_publications
  | none =>
    g_hash_table_insert our_publications node.categoryName
      [(key, { category := node.categoryName,
               inst := to_guint (atoi node.inst),
               container := to_guint (atoi node.container),
               version := to_guint (atoi curVersion) })]

/-- The loop over `publications/publication` of the own request, `index_our` counting from
the given start; the state is the cache and the flag `has_device_publication`. -/
def reconcile_loop (faults : GHashTable (Option String)) :
    List PublicationNode → Nat → PublicationCache × Bool → PublicationCache × Bool
  | [], _, st => st
  | node :: rest, index_our, (cache, has_device_publication) =>
    let has_device := has_device_publication ||
      sipe_strequal (some "device") (some node.categoryName)
    let cache1 :=
      match fault_lookup faults (toString index_our) with
      | some curVersion => patch_publication cache node curVersion
      | none => cache
    reconcile_loop faults rest (index_our + 1) (cache1, has_device)

/-- The continuation `process_send_presence_category_publish_response`: the new cache and
the publish sequence that is started, if any. `request` is the list of publication
elements of the request this response answers. -/
def process_send_presence_category_publish_response (our_publications : PublicationCache)
    (msg : sipmsg) (request : List PublicationNode) : PublicationCache × Option Republish :=
  if msg.response = 409 ∧
      g_str_has_prefix msg.contenttype "application/msrtc-fault+xml" = true then
    if sipe_strequal (fault_code_of msg) (some "Client.BadCall.WrongDelta") = false then
      (our_publications, none)
    else
      let r := reconcile_loop (faults_of msg) request 1 (our_publications, false)
      (r.1, some (if r.2 then Republish.initial else Republish.status))
  else (our_publications, none)


/-- A version conflict rejection: status 409, fault content type and the fault code
`Client.BadCall.WrongDelta`. -/
def is_wrong_delta (msg : sipmsg) : Prop :=
  msg.response = 409 ∧
  g_str_has_prefix msg.contenttype "application/msrtc-fault+xml" = true ∧
  fault_code_of msg = some "Client.BadCall.WrongDelta"

instance (msg : sipmsg) : Decidable (is_wrong_delta msg) := by
  unfold is_wrong_delta; infer_instance

/-- A rejection with the given `details/operation` entries. -/
def wrong_delta_msg (operations : List FaultOperation) : sipmsg :=
  { response := 409
    contenttype := some "application/msrtc-fault+xml"
    body := some { faultcode := some "Client.BadCall.WrongDelta", operations := operations } }

/-! ## Session state and external collaborators -/

/-- The purposes `SIPE_PUB_*` for which a publication instance is derived. -/
inductive PubKey where
  | SIPE_PUB_DEVICE
  | SIPE_PUB_STATE_MACHINE
  | SIPE_PUB_STATE_USER
  | SIPE_PUB_STATE_CALENDAR
  | SIPE_PUB_STATE_CALENDAR_OOF
  | SIPE_PUB_CALENDAR_DATA
  | SIPE_PUB_NOTE_OOF
  deriving DecidableEq, Repr

/-- Calendar status `SIPE_CAL_FREE`. -/
def SIPE_CAL_FREE : Int := 0
/-- Calendar status `SIPE_CAL_TENTATIVE`. -/
def SIPE_CAL_TENTATIVE : Int := 1
/-- Calendar status `SIPE_CAL_BUSY`. -/
def SIPE_CAL_BUSY : Int := 2
/-- Calendar status `SIPE_CAL_OOF`. -/
def SIPE_CAL_OOF : Int := 3
/-- Calendar status `SIPE_CAL_NO_DATA`. -/
def SIPE_CAL_NO_DATA : Int := 4

/-- The record `struct sipe_cal_event`. -/
structure sipe_cal_event where
  start_time : Int
  end_time : Int
  cal_status : Int
  subject : Option String
  location : Option String
  is_meeting : Bool
  deriving DecidableEq, Repr

/-- The fields of `struct sipe_calendar` read by the publication code. -/
structure sipe_calendar where
  email : Option String
  working_hours_xml_str : Option String
  fb_start : Int
  free_busy : Option String
  oof_state : Option String
  oof_start : Int
  oof_end : Int
  deriving DecidableEq, Repr

/-- Functions and values of other modules that the publication code calls; they are
parameters of the embedding. -/
structure Externals where
  /-- The function `sipe_get_pub_instance`. -/
  sipe_get_pub_instance : PubKey → Nat
  /-- The function `sipe_cal_event_hash`. -/
  sipe_cal_event_hash : sipe_cal_event → String
  /-- The function `g_markup_escape_text`. -/
  g_markup_escape_text : String → String
  /-- The function `sipe_backend_markup_strip_html`. -/
  sipe_backend_markup_strip_html : String → Option String
  /-- The function `sipe_utils_time_to_str`. -/
  sipe_utils_time_to_str : Int → String
  /-- The function `sipe_cal_get_freebusy_base64`. -/
  sipe_cal_get_freebusy_base64 : Option String → Option String
  /-- The function `sipe_get_availability_by_status` (second argument `NULL`). -/
  sipe_get_availability_by_status : Option String → Int
  /-- The value of `get_uuid`. -/
  uuid : String
  /-- The value of `sip_uri_self`. -/
  self_uri : String
  /-- The value of `g_get_host_name`. -/
  host_name : String

/-- Modelled from the spec: the helper `is_empty` of `sipe-utils.c`, which is not among the
sources; a text is empty when it is missing or blank (white space only). -/
def is_empty (st : Option String) : Bool :=
  match st with
  | none => true
  | some s => s.data.all isspace

/-- The activity element of a calendar state publication, with the availability bounds the
code writes for it. -/
inductive CalendarActivity where
  /-- Token of `SIPE_ACTIVITY_IN_MEETING`, `minAvailability="6500"`, `maxAvailability="8999"`. -/
  | in_meeting
  /-- Token of `SIPE_ACTIVITY_OOF`, `minAvailability="12000"`, no upper bound. -/
  | oof
  deriving DecidableEq, Repr

/-- Content of a `publication` element: the template and the arguments that fill it. -/
inductive PublicationBody where
  /-- The device element of `SIPE_PUB_XML_DEVICE`: endpoint id, uri, time zone, machine name. -/
  | device (endpointId uri timezone machineName : String)
  /-- The state element of `SIPE_PUB_XML_STATE_MACHINE`. -/
  | machine_state (availability : Int)
  /-- The state element of `SIPE_PUB_XML_STATE_USER`. -/
  | user_state (availability : Int)
  /-- The state element of `SIPE_PUB_XML_STATE_CALENDAR`. -/
  | calendar_state (uri : Option String) (startTime : String) (availability : Option Int)
      (activity : Option CalendarActivity) (meetingSubject meetingLocation : String)
  /-- The note element of `SIPE_PUB_XML_NOTE`. -/
  | note (type : Option String) (startTime endTime : Option String) (body : String)
  /-- A `calendarData` element with mailbox and working hours document. -/
  | working_hours (mailboxID : Option String) (working_hours_xml_str : Option String)
  /-- A `calendarData` element with mailbox and free/busy data. -/
  | free_busy (mailboxID : Option String) (startTime : String) (free_busy_base64 : Option String)
  /-- The empty element `<calendarData xmlns=.../>`. -/
  | calendar_data_empty
  /-- No content: a publication with `expires="0"`. -/
  | clear
  deriving DecidableEq, Repr

/-- A `publication` element written by a builder. -/
structure publication_xml where
  categoryName : String
  inst : Nat
  container : Nat
  version : Nat
  expireType : String
  body : PublicationBody
  deriving DecidableEq, Repr

/-- The version argument `publication ? publication->version : 0`. -/
def version_or_zero (publication : Option sipe_publication) : Nat :=
  match publication with
  | some p => p.version
  | none => 0

/-! ## Category builders -/

/-- The builder `sipe_publish_get_category_state_calendar`. -/
def sipe_publish_get_category_state_calendar (ext : Externals)
    (our_publications : PublicationCache) (event : Option sipe_cal_event)
    (uri : Option String) (cal_satus : Int) : Option (List publication_xml) :=
  let availability : Int := 0
  let inst :=
    if cal_satus = SIPE_CAL_OOF then ext.sipe_get_pub_instance PubKey.SIPE_PUB_STATE_CALENDAR_OOF
    else ext.sipe_get_pub_instance PubKey.SIPE_PUB_STATE_CALENDAR
  let key_2 := publication_key "state" inst 2
  let key_3 := publication_key "state" inst 3
  let publication_2 := lookup_publication our_publications "state" key_2
  let publication_3 := lookup_publication our_publications "state" key_3
  match publication_3, event with
  | none, none => none
  | _, _ =>
    let unchanged :=
      match event, publication_3 with
      | some e, some p3 =>
        decide (p3.availability = availability) &&
          sipe_strequal p3.cal_event_hash (some (ext.sipe_cal_event_hash e))
      | _, _ => false
    if unchanged then none
    else
      match event with
      | some e =>
        if e.cal_status = SIPE_CAL_BUSY ∨ e.cal_status = SIPE_CAL_OOF then
          let escaped_subject := e.subject.map ext.g_markup_escape_text
          let escaped_location := e.location.map ext.g_markup_escape_text
          let availability_xml : Option Int :=
            if e.cal_status = SIPE_CAL_BUSY then some 6500 else none
          let activity_xml : Option CalendarActivity :=
            if e.cal_status = SIPE_CAL_BUSY ∧ e.is_meeting = true then
              some CalendarActivity.in_meeting
            else if e.cal_status = SIPE_CAL_OOF then some CalendarActivity.oof
            else none
          let start_time_str := ext.sipe_utils_time_to_str e.start_time
          let body := PublicationBody.calendar_state uri start_time_str availability_xml
            activity_xml (escaped_subject.getD "") (escaped_location.getD "")
          some [ { categoryName := "state", inst := inst, container := 2,
                   version := version_or_zero publication_2, expireType := "endpoint",
                   body := body },
                 { categoryName := "state", inst := inst, container := 3,
                   version := version_or_zero publication_3, expireType := "endpoint",
                   body := body } ]
        else
          some [ { categoryName := "state", inst := inst, container := 2,
                   version := version_or_zero publication_2, expireType := "endpoint",
                   body := PublicationBody.clear },
                 { categoryName := "state", inst := inst, container := 3,
                   version := version_or_zero publication_3, expireType := "endpoint",
                   body := PublicationBody.clear } ]
      | none =>
        some [ { categoryName := "state", inst := inst, container := 2,
                 version := version_or_zero publication_2, expireType := "endpoint",
                 body := PublicationBody.clear },
               { categoryName := "state", inst := inst, container := 3,
                 version := version_or_zero publication_3, expireType := "endpoint",
                 body := PublicationBody.clear } ]

/-- The builder `sipe_publish_get_category_note`. -/
def sipe_publish_get_category_note (ext : Externals) (our_publications : PublicationCache)
    (note : Option String) (note_type : Option String) (note_start note_end : Int) :
    Option (List publication_xml) :=
  let inst :=
    if sipe_strequal (some "OOF") note_type then
      ext.sipe_get_pub_instance PubKey.SIPE_PUB_NOTE_OOF
    else 0
  let publication_note_200 :=
    lookup_publication our_publications "note" (publication_key "note" inst 200)
  let publication_note_300 :=
    lookup_publication our_publications "note" (publication_key "note" inst 300)
  let publication_note_400 :=
    lookup_publication our_publications "note" (publication_key "note" inst 400)
  let tmp := note.bind ext.sipe_backend_markup_strip_html
  let n1 := tmp.map ext.g_markup_escape_text
  let n2 := publication_note_200.bind (fun p => p.note)
  if sipe_strequal n1 n2 then none
  else
    let start_time_attr :=
      if note_start ≠ 0 then some (ext.sipe_utils_time_to_str note_start) else none
    let end_time_attr :=
      if note_end ≠ 0 then some (ext.sipe_utils_time_to_str note_end) else none
    match n1 with
    | some text =>
      some [ { categoryName := "note", inst := inst, container := 200,
               version := version_or_zero publication_note_200, expireType := "static",
               body := PublicationBody.note note_type start_time_attr end_time_attr text },
             { categoryName := "note", inst := inst, container := 300,
               version := version_or_zero publication_note_300, expireType := "static",
               body := PublicationBody.note note_type start_time_attr end_time_attr text },
             { categoryName := "note", inst := inst, container := 400,
               version := version_or_zero publication_note_400, expireType := "static",
               body := PublicationBody.note note_type start_time_attr end_time_attr text } ]
    | none =>
      some [ { categoryName := "note", inst := inst, container := 200,
               version := version_or_zero publication_note_200, expireType := "static",
               body := PublicationBody.clear },
             { categoryName := "note", inst := inst, container := 300,
               version := version_or_zero publication_note_200, expireType := "static",
               body := PublicationBody.clear },
             { categoryName := "note", inst := inst, container := 400,
               version := version_or_zero publication_note_200, expireType := "static",
               body := PublicationBody.clear } ]

/-- One publication of `SIPE_PUB_XML_WORKING_HOURS`, for a container that gets the data. -/
def working_hours_publication (our_publications : PublicationCache) (cal : sipe_calendar)
    (container : Nat) (with_data : Bool) : publication_xml :=
  { categoryName := "calendarData", inst := 0, container := container,
    version := version_or_zero
      (lookup_publication our_publications "calendarData"
        (publication_key "calendarData" 0 container)),
    expireType := "static",
    body := if with_data then PublicationBody.working_hours cal.email cal.working_hours_xml_str
            else PublicationBody.calendar_data_empty }

/-- The builder `sipe_publish_get_category_cal_working_hours`. -/
def sipe_publish_get_category_cal_working_hours (our_publications : PublicationCache)
    (cal : Option sipe_calendar) : Option (List publication_xml) :=
  let publication_cal_300 :=
    lookup_publication our_publications "calendarData" (publication_key "calendarData" 0 300)
  let n1 := cal.bind (fun c => c.working_hours_xml_str)
  let n2 := publication_cal_300.bind (fun p => p.working_hours_xml_str)
  match cal with
  | none => none
  | some c =>
    if is_empty c.email || is_empty c.working_hours_xml_str then none
    else if sipe_strequal n1 n2 then none
    else
      some [ working_hours_publication our_publications c 1 true,
             working_hours_publication our_publications c 100 false,
             working_hours_publication our_publications c 200 true,
             working_hours_publication our_publications c 300 true,
             working_hours_publication our_publications c 400 true,
             working_hours_publication our_publications c 32000 false ]

/-- One publication of `SIPE_PUB_XML_FREE_BUSY`. -/
def free_busy_publication (our_publications : PublicationCache) (cal_data_instance : Nat)
    (container : Nat) (body : PublicationBody) : publication_xml :=
  { categoryName := "calendarData", inst := cal_data_instance, container := container,
    version := version_or_zero
      (lookup_publication our_publications "calendarData"
        (publication_key "calendarData" cal_data_instance container)),
    expireType := "endpoint",
    body := body }

/-- The builder `sipe_publish_get_category_cal_free_busy`. -/
def sipe_publish_get_category_cal_free_busy (ext : Externals)
    (our_publications : PublicationCache) (cal : Option sipe_calendar) :
    Option (List publication_xml) :=
  let cal_data_instance := ext.sipe_get_pub_instance PubKey.SIPE_PUB_CALENDAR_DATA
  match cal with
  | none => none
  | some c =>
    if is_empty c.email || decide (c.fb_start = 0) || is_empty c.free_busy then none
    else
      let fb_start_str := ext.sipe_utils_time_to_str c.fb_start
      let free_busy_base64 := ext.sipe_cal_get_freebusy_base64 c.free_busy
      let data := PublicationBody.free_busy c.email fb_start_str free_busy_base64
      some [ free_busy_publication our_publications cal_data_instance 1
               PublicationBody.calendar_data_empty,
             free_busy_publication our_publications cal_data_instance 100
               PublicationBody.calendar_data_empty,
             free_busy_publication our_publications cal_data_instance 200 data,
             free_busy_publication our_publications cal_data_instance 300 data,
             free_busy_publication our_publications cal_data_instance 400 data,
             free_busy_publication our_publications cal_data_instance 32000
               PublicationBody.calendar_data_empty ]

/-- The builder `sipe_publish_get_category_device`; it always returns the publication. -/
def sipe_publish_get_category_device (ext : Externals) (our_publications : PublicationCache) :
    List publication_xml :=
  let device_instance := ext.sipe_get_pub_instance PubKey.SIPE_PUB_DEVICE
  let publication :=
    lookup_publication our_publications "device" (publication_key "device" device_instance 2)
  [ { categoryName := "device", inst := device_instance, container := 2,
      version := version_or_zero publication, expireType := "endpoint",
      body := PublicationBody.device ext.uuid ext.self_uri "00:00:00+01:00" ext.host_name } ]

/-- The builder `sipe_publish_get_category_state`; `status` is `sip->status`. -/
def sipe_publish_get_category_state (ext : Externals) (our_publications : PublicationCache)
    (status : Option String) (is_user_state : Bool) : Option (List publication_xml) :=
  let availability := ext.sipe_get_availability_by_status status
  let inst :=
    if is_user_state then ext.sipe_get_pub_instance PubKey.SIPE_PUB_STATE_USER
    else ext.sipe_get_pub_instance PubKey.SIPE_PUB_STATE_MACHINE
  let publication_2 := lookup_publication our_publications "state" (publication_key "state" inst 2)
  let publication_3 := lookup_publication our_publications "state" (publication_key "state" inst 3)
  let unchanged :=
    match publication_2 with
    | some p2 => decide (p2.availability = availability)
    | none => false
  if unchanged then none
  else
    let body :=
      if is_user_state then PublicationBody.user_state availability
      else PublicationBody.machine_state availability
    let expireType := if is_user_state then "static" else "endpoint"
    some [ { categoryName := "state", inst := inst, container := 2,
             version := version_or_zero publication_2, expireType := expireType, body := body },
           { categoryName := "state", inst := inst, container := 3,
             version := version_or_zero publication_3, expireType := expireType, body := body } ]

/-- The builder `sipe_publish_get_category_state_machine`. -/
def sipe_publish_get_category_state_machine (ext : Externals)
    (our_publications : PublicationCache) (status : Option String) :
    Option (List publication_xml) :=
  sipe_publish_get_category_state ext our_publications status false

/-- The builder `sipe_publish_get_category_state_user`. -/
def sipe_publish_get_category_state_user (ext : Externals)
    (our_publications : PublicationCache) (status : Option String) :
    Option (List publication_xml) :=
  sipe_publish_get_category_state ext our_publications status true

/-- The two calendar state fragments `pub_calendar` (instance of the out-of-office state) and
`pub_calendar2` (instance of the busy state) of `sipe_ocs2007_presence_publish`; `event` is
the current event returned by `sipe_cal_get_event`, if any. -/
def presence_publish_calendar (ext : Externals) (our_publications : PublicationCache)
    (cal : sipe_calendar) (event : Option sipe_cal_event) :
    Option (List publication_xml) × Option (List publication_xml) :=
  match event with
  | some e =>
    if e.cal_status = SIPE_CAL_OOF then
      (sipe_publish_get_category_state_calendar ext our_publications (some e) cal.email
         SIPE_CAL_OOF,
       sipe_publish_get_category_state_calendar ext our_publications none cal.email
         SIPE_CAL_BUSY)
    else if e.cal_status = SIPE_CAL_BUSY then
      (sipe_publish_get_category_state_calendar ext our_publications none cal.email
         SIPE_CAL_OOF,
       sipe_publish_get_category_state_calendar ext our_publications (some e) cal.email
         SIPE_CAL_BUSY)
    else
      (sipe_publish_get_category_state_calendar ext our_publications none cal.email
         SIPE_CAL_OOF,
       sipe_publish_get_category_state_calendar ext our_publications none cal.email
         SIPE_CAL_BUSY)
  | none =>
    (sipe_publish_get_category_state_calendar ext our_publications none cal.email SIPE_CAL_OOF,
     sipe_publish_get_category_state_calendar ext our_publications none cal.email SIPE_CAL_BUSY)

/-- A fragment in a `"%s"` concatenation: `pub ? pub : ""`. -/
def fragment_or_empty (pub : Option (List publication_xml)) : List publication_xml :=
  pub.getD []

/-- The publications sent by `sipe_ocs2007_presence_publish`, or nothing when it sends no
request. `cal` is `sip->cal`, `event` the current calendar event and `oof_note` the value of
`sipe_ews_get_oof_note`. -/
def sipe_ocs2007_presence_publish (ext : Externals) (our_publications : PublicationCache)
    (cal : Option sipe_calendar) (event : Option sipe_cal_event) (oof_note : Option String) :
    Option (List publication_xml) :=
  match cal with
  | none => none
  | some c =>
    let pub_calendar := (presence_publish_calendar ext our_publications c event).1
    let pub_calendar2 := (presence_publish_calendar ext our_publications c event).2
    let oof_start := if sipe_strequal (some "Scheduled") c.oof_state then c.oof_start else 0
    let oof_end := if sipe_strequal (some "Scheduled") c.oof_state then c.oof_end else 0
    let pub_oof_note :=
      sipe_publish_get_category_note ext our_publications oof_note (some "OOF") oof_start oof_end
    let pub_cal_working_hours := sipe_publish_get_category_cal_working_hours our_publications cal
    let pub_cal_free_busy := sipe_publish_get_category_cal_free_busy ext our_publications cal
    if pub_cal_working_hours.isNone && pub_cal_free_busy.isNone && pub_calendar.isNone &&
        pub_calendar2.isNone && pub_oof_note.isNone then none
    else
      some (fragment_or_empty pub_cal_working_hours ++ fragment_or_empty pub_cal_free_busy ++
        fragment_or_empty pub_calendar ++ fragment_or_empty pub_calendar2 ++
        fragment_or_empty pub_oof_note)

/-- The version the cache holds for the key of a publication element, 0 without an entry. -/
def cached_version (our_publications : PublicationCache) (e : publication_xml) : Nat :=
  version_or_zero
    (lookup_publication our_publications e.categoryName
      (publication_key e.categoryName e.inst e.container))

/-- Sample collaborators for the evaluations: distinct instances, identity text conversions. -/
def sample_externals : Externals :=
  { sipe_get_pub_instance := fun k =>
      match k with
      | PubKey.SIPE_PUB_DEVICE => 11
      | PubKey.SIPE_PUB_STATE_MACHINE => 12
      | PubKey.SIPE_PUB_STATE_USER => 13
      | PubKey.SIPE_PUB_STATE_CALENDAR => 14
      | PubKey.SIPE_PUB_STATE_CALENDAR_OOF => 15
      | PubKey.SIPE_PUB_CALENDAR_DATA => 16
      | PubKey.SIPE_PUB_NOTE_OOF => 17
    sipe_cal_event_hash := fun e =>
      toString e.start_time ++ (e.subject.getD "") ++ (e.location.getD "")
    g_markup_escape_text := fun s => s
    sipe_backend_markup_strip_html := fun s => some s
    sipe_utils_time_to_str := fun t => toString t
    sipe_cal_get_freebusy_base64 := fun s => s
    sipe_get_availability_by_status := fun _ => 3500
    uuid := "uuid"
    self_uri := "sip:me@example.com"
    host_name := "host" }

/-- A populated calendar state pair of an instance: two `state` publications, for containers
2 and 3 in this order, with one and the same calendar state content. -/
def is_populated_pair (inst : Nat) (frag : List publication_xml) : Bool :=
  match frag with
  | [a, b] =>
    decide (a.categoryName = "state" ∧ b.categoryName = "state" ∧ a.inst = inst ∧
      b.inst = inst ∧ a.container = 2 ∧ b.container = 3 ∧ a.expireType = "endpoint" ∧
      b.expireType = "endpoint" ∧ a.body = b.body) &&
    (match a.body with
     | PublicationBody.calendar_state _ _ _ _ _ _ => true
     | _ => false)
  | _ => false

/-- A clearing pair of an instance: two `state` publications with `expires="0"` and no
content, for containers 2 and 3 in this order. -/
def is_clearing_pair (inst : Nat) (frag : List publication_xml) : Bool :=
  match frag with
  | [a, b] =>
    decide (a.categoryName = "state" ∧ b.categoryName = "state" ∧ a.inst = inst ∧
      b.inst = inst ∧ a.container = 2 ∧ b.container = 3 ∧ a.expireType = "endpoint" ∧
      b.expireType = "endpoint" ∧ a.body = PublicationBody.clear ∧
      b.body = PublicationBody.clear)
  | _ => false

/-- A fragment that clears an instance if its container 3 entry is cached and is absent
otherwise. -/
def is_clearing_or_nothing (our_publications : PublicationCache) (inst : Nat)
    (pub : Option (List publication_xml)) : Bool :=
  match lookup_publication our_publications "state" (publication_key "state" inst 3), pub with
  | none, none => true
  | some _, some frag => is_clearing_pair inst frag
  | _, _ => false

/-- The cached container 3 entry of an instance has availability 0 and the hash of the
event: the test that suppresses a calendar state publication as unchanged. -/
def calendar_state_unchanged (ext : Externals) (our_publications : PublicationCache)
    (inst : Nat) (e : sipe_cal_event) : Bool :=
  match lookup_publication our_publications "state" (publication_key "state" inst 3) with
  | some p3 =>
    decide (p3.availability = 0 ∧ p3.cal_event_hash = some (ext.sipe_cal_event_hash e))
  | none => false

/-- A fragment that is a populated pair of an instance, unless it is suppressed as
unchanged. -/
def is_populated_unless_unchanged (ext : Externals) (our_publications : PublicationCache)
    (inst : Nat) (e : sipe_cal_event) (pub : Option (List publication_xml)) : Bool :=
  match pub with
  | none => calendar_state_unchanged ext our_publications inst e
  | some frag =>
    !calendar_state_unchanged ext our_publications inst e && is_populated_pair inst frag

/-! ## Containers and access levels -/

/-- The record `struct sipe_container_member`. -/
structure sipe_container_member where
  type : Option String
  value : Option String
  deriving DecidableEq, Repr

/-- The record `struct sipe_container`. -/
structure sipe_container where
  id : Nat
  version : Nat
  members : List sipe_container_member
  deriving DecidableEq, Repr

/-- The table `containers` of the five access levels. -/
def containers : List Nat := [32000, 400, 300, 200, 100]

/-- The test of the loop in `sipe_find_container_member`. -/
def member_matches (type value : Option String) (member : sipe_container_member) : Bool :=
  sipe_strcase_equal member.type type && sipe_strcase_equal member.value value

/-- The function `sipe_find_container_member` for a container that is not `NULL`. -/
def sipe_find_container_member (container : sipe_container) (type value : Option String) :
    Option sipe_container_member :=
  match type with
  | none => none
  | some _ => container.members.find? (member_matches type value)

/-- The function `sipe_find_container` on the list `sip->containers`. -/
def sipe_find_container (store : List sipe_container) (id : Nat) : Option sipe_container :=
  store.find? (fun container => decide (id = container.id))

/-- Modelled from the spec: the helper `sipe_get_no_sip_uri` of `sipe-utils.c`, which is not
among the sources; the value with a leading `sip:` removed. -/
def sipe_get_no_sip_uri (sip_uri : Option String) : Option String :=
  sip_uri.map
    (fun s => if "sip:".data.isPrefixOf s.data then String.mk (s.data.drop 4) else s)

/-- The loop of `sipe_find_member_access_level` over the table of levels. -/
def find_member_level (store : List sipe_container) (type value_mod : Option String) :
    List Nat → Int
  | [] => -1
  | id :: rest =>
    match sipe_find_container store id with
    | none => find_member_level store type value_mod rest
    | some container =>
      match sipe_find_container_member container type value_mod with
      | some _ => (id : Int)
      | none => find_member_level store type value_mod rest

/-- The function `sipe_find_member_access_level`. -/
def sipe_find_member_access_level (store : List sipe_container) (type value : Option String) :
    Int :=
  match type with
  | none => -1
  | some _ =>
    let value_mod := if sipe_strequal (some "user") type then sipe_get_no_sip_uri value else value
    find_member_level store type value_mod containers

/-- The function `sipe_get_domain`: the text after the first `@`, if it is not empty. -/
def sipe_get_domain (email : Option String) : Option String :=
  match email with
  | none => none
  | some s =>
    match s.data.dropWhile (fun c => c != '@') with
    | [] => none
    | _ :: rest => if rest = [] then none else some (String.mk rest)

/-- The table `public_domains`. -/
def public_domains : List String :=
  [ "aol.com", "icq.com", "love.com", "mac.com", "br.live.com",
    "hotmail.co.il", "hotmail.co.jp", "hotmail.co.th", "hotmail.co.uk",
    "hotmail.com", "hotmail.com.ar", "hotmail.com.tr", "hotmail.es",
    "hotmail.de", "hotmail.fr", "hotmail.it", "live.at", "live.be",
    "live.ca", "live.cl", "live.cn", "live.co.in", "live.co.kr",
    "live.co.uk", "live.co.za", "live.com", "live.com.ar", "live.com.au",
    "live.com.co", "live.com.mx", "live.com.my", "live.com.pe",
    "live.com.ph", "live.com.pk", "live.com.pt", "live.com.sg",
    "live.com.ve", "live.de", "live.dk", "live.fr", "live.hk", "live.ie",
    "live.in", "live.it", "live.jp", "live.nl", "live.no", "live.ph",
    "live.ru", "live.se", "livemail.com.br", "livemail.tw",
    "messengeruser.com", "msn.com", "passport.com", "sympatico.ca",
    "tw.live.com", "webtv.net", "windowslive.com", "windowslive.es",
    "yahoo.com" ]

/-- The function `sipe_is_public_domain`. -/
def sipe_is_public_domain (domain : Option String) : Bool :=
  public_domains.any (fun d => sipe_strcase_equal (some d) domain)

/-- The function `sipe_ocs2007_find_access_level` with the value it stores through
`is_group_access` (nothing when it stores none); `sip_domain` is the SIP domain of the
account. -/
def find_access_level_group (sip_domain : Option String) (store : List sipe_container)
    (type value : Option String) : Int × Option Bool :=
  if sipe_strequal (some "user") type then
    let no_sip_uri := sipe_get_no_sip_uri value
    let container_id := sipe_find_member_access_level store (some "user") no_sip_uri
    if container_id ≥ 0 then (container_id, some false)
    else
      let domain := sipe_get_domain no_sip_uri
      let container_id := sipe_find_member_access_level store (some "domain") domain
      if container_id ≥ 0 then (container_id, some true)
      else
        let container_id := sipe_find_member_access_level store (some "sameEnterprise") none
        if container_id ≥ 0 ∧ sipe_strcase_equal sip_domain domain = true then
          (container_id, some true)
        else
          let container_id := sipe_find_member_access_level store (some "publicCloud") none
          if container_id ≥ 0 ∧ sipe_is_public_domain domain = true then
            (container_id, some true)
          else
            let container_id := sipe_find_member_access_level store (some "everyone") none
            if container_id ≥ 0 then (container_id, some true)
            else (container_id, none)
  else
    (sipe_find_member_access_level store type value, some false)

/-- The value returned by `sipe_ocs2007_find_access_level`. -/
def sipe_ocs2007_find_access_level (sip_domain : Option String) (store : List sipe_container)
    (type value : Option String) : Int :=
  (find_access_level_group sip_domain store type value).1

/-- One `container` element prepared by `sipe_send_container_members_prepare`. -/
structure container_xml where
  container_id : Nat
  container_version : Nat
  action : String
  type : Option String
  value : Option String
  deriving DecidableEq, Repr

/-- The update `container->members = g_slist_remove (container->members, member)` on the
first container of the store with the given id, `member` being the first member that
matches. -/
def remove_container_member (type value : Option String) (id : Nat) :
    List sipe_container → List sipe_container
  | [] => []
  | container :: rest =>
    if id = container.id then
      { container with members := container.members.eraseP (member_matches type value) } :: rest
    else container :: remove_container_member type value id rest

/-- The loop `for each container: find/delete` of `sipe_ocs2007_change_access_level`; the
state is the store and the `container_xmls` prepared so far. -/
def change_access_level_loop (container_id : Int) (type value : Option String) :
    List Nat → List sipe_container × List container_xml →
      List sipe_container × List container_xml
  | [], st => st
  | id :: rest, (store, container_xmls) =>
    match sipe_find_container store id with
    | none => change_access_level_loop container_id type value rest (store, container_xmls)
    | some container =>
      match sipe_find_container_member container type value with
      | some _ =>
        if container_id < 0 ∨ container_id ≠ (id : Int) then
          change_access_level_loop container_id type value rest
            (remove_container_member type value id store,
             container_xmls ++ [ { container_id := id, container_version := container.version,
                                   action := "remove", type := type, value := value } ])
        else change_access_level_loop container_id type value rest (store, container_xmls)
      | none => change_access_level_loop container_id type value rest (store, container_xmls)

/-- The `add` element of `sipe_ocs2007_change_access_level`, prepared when the recomputed
level differs from a requested level that is not negative. -/
def change_access_level_add (sip_domain : Option String) (store : List sipe_container)
    (container_id : Int) (type value : Option String) : List container_xml :=
  let current_container_id := sipe_ocs2007_find_access_level sip_domain store type value
  if container_id ≠ current_container_id ∧ container_id ≥ 0 then
    let version :=
      match sipe_find_container store (to_guint container_id) with
      | some container => container.version
      | none => 0
    [ { container_id := to_guint container_id, container_version := version,
        action := "add", type := type, value := value } ]
  else []

/-- The request sent with the prepared elements: none when nothing was prepared. -/
def set_container_members_request (container_xmls : List container_xml) :
    Option (List container_xml) :=
  if container_xmls = [] then none else some container_xmls

/-- The function `sipe_ocs2007_change_access_level`: the store afterwards and the
`setContainerMembers` request that is sent, if any. -/
def sipe_ocs2007_change_access_level (sip_domain : Option String)
    (store : List sipe_container) (container_id : Int) (type value : Option String) :
    List sipe_container × Option (List container_xml) :=
  let st := change_access_level_loop container_id type value containers (store, [])
  (st.1, set_container_members_request
    (st.2 ++ change_access_level_add sip_domain st.1 container_id type value))

/-! ## The resolution order in the words of the specification -/

/-- The result of a chain of lookups tried in order: the level of the first one that
succeeds, `-1` when none does. -/
def first_success : List (Option Nat) → Int
  | [] => -1
  | some id :: _ => (id : Int)
  | none :: rest => first_success rest

/-- Lookup of a member by exact type and value: the first of the five levels, in the order
of the table, whose container holds such a member. -/
def lookup_level_exact (store : List sipe_container) (type : String) (value : Option String) :
    Option Nat :=
  containers.find? (fun id =>
    match sipe_find_container store id with
    | some container =>
      container.members.any (fun m => decide (m.type = some type ∧ m.value = value))
    | none => false)

/-- The resolution order for member type `user` as the claim words it, with members
compared for equality and one leading `sip:` removed from the value. -/
def find_access_level_user_as_stated (sip_domain : Option String)
    (store : List sipe_container) (value : Option String) : Int :=
  let no_sip_uri := sipe_get_no_sip_uri value
  let domain := sipe_get_domain no_sip_uri
  first_success
    [ lookup_level_exact store "user" no_sip_uri,
      lookup_level_exact store "domain" domain,
      if sipe_strcase_equal sip_domain domain then
        lookup_level_exact store "sameEnterprise" none else none,
      if sipe_is_public_domain domain then
        lookup_level_exact store "publicCloud" none else none,
      lookup_level_exact store "everyone" none ]

/-- Lookup of a member by type and value, both compared ignoring ASCII case: the first of
the five levels, in the order of the table, whose container holds such a member. -/
def lookup_level (store : List sipe_container) (type : String) (value : Option String) :
    Option Nat :=
  containers.find? (fun id =>
    match sipe_find_container store id with
    | some container => container.members.any (member_matches (some type) value)
    | none => false)

/-- The resolution order for member type `user` as amended: members are compared ignoring
ASCII case, and the `user` step removes a leading `sip:` once more from the value that has
already lost one. -/
def find_access_level_user_amended (sip_domain : Option String)
    (store : List sipe_container) (value : Option String) : Int :=
  let no_sip_uri := sipe_get_no_sip_uri value
  let domain := sipe_get_domain no_sip_uri
  first_success
    [ lookup_level store "user" (sipe_get_no_sip_uri no_sip_uri),
      lookup_level store "domain" domain,
      if sipe_strcase_equal sip_domain domain then
        lookup_level store "sameEnterprise" none else none,
      if sipe_is_public_domain domain then
        lookup_level store "publicCloud" none else none,
      lookup_level store "everyone" none ]

/-! ## Membership of a member in the containers -/

/-- A container holds the member `(type, value)`: `sipe_find_container_member` finds it. -/
def container_holds (type value : Option String) (container : sipe_container) : Bool :=
  (sipe_find_container_member container type value).isSome

/-- The container found for a level holds the member `(type, value)`. -/
def level_holds (store : List sipe_container) (type value : Option String) (id : Nat) : Bool :=
  match sipe_find_container store id with
  | some container => container_holds type value container
  | none => false

/-- A container lists the member `(type, value)` at most once. -/
def holds_at_most_once (type value : Option String) (container : sipe_container) : Prop :=
  (container.members.filter (member_matches type value)).length ≤ 1

instance (type value : Option String) (container : sipe_container) :
    Decidable (holds_at_most_once type value container) := by
  unfold holds_at_most_once; infer_instance

/-! ## Roaming-self snapshot -/

/-- The `state` child of a category element. -/
structure xml_state where
  /-- The attribute `type`. -/
  type : Option String
  /-- The child `availability`, when present, with its text. -/
  availability : Option (Option String)
  /-- The attribute `startTime`. -/
  startTime : Option String
  /-- The child `activity`, when present, with its attribute `token`. -/
  activity : Option (Option String)
  /-- The text of the child `meetingSubject`. -/
  meetingSubject : Option String
  /-- The text of the child `meetingLocation`. -/
  meetingLocation : Option String
  deriving DecidableEq, Repr

/-- The element `note/body` of a category element: attribute `type` and text. -/
structure xml_note_body where
  type : Option String
  data : Option String
  deriving DecidableEq, Repr

/-- The element `calendarData/freeBusy`: attribute `startTime` and text. -/
structure xml_free_busy where
  startTime : Option String
  data : Option String
  deriving DecidableEq, Repr

/-- A `userProperties/lines/line` element. -/
structure xml_line where
  lineServer : Option String
  lineType : Option String
  data : Option String
  deriving DecidableEq, Repr

/-- A `categories/category` element of the snapshot. -/
structure xml_category where
  name : String
  container : Option String
  inst : Option String
  version : Option String
  publishTime : Option String
  state : Option xml_state
  note_body : Option xml_note_body
  freeBusy : Option xml_free_busy
  /-- The element `calendarData/WorkingHours`, as text (`sipe_xml_stringify`). -/
  WorkingHours : Option String
  lines : List xml_line
  deriving DecidableEq, Repr

/-- A `containers/container` element of the snapshot with its `member` children. -/
structure xml_container where
  id : Option String
  version : Option String
  members : List sipe_container_member
  deriving DecidableEq, Repr

/-- A `subscribers/subscriber` element of the snapshot. -/
structure xml_subscriber where
  user : Option String
  displayName : Option String
  acknowledged : Option String
  deriving DecidableEq, Repr

/-- The parsed body of a roaming-self notification; `containers` is missing when the
document has no `containers` element. -/
structure roaming_self_xml where
  categories : List xml_category
  containers : Option (List xml_container)
  subscribers : List xml_subscriber
  deriving DecidableEq, Repr

/-- Modelled from the spec: the helper `sipe_xml_int_attribute` of `sipe-xml.c`, which is not
among the sources; the fallback for a missing attribute, the integer read from its text
otherwise. -/
def sipe_xml_int_attribute (attr : Option String) (fallback : Int) : Int :=
  match attr with
  | some value => atoi value
  | none => fallback

/-- The sentinel `(guint) -1`. -/
def GUINT_NONE : Nat := 4294967295

/-- The `guint container` of a category element. -/
def category_container (node : xml_category) : Nat :=
  to_guint (sipe_xml_int_attribute node.container (-1))

/-- The `guint instance` of a category element. -/
def category_instance (node : xml_category) : Nat :=
  to_guint (sipe_xml_int_attribute node.inst (-1))

/-- The `guint version` of a category element. -/
def category_version (node : xml_category) : Nat :=
  to_guint (sipe_xml_int_attribute node.version 0)

/-- The keys of `sip->our_publication_keys`, as `sipe_is_our_publication` fills them on its
first call. -/
def our_publication_keys (ext : Externals) : List String :=
  let device_instance := ext.sipe_get_pub_instance PubKey.SIPE_PUB_DEVICE
  let machine_instance := ext.sipe_get_pub_instance PubKey.SIPE_PUB_STATE_MACHINE
  let user_instance := ext.sipe_get_pub_instance PubKey.SIPE_PUB_STATE_USER
  let calendar_instance := ext.sipe_get_pub_instance PubKey.SIPE_PUB_STATE_CALENDAR
  let cal_oof_instance := ext.sipe_get_pub_instance PubKey.SIPE_PUB_STATE_CALENDAR_OOF
  let cal_data_instance := ext.sipe_get_pub_instance PubKey.SIPE_PUB_CALENDAR_DATA
  let note_oof_instance := ext.sipe_get_pub_instance PubKey.SIPE_PUB_NOTE_OOF
  [ publication_key "device" device_instance 2,
    publication_key "state" machine_instance 2,
    publication_key "state" machine_instance 3,
    publication_key "state" user_instance 2,
    publication_key "state" user_instance 3,
    publication_key "state" calendar_instance 2,
    publication_key "state" calendar_instance 3,
    publication_key "state" cal_oof_instance 2,
    publication_key "state" cal_oof_instance 3,
    publication_key "note" 0 200,
    publication_key "note" 0 300,
    publication_key "note" 0 400,
    publication_key "note" note_oof_instance 200,
    publication_key "note" note_oof_instance 300,
    publication_key "note" note_oof_instance 400,
    publication_key "calendarData" 0 1,
    publication_key "calendarData" 0 100,
    publication_key "calendarData" 0 200,
    publication_key "calendarData" 0 300,
    publication_key "calendarData" 0 400,
    publication_key "calendarData" 0 32000,
    publication_key "calendarData" cal_data_instance 1,
    publication_key "calendarData" cal_data_instance 100,
    publication_key "calendarData" cal_data_instance 200,
    publication_key "calendarData" cal_data_instance 300,
    publication_key "calendarData" cal_data_instance 400,
    publication_key "calendarData" cal_data_instance 32000 ]

/-- The function `sipe_is_our_publication`. -/
def sipe_is_our_publication (ext : Externals) (key : String) : Bool :=
  (our_publication_keys ext).any (fun k => sipe_strequal (some k) (some key))

/-- The traversal `g_hash_table_foreach` of a sub-table with the callback
`sipe_remove_category_container_publications_cb`. The callback removes the entry it is called
for when the container of the entry is the given one. The table it removes from is the one
that is traversed, and `g_hash_table_foreach` returns as soon as the table was modified
during a call (it compares the version of the table after each call): the first entry of the
container in the order of the traversal is removed and the entries after it are not visited. -/
def remove_container_foreach (container : Nat) :
    GHashTable sipe_publication → GHashTable sipe_publication
  | [] => []
  | (name, publication) :: rest =>
    if publication.container = container then rest
    else (name, publication) :: remove_container_foreach container rest

/-- The function `sipe_remove_category_container_publications`: the sub-table of the
category, if there is one, is traversed with the removing callback. -/
def sipe_remove_category_container_publications (our_publications : PublicationCache)
    (category : String) (container : Nat) : PublicationCache :=
  match g_hash_table_lookup our_publications category with
  | none => our_publications
  | some t =>
    g_hash_table_insert our_publications category (remove_container_foreach container t)

/-- Insertion into a sorted list as `g_slist_insert_sorted` does it: before the first
element that is not smaller than the new one. -/
def g_slist_insert_sorted {α : Type} (func : α → α → Ordering) (data : α) :
    List α → List α
  | [] => [data]
  | x :: rest =>
    if func data x = Ordering.gt then x :: g_slist_insert_sorted func data rest
    else data :: x :: rest

/-- Modelled from the spec: the helper `slist_insert_unique_sorted` of `sipe-utils.c`, which
is not among the sources; the element is inserted in sorted position unless the list already
holds an equal one. -/
def slist_insert_unique_sorted {α : Type} (func : α → α → Ordering) (list : List α)
    (data : α) : List α :=
  if list.any (fun x => func x data = Ordering.eq) then list
  else g_slist_insert_sorted func data list

/-- The comparison `strcmp` of two texts. -/
def strcmp (a b : String) : Ordering := compare a b

/-- The list `category_names` of the categories named in the snapshot. -/
def collect_category_names : List xml_category → List String → List String
  | [], category_names => category_names
  | node :: rest, category_names =>
    collect_category_names rest (slist_insert_unique_sorted strcmp category_names node.name)

/-- The loop `drop category information`: the sub-table of each listed category is removed
from the cache. -/
def drop_categories (our_publications : PublicationCache) : List String → PublicationCache
  | [] => our_publications
  | category :: rest =>
    match g_hash_table_lookup our_publications category with
    | some _ => drop_categories (g_hash_table_remove our_publications category) rest
    | none => drop_categories our_publications rest

/-- What the ingestion asks of its collaborators, in the order of the calls. -/
inductive Effect where
  /-- A `setContainerMembers` request (`sipe_send_set_container_members`). -/
  | set_container_members (container_xmls : List container_xml)
  /-- A `setSubscribers` request acknowledging a subscriber. -/
  | set_subscriber_acknowledged (user : String)
  /-- The call `sipe_buddy_update_property` for the display name. -/
  | buddy_update_display_name (uri : String) (display_name : Option String)
  /-- The call `sipe_backend_buddy_request_add`. -/
  | buddy_request_add (uri : String) (display_name : Option String)
  /-- The call `sipe_backend_buddy_set_blocked_status`. -/
  | buddy_set_blocked_status (buddy_name : String) (blocked : Bool)
  /-- The call `sip_csta_open`. -/
  | csta_open (line_uri line_server : String)
  /-- A publish request (`send_presence_publish`) with its publications. -/
  | presence_publish (publications : List publication_xml)
  /-- The call `sipe_groupchat_init`. -/
  | groupchat_init
  /-- The call `sipe_cal_delayed_calendar_update`. -/
  | cal_delayed_calendar_update
  /-- The call `sipe_status_and_note` with `sip->status`. -/
  | status_and_note (status : Option String)
  deriving DecidableEq, Repr

/-- Collaborators of the ingestion; parameters of the embedding. -/
structure RoamingExternals where
  /-- The function `sipe_utils_str_to_time`. -/
  sipe_utils_str_to_time : Option String → Int
  /-- The token `sipe_activity_to_token (SIPE_ACTIVITY_IN_MEETING)`. -/
  in_meeting_token : Option String
  /-- The function `sip_uri_from_name`. -/
  sip_uri_from_name : String → String
  /-- The test `sipe_backend_buddy_find (uri) != NULL`. -/
  sipe_backend_buddy_find : String → Bool
  /-- The buddies of `sipe_private->buddies` with `sipe_backend_buddy_is_blocked`. -/
  buddies : List (String × Bool)
  /-- The function `sipe_get_status_by_availability` (second argument `NULL`). -/
  sipe_get_status_by_availability : Int → Option String
  /-- The status left by `sipe_set_invisible_status`. -/
  sipe_set_invisible_status : Option String → Option String
  /-- The status left by `sipe_set_initial_status`. -/
  sipe_set_initial_status : Option String → Option String

/-- The fields of `struct sipe_account_data` (and the flag `MPOP` of the core) that the
ingestion reads and writes. -/
structure sipe_account_data where
  our_publications : PublicationCache
  user_state_publications : Option (GHashTable sipe_publication)
  containers : List sipe_container
  status : Option String
  note : Option String
  note_since : Int
  is_oof_note : Bool
  access_level_set : Bool
  initial_state_published : Bool
  csta : Bool
  MPOP : Bool
  deriving DecidableEq, Repr

/-- The local variables of `sipe_ocs2007_process_roaming_self` that live across its loops,
and the calls made so far. -/
structure roaming_locals where
  devices : GHashTable Unit
  aggreg_avail : Int
  do_update_status : Bool
  has_note_cleaned : Bool
  effects : List Effect
  deriving DecidableEq, Repr

/-- The publication built for a category element that is one of our publications. -/
def publication_of_category (ext : Externals) (rext : RoamingExternals)
    (node : xml_category) : sipe_publication :=
  let container := category_container node
  let is_state := sipe_strequal (some node.name) (some "state")
  let availability : Int :=
    if is_state then
      match node.state.bind (fun s => s.availability) with
      | some (some avail_str) => atoi avail_str
      | _ => 0
    else 0
  let cal_event_hash : Option String :=
    if is_state then
      match node.state with
      | some xn_state =>
        if sipe_strequal xn_state.type (some "calendarState") then
          some (ext.sipe_cal_event_hash
            { start_time := rext.sipe_utils_str_to_time xn_state.startTime
              end_time := 0
              cal_status := 0
              subject := xn_state.meetingSubject
              location := xn_state.meetingLocation
              is_meeting :=
                match xn_state.activity with
                | some token => sipe_strequal token rext.in_meeting_token
                | none => false })
        else none
      | none => none
    else none
  let note : Option String :=
    if sipe_strequal (some node.name) (some "note") then
      match node.note_body with
      | some xn_body => xn_body.data.map ext.g_markup_escape_text
      | none => none
    else none
  let is_cal_300 := sipe_strequal (some node.name) (some "calendarData") && decide (container = 300)
  { category := node.name
    inst := category_instance node
    container := container
    version := category_version node
    availability := availability
    cal_event_hash := cal_event_hash
    note := note
    working_hours_xml_str := if is_cal_300 then node.WorkingHours else none
    fb_start_str := if is_cal_300 then node.freeBusy.bind (fun fb => fb.startTime) else none
    free_busy_base64 := if is_cal_300 then node.freeBusy.bind (fun fb => fb.data) else none }

/-- The part of the loop body that records a `userState` publication of container 2 or 3 in
`sip->user_state_publications`. -/
def capture_user_state (node : xml_category) (key : String) (sip : sipe_account_data) :
    sipe_account_data :=
  let container := category_container node
  if sipe_strequal (some node.name) (some "state") && (container = 2 || container = 3) then
    match node.state with
    | some xn_state =>
      if sipe_strequal xn_state.type (some "userState") then
        { sip with
            user_state_publications :=
              some (g_hash_table_insert (sip.user_state_publications.getD []) key
                { category := node.name
                  inst := category_instance node
                  container := container
                  version := category_version node }) }
      else sip
    | none => sip
  else sip

/-- The part of the loop body that handles the note of one of our publications of category
`note`: the session note, its time stamp and the flags. -/
def ingest_note (ext : Externals) (node : xml_category) (publish_time : Int)
    (sip : sipe_account_data) (loc : roaming_locals) : sipe_account_data × roaming_locals :=
  if sipe_strequal (some node.name) (some "note") then
    let sip1 :=
      if loc.has_note_cleaned then sip
      else { sip with note := none, note_since := publish_time }
    let loc1 :=
      if loc.has_note_cleaned then loc
      else { loc with has_note_cleaned := true, do_update_status := true }
    match node.note_body with
    | some xn_body =>
      if publish_time ≥ sip1.note_since then
        ({ sip1 with note := xn_body.data.map ext.g_markup_escape_text,
                     note_since := publish_time,
                     is_oof_note := sipe_strequal xn_body.type (some "OOF") },
         { loc1 with do_update_status := true })
      else (sip1, loc1)
    | none => (sip1, loc1)
  else (sip, loc)

/-- The part of the loop body that caches one of our publications. -/
def ingest_our_publication (ext : Externals) (rext : RoamingExternals) (node : xml_category)
    (key : String) (publish_time : Int) (cat_publications : Option (GHashTable sipe_publication))
    (sip : sipe_account_data) (loc : roaming_locals) : sipe_account_data × roaming_locals :=
  if sipe_is_our_publication ext key then
    let publication := publication_of_category ext rext node
    let st := ingest_note ext node publish_time sip loc
    ({ st.1 with
         our_publications :=
           g_hash_table_insert st.1.our_publications node.name
             (g_hash_table_insert (cat_publications.getD []) key publication) },
     st.2)
  else (sip, loc)

/-- The part of the loop body that reads the aggregate state of container 2. -/
def ingest_aggregate_state (node : xml_category) (loc : roaming_locals) : roaming_locals :=
  if sipe_strequal (some node.name) (some "state") && decide (category_container node = 2) then
    match node.state with
    | some xn_state =>
      if sipe_strequal xn_state.type (some "aggregateState") then
        { loc with
            aggreg_avail :=
              (match xn_state.availability with
               | some (some avail_str) => atoi avail_str
               | _ => loc.aggreg_avail),
            do_update_status := true }
      else loc
    | none => loc
  else loc

/-- The part of the loop body that opens remote call control for the first usable line of the
user properties; `sip_csta_open` allocates `sip->csta`. -/
def ingest_user_properties (node : xml_category) (sip : sipe_account_data)
    (loc : roaming_locals) : sipe_account_data × roaming_locals :=
  if !sip.csta && sipe_strequal (some node.name) (some "userProperties") then
    match node.lines.find? (fun line =>
        line.lineServer.isSome &&
          (sipe_strequal line.lineType (some "Rcc") || sipe_strequal line.lineType (some "Dual")))
      with
    | some line =>
      match line.data, line.lineServer with
      | some line_uri, some line_server =>
        ({ sip with csta := true },
         { loc with effects := loc.effects ++ [Effect.csta_open line_uri line_server] })
      | _, _ => (sip, loc)
    | none => (sip, loc)
  else (sip, loc)

/-- Body of the loop `filling our categories reflected in roaming data` for one category
element. -/
def process_category (ext : Externals) (rext : RoamingExternals) (node : xml_category)
    (sip : sipe_account_data) (loc : roaming_locals) : sipe_account_data × roaming_locals :=
  let container := category_container node
  let inst := category_instance node
  let publish_time : Int :=
    match node.publishTime with
    | some tmp => rext.sipe_utils_str_to_time (some tmp)
    | none => 0
  let cat_publications := g_hash_table_lookup sip.our_publications node.name
  if container = GUINT_NONE then
    ({ sip with note := none }, { loc with do_update_status := true })
  else if inst = GUINT_NONE then
    let sip1 := if container = 200 then { sip with note := none } else sip
    let loc1 := if container = 200 then { loc with do_update_status := true } else loc
    ({ sip1 with
         our_publications :=
           sipe_remove_category_container_publications sip1.our_publications node.name
             container },
     loc1)
  else
    let key := publication_key node.name inst container
    let sip2 := capture_user_state node key sip
    let loc2 :=
      if sipe_strequal (some node.name) (some "device") then
        { loc with devices := g_hash_table_insert loc.devices (toString inst) () }
      else loc
    let st3 := ingest_our_publication ext rext node key publish_time cat_publications sip2 loc2
    let loc4 := ingest_aggregate_state node st3.2
    ingest_user_properties node st3.1 loc4

/-- The loop over the `categories/category` elements. -/
def process_categories (ext : Externals) (rext : RoamingExternals) :
    List xml_category → sipe_account_data × roaming_locals → sipe_account_data × roaming_locals
  | [], st => st
  | node :: rest, st =>
    process_categories ext rext rest (process_category ext rext node st.1 st.2)

/-- The loop over the `containers/container` elements: an existing container with the id is
removed and the container of the snapshot is appended. -/
def process_containers : List xml_container → List sipe_container → List sipe_container
  | [], store => store
  | node :: rest, store =>
    let id := to_guint (sipe_xml_int_attribute node.id 0)
    let store1 :=
      match sipe_find_container store id with
      | some _ => store.eraseP (fun container => decide (id = container.id))
      | none => store
    process_containers rest
      (store1 ++ [ { id := id
                     version := to_guint (sipe_xml_int_attribute node.version 0)
                     members := node.members } ])

/-- The initial set-up of the access levels: the elements prepared for `sameEnterprise` in
container 200 and `federated` in container 100. -/
def initial_access_levels (sip_domain : Option String) (store : List sipe_container) :
    List container_xml :=
  let sameEnterpriseAL :=
    sipe_ocs2007_find_access_level sip_domain store (some "sameEnterprise") none
  let federatedAL := sipe_ocs2007_find_access_level sip_domain store (some "federated") none
  let version_of (id : Nat) : Nat :=
    match sipe_find_container store id with
    | some container => container.version
    | none => 0
  (if sameEnterpriseAL < 0 then
      [ { container_id := 200, container_version := version_of 200, action := "add",
          type := some "sameEnterprise", value := none } ]
    else []) ++
  (if federatedAL < 0 then
      [ { container_id := 100, container_version := version_of 100, action := "add",
          type := some "federated", value := none } ]
    else [])

/-- The call `sipe_refresh_blocked_status`: the buddies whose blocked status changes. -/
def sipe_refresh_blocked_status (sip_domain : Option String) (store : List sipe_container)
    (buddies : List (String × Bool)) : List Effect :=
  buddies.filterMap (fun b =>
    let container_id := sipe_ocs2007_find_access_level sip_domain store (some "user") (some b.1)
    let blocked := decide (container_id = 32000)
    if blocked ≠ b.2 then some (Effect.buddy_set_blocked_status b.1 blocked) else none)

/-- The loop over the `subscribers/subscriber` elements. -/
def process_subscribers (rext : RoamingExternals) : List xml_subscriber → List Effect
  | [] => []
  | node :: rest =>
    match node.user with
    | none => process_subscribers rext rest
    | some user =>
      let uri := rext.sip_uri_from_name user
      let ack :=
        if sipe_strcase_equal node.acknowledged (some "false") then
          (if rext.sipe_backend_buddy_find uri then []
           else [Effect.buddy_request_add uri node.displayName]) ++
          [Effect.set_subscriber_acknowledged user]
        else []
      Effect.buddy_update_display_name uri node.displayName :: ack ++
        process_subscribers rext rest

/-- The function `send_publish_category_initial`: the status left by
`sipe_set_initial_status` and the publications sent. -/
def send_publish_category_initial (ext : Externals) (rext : RoamingExternals)
    (our_publications : PublicationCache) (status : Option String) :
    Option String × List publication_xml :=
  let pub_device := sipe_publish_get_category_device ext our_publications
  let status1 := rext.sipe_set_initial_status status
  let pub_machine := sipe_publish_get_category_state_machine ext our_publications status1
  (status1, pub_device ++ fragment_or_empty pub_machine)

/-- The function `sipe_ocs2007_process_roaming_self`: the session afterwards and the calls
made, in order. `body` is the parsed notification, missing when it does not parse. -/
def sipe_ocs2007_process_roaming_self (ext : Externals) (rext : RoamingExternals)
    (sip_domain : Option String) (sip : sipe_account_data) (body : Option roaming_self_xml) :
    sipe_account_data × List Effect :=
  match body with
  | none => (sip, [])
  | some xml =>
    let category_names := collect_category_names xml.categories []
    let sip1 := { sip with our_publications := drop_categories sip.our_publications category_names }
    let st := process_categories ext rext xml.categories
      (sip1, { devices := [], aggreg_avail := 0, do_update_status := false,
               has_note_cleaned := false, effects := [] })
    let sip2 := { st.1 with MPOP := decide (st.2.devices.length > 1) }
    let sip3 := { sip2 with containers := process_containers (xml.containers.getD []) sip2.containers }
    let seed : List container_xml :=
      if !sip3.access_level_set && xml.containers.isSome then
        initial_access_levels sip_domain sip3.containers
      else []
    let sip4 :=
      if !sip3.access_level_set && xml.containers.isSome then
        { sip3 with access_level_set := true }
      else sip3
    let effects1 := st.2.effects ++
      (match set_container_members_request seed with
       | some container_xmls => [Effect.set_container_members container_xmls]
       | none => []) ++
      sipe_refresh_blocked_status sip_domain sip4.containers rext.buddies ++
      process_subscribers rext xml.subscribers
    if !sip4.initial_state_published then
      let initial := send_publish_category_initial ext rext sip4.our_publications sip4.status
      ({ sip4 with status := initial.1, initial_state_published := true },
       effects1 ++ [Effect.presence_publish initial.2, Effect.groupchat_init,
         Effect.cal_delayed_calendar_update])
    else
      let sip5 :=
        if st.2.aggreg_avail ≠ 0 then
          if st.2.aggreg_avail < 18000 then
            { sip4 with status := rext.sipe_get_status_by_availability st.2.aggreg_avail }
          else { sip4 with status := rext.sipe_set_invisible_status sip4.status }
        else sip4
      (sip5, effects1 ++
        (if st.2.do_update_status then [Effect.status_and_note sip5.status] else []))

/-- Sample collaborators of the ingestion for the evaluations. -/
def sample_roaming_externals : RoamingExternals :=
  { sipe_utils_str_to_time := fun s =>
      match s with
      | some t => atoi t
      | none => 0
    in_meeting_token := some "in-a-meeting"
    sip_uri_from_name := fun name => "sip:" ++ name
    sipe_backend_buddy_find := fun _ => false
    buddies := []
    sipe_get_status_by_availability := fun _ => some "available"
    sipe_set_invisible_status := fun _ => some "invisible"
    sipe_set_initial_status := fun s => s }

/-- A session before the first snapshot: nothing cached, nothing initialised. -/
def fresh_session : sipe_account_data :=
  { our_publications := []
    user_state_publications := none
    containers := []
    status := none
    note := none
    note_since := 0
    is_oof_note := false
    access_level_set := false
    initial_state_published := false
    csta := false
    MPOP := false }

/-- A category element with the given name, container, instance and version attributes and
no content. -/
def plain_category (name : String) (container inst version : Option String) : xml_category :=
  { name := name, container := container, inst := inst, version := version,
    publishTime := none, state := none, note_body := none, freeBusy := none,
    WorkingHours := none, lines := [] }

/-- Sample collaborators whose event hash is written from start time, subject, location and
meeting flag, in the form `<start><subject><location><meeting>`. -/
def sample_hash_externals : Externals :=
  { sample_externals with
    sipe_cal_event_hash := fun e =>
      "<" ++ toString e.start_time ++ "><" ++ e.subject.getD "" ++ "><" ++
        e.location.getD "" ++ "><" ++ (if e.is_meeting then "1" else "0") ++ ">" }

/-- The category element with which the server returns a calendar state publication of the
busy instance of `sample_hash_externals`: a meeting at time 100 with availability 6500. -/
def busy_state_category (container version : String) : xml_category :=
  { name := "state", container := some container, inst := some "14", version := some version,
    publishTime := none,
    state := some { type := some "calendarState", availability := some (some "6500"),
                    startTime := some "100", activity := some (some "in-a-meeting"),
                    meetingSubject := some "standup", meetingLocation := some "room 1" },
    note_body := none, freeBusy := none, WorkingHours := none, lines := [] }

/-- The entry of a key gets a new version, in place; nothing changes when the key is not
cached. -/
def set_version (cache : PublicationCache) (c k : String) (w : Nat) : PublicationCache :=
  match g_hash_table_lookup cache c with
  | some t =>
    match g_hash_table_lookup t k with
    | some p => g_hash_table_insert cache c (g_hash_table_insert t k { p with version := w })
    | none => cache
  | none => cache

/-! ## Observations on the ingestion -/

/-- The call is a `setContainerMembers` request. -/
def is_set_container_members : Effect → Bool
  | Effect.set_container_members _ => true
  | _ => false

/-- Ingestion of a run of notifications, one after the other, by
`sipe_ocs2007_process_roaming_self`: the session afterwards and all the calls made. -/
def process_roaming_self_run (ext : Externals) (rext : RoamingExternals)
    (sip_domain : Option String) :
    List (Option roaming_self_xml) → sipe_account_data × List Effect →
      sipe_account_data × List Effect
  | [], st => st
  | body :: rest, st =>
    process_roaming_self_run ext rext sip_domain rest
      ((sipe_ocs2007_process_roaming_self ext rext sip_domain st.1 body).1,
       st.2 ++ (sipe_ocs2007_process_roaming_self ext rext sip_domain st.1 body).2)

/-- The container that the loop over the `containers/container` elements allocates for one
element: `id` and `version` read with `sipe_xml_int_attribute`, the members in document
order. -/
def container_of_xml (node : xml_container) : sipe_container :=
  { id := to_guint (sipe_xml_int_attribute node.id 0)
    version := to_guint (sipe_xml_int_attribute node.version 0)
    members := node.members }

/-- The version `container ? container->version : 0` of the container found for an id. -/
def container_version_or_zero (store : List sipe_container) (id : Nat) : Nat :=
  match sipe_find_container store id with
  | some container => container.version
  | none => 0

/-! ## Change of an access level: the elements prepared -/

/-- The `remove` element that the find/delete loop of `sipe_ocs2007_change_access_level`
prepares for a level: the id and the version of the container found for it. -/
def remove_element (store : List sipe_container) (type value : Option String) (id : Nat) :
    container_xml :=
  { container_id := id, container_version := container_version_or_zero store id,
    action := "remove", type := type, value := value }

/-- The levels from which the find/delete loop removes the member: the levels of the table,
in its order, whose container holds the member and which are not the requested level. -/
def removed_levels (container_id : Int) (store : List sipe_container)
    (type value : Option String) : List Nat :=
  containers.filter (fun id =>
    level_holds store type value id && decide (container_id < 0 ∨ container_id ≠ (id : Int)))

/-! ## Reset of the user state -/

/-- The callback `sipe_publish_get_cat_state_user_to_clear`: the clearing publication
(`SIPE_PUB_XML_PUBLICATION_CLEAR`, `expires="0"`) written for one recorded publication. -/
def sipe_publish_get_cat_state_user_to_clear (publication : sipe_publication) :
    publication_xml :=
  { categoryName := publication.category, inst := publication.inst,
    container := publication.container, version := publication.version,
    expireType := "static", body := PublicationBody.clear }

/-- The function `sipe_ocs2007_reset_status`: the publications of the request it sends, none
when it sends nothing. The traversal `g_hash_table_foreach` follows the order of the table. -/
def sipe_ocs2007_reset_status (sip : sipe_account_data) : Option (List publication_xml) :=
  match sip.user_state_publications with
  | none => none
  | some t =>
    if t.length = 0 then none
    else some (t.map (fun kv => sipe_publish_get_cat_state_user_to_clear kv.2))

/-! ## Kinds of category elements -/

/-- The category element is a normal entry: it names a container and an instance. -/
def is_normal_entry (node : xml_category) : Bool :=
  decide (category_container node ≠ GUINT_NONE) && decide (category_instance node ≠ GUINT_NONE)

/-- The category element is a single-container clear: it names a container and no
instance. -/
def is_container_clear (node : xml_category) : Bool :=
  decide (category_container node ≠ GUINT_NONE) && decide (category_instance node = GUINT_NONE)

/-- The key `<category><instance><container>` of a category element. -/
def category_key (node : xml_category) : String :=
  publication_key node.name (category_instance node) (category_container node)

/-- The category element is a normal `state` entry of container 2 or 3 whose state has the
type `userState`. -/
def is_user_state_entry (node : xml_category) : Bool :=
  is_normal_entry node && sipe_strequal (some node.name) (some "state") &&
    (decide (category_container node = 2) || decide (category_container node = 3)) &&
    (match node.state with
     | some xn_state => sipe_strequal xn_state.type (some "userState")
     | none => false)

/-- The publication recorded in `sip->user_state_publications` for a category element:
category, instance, container and version. -/
def user_state_record (node : xml_category) : sipe_publication :=
  { category := node.name, inst := category_instance node,
    container := category_container node, version := category_version node }

/-- The instances of the clients of the snapshot: those of the normal entries of category
`device`, in document order. -/
def device_instances (nodes : List xml_category) : List Nat :=
  nodes.filterMap (fun node =>
    if is_normal_entry node && sipe_strequal (some node.name) (some "device") then
      some (category_instance node)
    else none)

/-- The instance values of the `device` entries of a snapshot in the words of the
specification: the instance of every category element named `device` that carries an
instance attribute, whether or not the element names a container. -/
def device_instances_as_stated (nodes : List xml_category) : List Nat :=
  nodes.filterMap (fun node =>
    if sipe_strequal (some node.name) (some "device") && node.inst.isSome then
      some (category_instance node)
    else none)

/-- The call belongs to the initial publish sequence: the publish request of
`send_publish_category_initial`, `sipe_groupchat_init` or the delayed calendar update. -/
def is_initial_publish_step : Effect → Bool
  | Effect.presence_publish _ => true
  | Effect.groupchat_init => true
  | Effect.cal_delayed_calendar_update => true
  | _ => false

/-- The call is a publish request. -/
def is_presence_publish : Effect → Bool
  | Effect.presence_publish _ => true
  | _ => false

/-- The publication carries the empty element `<calendarData xmlns=.../>`. -/
def is_calendar_data_empty (e : publication_xml) : Bool :=
  decide (e.body = PublicationBody.calendar_data_empty)

/-! ## Scheduling of the calendar publication -/

/-- The conversion to `time_t`, a signed integer of 64 bits. -/
def to_time_t (x : Int) : Int :=
  (x + 9223372036854775808) % 18446744073709551616 - 9223372036854775808

/-- The value `next_start` of `schedule_publish_update`:
`(time_t)((int)((int)calculate_from)/interval + 1)*interval` with `interval = 5*60`; the
division of two `int` rounds towards zero. -/
def next_start (calculate_from : Int) : Int :=
  let interval : Int := long_to_int (5 * 60)
  to_time_t
    (to_time_t (long_to_int (Int.tdiv (long_to_int (long_to_int calculate_from)) interval + 1))
      * to_time_t interval)

/-- The function `schedule_publish_update`: the number of seconds passed to
`sipe_schedule_seconds`, `next_start - time(NULL)`; `now` is the value of `time(NULL)`. -/
def schedule_publish_update (calculate_from now : Int) : Int :=
  to_time_t (next_start calculate_from - now)

/-! ## Access level of a domain by index -/

/-- The function `sipe_ocs2007_change_access_level_for_domain`: the store afterwards and the
request, or nothing when the table access `containers[i]` is out of bounds. -/
def sipe_ocs2007_change_access_level_for_domain (sip_domain : Option String)
    (store : List sipe_container) (domain : Option String) (index : Nat) :
    Option (List sipe_container × Option (List container_xml)) :=
  let i : Nat := if index = 4 then 0 else to_guint ((index : Int) + 1)
  match containers[i]? with
  | some container_id =>
    some (sipe_ocs2007_change_access_level sip_domain store (long_to_int (container_id : Int))
      (some "domain") domain)
  | none => none

/-! ## The domains with an access level -/

/-- The GLib comparison `g_ascii_strcasecmp`: the order of the two texts with the ASCII
capitals lowered; it returns 0 when an argument is `NULL` (`g_return_val_if_fail`). -/
def g_ascii_strcasecmp (s1 s2 : Option String) : Ordering :=
  match s1, s2 with
  | some a, some b => compare (String.mk (ascii_lower a)) (String.mk (ascii_lower b))
  | _, _ => Ordering.eq

/-- The inner loop of `sipe_ocs2007_get_access_domains` over the members of a container. -/
def access_domains_of_members :
    List sipe_container_member → List (Option String) → List (Option String)
  | [], res => res
  | member :: rest, res =>
    access_domains_of_members rest
      (if sipe_strcase_equal member.type (some "domain") then
         slist_insert_unique_sorted g_ascii_strcasecmp res member.value
       else res)

/-- The outer loop of `sipe_ocs2007_get_access_domains` over the containers. -/
def access_domains_of_containers :
    List sipe_container → List (Option String) → List (Option String)
  | [], res => res
  | container :: rest, res =>
    access_domains_of_containers rest (access_domains_of_members container.members res)

/-- The function `sipe_ocs2007_get_access_domains`. -/
def sipe_ocs2007_get_access_domains (store : List sipe_container) : List (Option String) :=
  access_domains_of_containers store []

/-- The members of the store whose type is `domain`, compared ignoring case, in the order
of the store. -/
def domain_members (store : List sipe_container) : List sipe_container_member :=
  (store.map (fun c => c.members)).flatten.filter
    (fun m => sipe_strcase_equal m.type (some "domain"))

/-! ## The key of an emitted publication -/

/-- The key `<category><instance><container>` of a publication written by a builder. -/
def emitted_key (e : publication_xml) : String :=
  publication_key e.categoryName e.inst e.container

/-- The publication elements of a request as the reconciler reads them back from the text
of the request: the attributes `categoryName`, `instance` and `container`, which the
templates write with `%s`, `%u` and `%u`. -/
def request_nodes (doc : List publication_xml) : List PublicationNode :=
  doc.map (fun e => ⟨e.categoryName, toString e.inst, toString e.container⟩)

/-- The `state` publications of a request of `sipe_ocs2007_presence_publish`, in the order
of the request; there is none when no request is sent. The other fragments of the request
have the categories `calendarData` and `note`. -/
def state_publications (batch : Option (List publication_xml)) : List publication_xml :=
  (batch.getD []).filter (fun e => decide (e.categoryName = "state"))

/-! ## The signature string (`sipe-sign.c`) -/

/-- A `gchar *` field of `struct sipmsg_breakdown`: `NULL`, the static `empty_string`, or a
text of its own. -/
inductive breakdown_field where
  | null
  | empty_string
  | text (s : String)
  deriving DecidableEq, Repr

/-- The record `struct sipmsg_breakdown` with the fields `method` and `response` of its
`struct sipmsg`. -/
structure sipmsg_breakdown where
  method : breakdown_field
  response : Int
  protocol : breakdown_field
  rand : breakdown_field
  num : breakdown_field
  realm : breakdown_field
  target_name : breakdown_field
  call_id : breakdown_field
  cseq : breakdown_field
  from_url : breakdown_field
  from_tag : breakdown_field
  to_url : breakdown_field
  to_tag : breakdown_field
  p_assertet_identity_sip_uri : breakdown_field
  p_assertet_identity_tel_uri : breakdown_field
  expires : breakdown_field
  deriving DecidableEq, Repr

/-- What the conversion `%s` writes for a field; `null_text` is what the C library writes
for `NULL`. -/
def percent_s (null_text : String) : breakdown_field → String
  | breakdown_field.null => null_text
  | breakdown_field.empty_string => ""
  | breakdown_field.text s => s

/-- The function `sipmsg_breakdown_get_string`; nothing stands for `NULL`. -/
def sipmsg_breakdown_get_string (null_text : String) (msgbd : sipmsg_breakdown) :
    Option String :=
  if msgbd.realm = breakdown_field.empty_string ∨ msgbd.realm = breakdown_field.null then none
  else
    let response_str : String :=
      if msgbd.response ≠ 0 then "<" ++ toString msgbd.response ++ ">" else ""
    some ("<" ++ percent_s null_text msgbd.protocol ++ "><" ++ percent_s null_text msgbd.rand ++
      "><" ++ percent_s null_text msgbd.num ++ "><" ++ percent_s null_text msgbd.realm ++
      "><" ++ percent_s null_text msgbd.target_name ++ "><" ++
      percent_s null_text msgbd.call_id ++ "><" ++ percent_s null_text msgbd.cseq ++ "><" ++
      percent_s null_text msgbd.method ++ "><" ++ percent_s null_text msgbd.from_url ++ "><" ++
      percent_s null_text msgbd.from_tag ++ "><" ++ percent_s null_text msgbd.to_tag ++ ">" ++
      "<" ++ (if msgbd.expires = breakdown_field.null then ""
              else percent_s null_text msgbd.expires) ++ ">" ++ response_str)

/-! # Theorems -/

/-! ## Lemmas on hash tables -/

theorem lookup_insert_self {β : Type} (t : GHashTable β) (k : String) (v : β) :
    g_hash_table_lookup (g_hash_table_insert t k v) k = some v := by
  induction t with
  | nil => simp [g_hash_table_insert, g_hash_table_lookup]
  | cons hd tl ih =>
    obtain ⟨k1, v1⟩ := hd
    by_cases h : k1 = k
    · simp [g_hash_table_insert, g_hash_table_lookup, h]
    · simp [g_hash_table_insert, g_hash_table_lookup, h, ih]

theorem lookup_insert_ne {β : Type} (t : GHashTable β) (k k2 : String) (v : β) (hne : k ≠ k2) :
    g_hash_table_lookup (g_hash_table_insert t k v) k2 = g_hash_table_lookup t k2 := by
  induction t with
  | nil => simp [g_hash_table_insert, g_hash_table_lookup, hne]
  | cons hd tl ih =>
    obtain ⟨k1, v1⟩ := hd
    by_cases h : k1 = k
    · subst h
      simp [g_hash_table_insert, g_hash_table_lookup, hne]
    · by_cases h2 : k1 = k2
      · subst h2
        simp [g_hash_table_insert, g_hash_table_lookup, h]
      · simp [g_hash_table_insert, g_hash_table_lookup, h, h2, ih]

/-! ## Decimal texts -/

theorem digitChar_toNat (d : Nat) (h : d < 10) : (Nat.digitChar d).toNat = 48 + d := by
  interval_cases d <;> rfl

theorem atoi_digits_toDigitsCore (n : Nat) :
    ∀ (fuel : Nat) (ds : List Char), n < fuel →
      atoi_digits (Nat.toDigitsCore 10 fuel n ds) 0 = atoi_digits ds n := by
  induction n using Nat.strong_induction_on with
  | _ n ih =>
    intro fuel ds hf
    cases fuel with
    | zero => omega
    | succ fuel =>
      have hd := digitChar_toNat (n % 10) (Nat.mod_lt _ (by decide))
      simp only [Nat.toDigitsCore]
      by_cases h0 : n / 10 = 0
      · simp only [h0, if_true]
        have hn : n % 10 = n := by omega
        rw [hn] at hd
        have h1 : 48 ≤ n.digitChar.toNat ∧ n.digitChar.toNat ≤ 57 := by omega
        have h2 : 0 * 10 + (n.digitChar.toNat - 48) = n := by omega
        simp only [atoi_digits, hn, h1, h2, and_self, if_true]
      · simp only [h0, if_false]
        rw [ih (n / 10) (by omega) fuel _ (by omega)]
        have h1 : 48 ≤ (n % 10).digitChar.toNat ∧ (n % 10).digitChar.toNat ≤ 57 := by omega
        have h2 : n / 10 * 10 + ((n % 10).digitChar.toNat - 48) = n := by omega
        simp only [atoi_digits, h1, h2, and_self, if_true]

theorem atoi_digits_repr (n : Nat) : atoi_digits (toString n).data 0 = n := by
  have h := atoi_digits_toDigitsCore n (n + 1) [] (by omega)
  simpa [atoi_digits, toString, Nat.repr, Nat.toDigits, List.asString] using h

theorem toDigitsCore_head (fuel : Nat) :
    ∀ (n : Nat) (ds : List Char), 0 < fuel →
      ∃ c cs, Nat.toDigitsCore 10 fuel n ds = c :: cs ∧ 48 ≤ c.toNat ∧ c.toNat ≤ 57 := by
  induction fuel with
  | zero => intro n ds h; omega
  | succ fuel ih =>
    intro n ds _
    have hd := digitChar_toNat (n % 10) (Nat.mod_lt _ (by decide))
    simp only [Nat.toDigitsCore]
    by_cases h0 : n / 10 = 0
    · simp only [h0, if_true]
      exact ⟨_, _, rfl, by omega, by omega⟩
    · simp only [h0, if_false]
      cases fuel with
      | zero => exact ⟨_, _, rfl, by omega, by omega⟩
      | succ fuel => exact ih (n / 10) _ (by omega)

theorem repr_head (n : Nat) :
    ∃ c cs, (toString n).data = c :: cs ∧ 48 ≤ c.toNat ∧ c.toNat ≤ 57 := by
  obtain ⟨c, cs, h, hc⟩ := toDigitsCore_head (n + 1) n [] (by omega)
  exact ⟨c, cs, by simpa [toString, Nat.repr, Nat.toDigits, List.asString] using h, hc⟩

theorem strtol10_repr (n : Nat) (h : n < 9223372036854775808) : strtol10 (toString n) = n := by
  obtain ⟨c, cs, hcs, h1, h2⟩ := repr_head n
  have hd := atoi_digits_repr n
  rw [hcs] at hd
  have hsp : isspace c = false := by
    simp only [isspace, Bool.or_eq_false_iff, decide_eq_false_iff_not, Bool.and_eq_false_iff]
    omega
  have hv : atoi_signed (List.dropWhile isspace (c :: cs)) = (n : Int) := by
    have e1 : c.toNat ≠ 45 := by omega
    have e2 : c.toNat ≠ 43 := by omega
    simp only [List.dropWhile, hsp, atoi_signed, e1, e2, if_false, hd]
  simp only [strtol10, hcs, hv]
  have a1 : ¬ ((n : Int) < -9223372036854775808) := by omega
  have a2 : ¬ ((9223372036854775807 : Int) < (n : Int)) := by omega
  simp only [a1, a2, if_false]

theorem to_guint_atoi_repr (n : Nat) (h : n < 4294967296) : to_guint (atoi (toString n)) = n := by
  have hs := strtol10_repr n (by omega)
  simp only [atoi, hs, long_to_int, to_guint]
  omega

/-! ## Conflict reconciler -/

theorem lookup_publication_insert_self (cache : PublicationCache) (c k : String)
    (t : GHashTable sipe_publication) :
    lookup_publication (g_hash_table_insert cache c t) c k = g_hash_table_lookup t k := by
  simp [lookup_publication, lookup_insert_self]

theorem lookup_publication_insert_ne (cache : PublicationCache) (c c2 k : String)
    (t : GHashTable sipe_publication) (h : c ≠ c2) :
    lookup_publication (g_hash_table_insert cache c t) c2 k = lookup_publication cache c2 k := by
  simp [lookup_publication, lookup_insert_ne _ _ _ _ h]

/-- A patch of a cached key replaces its version and nothing else. -/
theorem patch_publication_hit (cache : PublicationCache) (node : PublicationNode)
    (curVersion : String) (p : sipe_publication)
    (h : lookup_publication cache node.categoryName (node_key node) = some p) :
    lookup_publication (patch_publication cache node curVersion) node.categoryName (node_key node)
      = some { p with version := to_guint (atoi curVersion) } := by
  unfold lookup_publication at h
  unfold patch_publication
  cases hc : g_hash_table_lookup cache node.categoryName with
  | none => simp [hc] at h
  | some t =>
    simp only [hc] at h
    simp only [h, lookup_publication_insert_self, lookup_insert_self]

/-- A patch leaves every other key of the cache as it was. -/
theorem patch_publication_frame (cache : PublicationCache) (node : PublicationNode)
    (curVersion c k : String) (h : ¬ (node.categoryName = c ∧ node_key node = k)) :
    lookup_publication (patch_publication cache node curVersion) c k
      = lookup_publication cache c k := by
  unfold patch_publication
  cases hc : g_hash_table_lookup cache node.categoryName with
  | none =>
    simp only []
    by_cases h1 : node.categoryName = c
    · subst h1
      have h2 : node_key node ≠ k := by
        intro e; exact h ⟨rfl, e⟩
      simp [lookup_publication, lookup_insert_self, hc, g_hash_table_lookup, h2]
    · rw [lookup_publication_insert_ne _ _ _ _ _ h1]
  | some t =>
    simp only []
    cases hp : g_hash_table_lookup t (node_key node) with
    | none => rfl
    | some p =>
      simp only []
      by_cases h1 : node.categoryName = c
      · subst h1
        have h2 : node_key node ≠ k := by
          intro e; exact h ⟨rfl, e⟩
        simp [lookup_publication, lookup_insert_self, hc, lookup_insert_ne _ _ _ _ h2]
      · rw [lookup_publication_insert_ne _ _ _ _ _ h1]

/-- The loop keeps a cached key untouched when none of the elements with this key is faulted. -/
theorem reconcile_loop_frame (faults : GHashTable (Option String)) (c k : String) :
    ∀ (nodes : List PublicationNode) (start : Nat) (cache : PublicationCache) (flag : Bool),
      (∀ j nd, nodes[j]? = some nd → nd.categoryName = c → node_key nd = k →
        fault_lookup faults (toString (start + j)) = none) →
      lookup_publication (reconcile_loop faults nodes start (cache, flag)).1 c k
        = lookup_publication cache c k := by
  intro nodes
  induction nodes with
  | nil => intro start cache flag _; rfl
  | cons node rest ih =>
    intro start cache flag h
    simp only [reconcile_loop]
    rw [ih]
    · cases hf : fault_lookup faults (toString start) with
      | none => rfl
      | some v =>
        simp only []
        apply patch_publication_frame
        rintro ⟨h1, h2⟩
        have := h 0 node (by simp) h1 h2
        simp [hf] at this
    · intro j nd hj h1 h2
      have := h (j + 1) nd (by simpa using hj) h1 h2
      rw [← this]
      congr 2
      omega

/-- One step of the loop never drops a cached key. -/
theorem patch_publication_keeps (cache : PublicationCache) (node : PublicationNode)
    (curVersion c k : String) (p : sipe_publication)
    (h : lookup_publication cache c k = some p) :
    ∃ v : Nat, lookup_publication (patch_publication cache node curVersion) c k
      = some { p with version := v } := by
  by_cases hk : node.categoryName = c ∧ node_key node = k
  · obtain ⟨h1, h2⟩ := hk
    subst h1; subst h2
    exact ⟨_, patch_publication_hit cache node curVersion p h⟩
  · exact ⟨p.version, by rw [patch_publication_frame _ _ _ _ _ hk, h]⟩

/-- The loop patches the cached key of a faulted element that is the last faulted one with
this key: only the version changes, to the number read from `curVersion`. -/
theorem reconcile_loop_patch (faults : GHashTable (Option String)) (node : PublicationNode)
    (curVersion : String) :
    ∀ (nodes : List PublicationNode) (i start : Nat) (cache : PublicationCache) (flag : Bool)
      (p : sipe_publication),
      nodes[i]? = some node →
      fault_lookup faults (toString (start + i)) = some curVersion →
      lookup_publication cache node.categoryName (node_key node) = some p →
      (∀ j nd, i < j → nodes[j]? = some nd → nd.categoryName = node.categoryName →
        node_key nd = node_key node → fault_lookup faults (toString (start + j)) = none) →
      lookup_publication (reconcile_loop faults nodes start (cache, flag)).1
          node.categoryName (node_key node)
        = some { p with version := to_guint (atoi curVersion) } := by
  intro nodes
  induction nodes with
  | nil => intro i start cache flag p h; simp at h
  | cons hd rest ih =>
    intro i start cache flag p hi hf hp hlast
    simp only [reconcile_loop]
    cases i with
    | zero =>
      simp only [List.getElem?_cons_zero, Option.some.injEq] at hi
      subst hi
      simp only [Nat.add_zero] at hf
      simp only [hf]
      rw [reconcile_loop_frame]
      · exact patch_publication_hit cache hd curVersion p hp
      · intro j nd hj h1 h2
        have := hlast (j + 1) nd (by omega) (by simpa using hj) h1 h2
        rw [← this]
        congr 2
        omega
    | succ i =>
      have hi2 : rest[i]? = some node := by simpa using hi
      have hf2 : fault_lookup faults (toString (start + 1 + i)) = some curVersion := by
        rw [← hf]; congr 2; omega
      have hlast2 : ∀ j nd, i < j → rest[j]? = some nd → nd.categoryName = node.categoryName →
          node_key nd = node_key node →
          fault_lookup faults (toString (start + 1 + j)) = none := by
        intro j nd hj hnd h1 h2
        have := hlast (j + 1) nd (by omega) (by simpa using hnd) h1 h2
        rw [← this]
        congr 2
        omega
      cases hfs : fault_lookup faults (toString start) with
      | none => exact ih i (start + 1) cache _ p hi2 hf2 hp hlast2
      | some v =>
        obtain ⟨w, hq⟩ := patch_publication_keeps cache hd v _ _ p hp
        exact ih i (start + 1) _ _ { p with version := w } hi2 hf2 hq hlast2


theorem process_response_wrong_delta (cache : PublicationCache) (msg : sipmsg)
    (request : List PublicationNode) (h : is_wrong_delta msg) :
    process_send_presence_category_publish_response cache msg request
      = ((reconcile_loop (faults_of msg) request 1 (cache, false)).1,
         some (if (reconcile_loop (faults_of msg) request 1 (cache, false)).2
           then Republish.initial else Republish.status)) := by
  obtain ⟨h1, h2, h3⟩ := h
  simp [process_send_presence_category_publish_response, h1, h2, h3, sipe_strequal]

/-- After a WrongDelta rejection whose fault table gives `curVersion` V for index N, the
cached entry with the key of the Nth publication element of the request has version V and
is otherwise unchanged, when no later element of the request with that key is faulted. -/
theorem reconcile_sets_version_of_last_fault (cache : PublicationCache) (msg : sipmsg)
    (request : List PublicationNode) (N V : Nat) (node : PublicationNode) (p : sipe_publication)
    (hmsg : is_wrong_delta msg) (hN : 1 ≤ N) (hV : V < 4294967296)
    (hnode : request[N - 1]? = some node)
    (hfault : fault_lookup (faults_of msg) (toString N) = some (toString V))
    (hcached : lookup_publication cache node.categoryName (node_key node) = some p)
    (hlast : ∀ M nd, N < M → request[M - 1]? = some nd →
      nd.categoryName = node.categoryName → node_key nd = node_key node →
      fault_lookup (faults_of msg) (toString M) = none) :
    lookup_publication (process_send_presence_category_publish_response cache msg request).1
        node.categoryName (node_key node)
      = some { p with version := V } := by
  rw [process_response_wrong_delta cache msg request hmsg]
  have h := reconcile_loop_patch (faults_of msg) node (toString V) request (N - 1) 1 cache false p
    hnode (by rw [← hfault]; congr 2; omega) hcached
    (by
      intro j nd hj hnd h1 h2
      have := hlast (j + 1) nd (by omega) (by simpa using hnd) h1 h2
      rw [← this]; congr 2; omega)
  rw [to_guint_atoi_repr V hV] at h
  exact h

/-- The table of faults gives the `curVersion` with which the operations of the rejection
name an index, when they name it and all of them name it with this `curVersion`. -/
theorem collect_faults_named (idx : String) (v : Option String) :
    ∀ (ops : List FaultOperation) (faults : GHashTable (Option String)),
      (∀ op ∈ ops, op.index = idx → op.curVersion = v) →
      ((∃ op ∈ ops, op.index = idx) ∨ g_hash_table_lookup faults idx = some v) →
      g_hash_table_lookup (collect_faults ops faults) idx = some v := by
  intro ops
  induction ops with
  | nil =>
    intro faults _ h
    rcases h with ⟨op, hop, _⟩ | h
    · simp at hop
    · exact h
  | cons op rest ih =>
    intro faults hall h
    simp only [collect_faults]
    apply ih _ (fun o ho => hall o (List.mem_cons_of_mem _ ho))
    by_cases hi : op.index = idx
    · right
      rw [hi, lookup_insert_self, hall op (List.mem_cons_self _ _) hi]
    · rcases h with ⟨o, ho, hoi⟩ | h
      · rcases List.mem_cons.mp ho with e | e
        · subst e; exact absurd hoi hi
        · exact Or.inl ⟨o, e, hoi⟩
      · right
        rw [lookup_insert_ne _ _ _ _ hi]
        exact h

/-- C1: after a WrongDelta rejection that names index N with `curVersion` V, the cached
entry with the key of the Nth publication element of the request has version V and is
otherwise unchanged. The request is a document of the engine, whose publication elements
have pairwise distinct keys, and the operations of the rejection that name index N all
carry the `curVersion` V. -/
theorem reconcile_sets_faulted_version (cache : PublicationCache) (msg : sipmsg)
    (request : List PublicationNode) (N V : Nat) (node : PublicationNode) (p : sipe_publication)
    (d : FaultDocument)
    (hmsg : is_wrong_delta msg) (hbody : msg.body = some d)
    (hnamed : ∃ op ∈ d.operations, op.index = toString N)
    (hversion : ∀ op ∈ d.operations, op.index = toString N →
      op.curVersion = some (toString V))
    (hN : 1 ≤ N) (hV : V < 4294967296)
    (hnode : request[N - 1]? = some node)
    (hcached : lookup_publication cache node.categoryName (node_key node) = some p)
    (hkeys : (request.map node_key).Nodup) :
    lookup_publication (process_send_presence_category_publish_response cache msg request).1
        node.categoryName (node_key node)
      = some { p with version := V } := by
  have hfault : fault_lookup (faults_of msg) (toString N) = some (toString V) := by
    unfold fault_lookup faults_of
    rw [hbody]
    simp only [Option.elim]
    rw [collect_faults_named (toString N) (some (toString V)) d.operations [] hversion
      (Or.inl hnamed)]
    rfl
  apply reconcile_sets_version_of_last_fault cache msg request N V node p hmsg hN hV hnode
    hfault hcached
  intro M nd hM hnd _ hk
  exfalso
  have hlen : M - 1 < request.length := by
    by_contra hc
    rw [List.getElem?_eq_none (by omega)] at hnd
    cases hnd
  have h1 : (request.map node_key)[N - 1]? = some (node_key node) := by
    simp [List.getElem?_map, hnode]
  have h2 : (request.map node_key)[M - 1]? = some (node_key node) := by
    simp [List.getElem?_map, hnd, hk]
  have := (List.nodup_iff_getElem?_ne_getElem?.mp hkeys) (N - 1) (M - 1) (by omega)
    (by simpa using hlen)
  exact this (h1.trans h2.symm)

/-- Witness of `reconcile_sets_faulted_version`: the request is the initial publication of
the engine (device, machine state of containers 2 and 3); its third element is rejected with
version 7. -/
theorem reconcile_sets_faulted_version_witness :
    request_nodes (send_publish_category_initial sample_externals sample_roaming_externals
        [("state", [("<state><12><3>",
          { category := "state", inst := 12, container := 3, version := 2 })])] none).2
      = [⟨"device", "11", "2"⟩, ⟨"state", "12", "2"⟩, ⟨"state", "12", "3"⟩] ∧
    lookup_publication (process_send_presence_category_publish_response
        [("state", [("<state><12><3>",
          { category := "state", inst := 12, container := 3, version := 2 })])]
        (wrong_delta_msg [⟨"3", some "7"⟩])
        [⟨"device", "11", "2"⟩, ⟨"state", "12", "2"⟩, ⟨"state", "12", "3"⟩]).1
        "state" "<state><12><3>"
      = some { category := "state", inst := 12, container := 3, version := 7 } :=
  ⟨by decide,
   reconcile_sets_faulted_version _ (wrong_delta_msg [⟨"3", some "7"⟩])
    [⟨"device", "11", "2"⟩, ⟨"state", "12", "2"⟩, ⟨"state", "12", "3"⟩] 3 7
    ⟨"state", "12", "3"⟩
    { category := "state", inst := 12, container := 3, version := 2 }
    { faultcode := some "Client.BadCall.WrongDelta", operations := [⟨"3", some "7"⟩] }
    (by decide) rfl (by decide) (by decide) (by decide) (by decide) (by decide) (by decide)
    (by decide)⟩

/-- The flag `has_device_publication` after the loop: set for every request that holds a
publication element of category `device`, faulted or not. -/
theorem reconcile_loop_flag (faults : GHashTable (Option String)) :
    ∀ (nodes : List PublicationNode) (start : Nat) (cache : PublicationCache) (flag : Bool),
      (reconcile_loop faults nodes start (cache, flag)).2
        = (flag || nodes.any (fun nd => decide (nd.categoryName = "device"))) := by
  intro nodes
  induction nodes with
  | nil => intro start cache flag; simp [reconcile_loop]
  | cons node rest ih =>
    intro start cache flag
    simp only [reconcile_loop, ih, List.any_cons, sipe_strequal, Option.some.injEq]
    by_cases h : node.categoryName = "device"
    · simp [h]
    · have h2 : ¬ ("device" = node.categoryName) := fun e => h e.symm
      simp [h, h2]

/-- C2 (as amended): after a WrongDelta rejection the reconciler restarts the initial publish
sequence exactly when the request holds a publication element of category `device`, faulted
or not, and issues the status resync exactly when it holds none. -/
theorem reconcile_republish_iff_device_in_request (cache : PublicationCache) (msg : sipmsg)
    (request : List PublicationNode) (hmsg : is_wrong_delta msg) :
    ((process_send_presence_category_publish_response cache msg request).2
        = some Republish.initial ↔ ∃ nd ∈ request, nd.categoryName = "device") ∧
    ((process_send_presence_category_publish_response cache msg request).2
        = some Republish.status ↔ ¬ ∃ nd ∈ request, nd.categoryName = "device") := by
  rw [process_response_wrong_delta cache msg request hmsg, reconcile_loop_flag]
  by_cases h : ∃ nd ∈ request, nd.categoryName = "device"
  · have ha : request.any (fun nd => decide (nd.categoryName = "device")) = true := by
      simpa using h
    simp [ha, h]
  · have ha : request.any (fun nd => decide (nd.categoryName = "device")) = false := by
      simpa using h
    simp only [ha, Bool.or_self, Bool.false_eq_true, if_false]
    simp [h]

/-- Witness of `reconcile_republish_iff_device_in_request`: a rejection of a status publish. -/
theorem reconcile_republish_iff_device_in_request_witness :
    ((process_send_presence_category_publish_response [] (wrong_delta_msg [⟨"1", some "3"⟩])
        [⟨"state", "1", "2"⟩]).2 = some Republish.initial
      ↔ ∃ nd ∈ ([⟨"state", "1", "2"⟩] : List PublicationNode), nd.categoryName = "device") ∧
    ((process_send_presence_category_publish_response [] (wrong_delta_msg [⟨"1", some "3"⟩])
        [⟨"state", "1", "2"⟩]).2 = some Republish.status
      ↔ ¬ ∃ nd ∈ ([⟨"state", "1", "2"⟩] : List PublicationNode), nd.categoryName = "device") :=
  reconcile_republish_iff_device_in_request [] (wrong_delta_msg [⟨"1", some "3"⟩])
    [⟨"state", "1", "2"⟩] (by decide)

/-- C2 (counterexample): the request is a device publication followed by a state publication
and only index 2, the state publication, is faulted; the reconciler still restarts the
initial publish sequence. -/
theorem reconcile_initial_without_device_fault :
    is_wrong_delta (wrong_delta_msg [⟨"2", some "4"⟩]) ∧
    (∀ (N : Nat) (nd : PublicationNode), 1 ≤ N →
      ([⟨"device", "9", "2"⟩, ⟨"state", "1", "2"⟩] : List PublicationNode)[N - 1]? = some nd →
      nd.categoryName = "device" →
      fault_lookup (faults_of (wrong_delta_msg [⟨"2", some "4"⟩])) (toString N) = none) ∧
    (process_send_presence_category_publish_response [] (wrong_delta_msg [⟨"2", some "4"⟩])
      [⟨"device", "9", "2"⟩, ⟨"state", "1", "2"⟩]).2 = some Republish.initial := by
  refine ⟨by decide, ?_, by decide⟩
  intro N nd hN hnd hdev
  match N, hN with
  | 1, _ => decide
  | 2, _ =>
    simp at hnd
    subst hnd
    simp at hdev
  | (n + 3), _ => simp at hnd

/-- C3 (evaluation at the failing input): the cache holds the category `state` but not the
key `<state><7><2>`; a rejection naming that publication with version 5 leaves the cache as
it was, without an entry for the key. -/
theorem reconcile_drops_fault_for_missing_key :
    is_wrong_delta (wrong_delta_msg [⟨"1", some "5"⟩]) ∧
    lookup_publication
      [("state", [("<state><1><2>",
        { category := "state", inst := 1, container := 2, version := 3 })])]
      "state" (node_key ⟨"state", "7", "2"⟩) = none ∧
    (process_send_presence_category_publish_response
      [("state", [("<state><1><2>",
        { category := "state", inst := 1, container := 2, version := 3 })])]
      (wrong_delta_msg [⟨"1", some "5"⟩]) [⟨"state", "7", "2"⟩]).1
      = [("state", [("<state><1><2>",
        { category := "state", inst := 1, container := 2, version := 3 })])] ∧
    lookup_publication
      (process_send_presence_category_publish_response
        [("state", [("<state><1><2>",
          { category := "state", inst := 1, container := 2, version := 3 })])]
        (wrong_delta_msg [⟨"1", some "5"⟩]) [⟨"state", "7", "2"⟩]).1
      "state" (node_key ⟨"state", "7", "2"⟩) = none := by
  decide

/-- When the whole category is missing from the cache, the fault of a publication element
synthesizes an entry with the version read from `curVersion`. -/
theorem patch_publication_lost_category (cache : PublicationCache) (node : PublicationNode)
    (curVersion : String) (h : g_hash_table_lookup cache node.categoryName = none) :
    lookup_publication (patch_publication cache node curVersion) node.categoryName (node_key node)
      = some { category := node.categoryName
               inst := to_guint (atoi node.inst)
               container := to_guint (atoi node.container)
               version := to_guint (atoi curVersion) } := by
  simp [patch_publication, h, lookup_publication, lookup_insert_self, g_hash_table_lookup]

/-! ## Versions carried by the builders -/

/-- The device publication carries the cached version of its key. -/
theorem device_carries_cached_version (ext : Externals) (cache : PublicationCache) :
    ∀ e ∈ sipe_publish_get_category_device ext cache, e.version = cached_version cache e := by
  intro e he
  simp only [sipe_publish_get_category_device, List.mem_singleton] at he
  subst he
  rfl

/-- The state publications carry the cached versions of their keys. -/
theorem state_carries_cached_version (ext : Externals) (cache : PublicationCache)
    (status : Option String) (is_user_state : Bool) (frag : List publication_xml)
    (h : sipe_publish_get_category_state ext cache status is_user_state = some frag) :
    ∀ e ∈ frag, e.version = cached_version cache e := by
  intro e he
  unfold sipe_publish_get_category_state at h
  simp only [] at h
  repeat' split at h
  all_goals first
    | cases h; done
    | (simp only [Option.some.injEq] at h
       subst h
       simp only [List.mem_cons, List.mem_singleton, List.not_mem_nil, or_false] at he
       rcases he with he | he <;> subst he <;> rfl)

/-- The calendar state publications, populated or clearing, carry the cached versions. -/
theorem state_calendar_carries_cached_version (ext : Externals) (cache : PublicationCache)
    (event : Option sipe_cal_event) (uri : Option String) (cal_satus : Int)
    (frag : List publication_xml)
    (h : sipe_publish_get_category_state_calendar ext cache event uri cal_satus = some frag) :
    ∀ e ∈ frag, e.version = cached_version cache e := by
  intro e he
  unfold sipe_publish_get_category_state_calendar at h
  simp only [] at h
  repeat' split at h
  all_goals first
    | cases h; done
    | (simp only [Option.some.injEq] at h
       subst h
       simp only [List.mem_cons, List.mem_singleton, List.not_mem_nil, or_false] at he
       rcases he with he | he <;> subst he <;> rfl)

/-- The note publications of the publishing form carry the cached versions. -/
theorem note_publishing_carries_cached_version (ext : Externals) (cache : PublicationCache)
    (note text : String) (note_type : Option String) (note_start note_end : Int)
    (frag : List publication_xml)
    (hn : ext.sipe_backend_markup_strip_html note = some text)
    (h : sipe_publish_get_category_note ext cache (some note) note_type note_start note_end
      = some frag) :
    ∀ e ∈ frag, e.version = cached_version cache e := by
  intro e he
  unfold sipe_publish_get_category_note at h
  simp only [Option.bind, hn, Option.map] at h
  repeat' split at h
  all_goals first
    | cases h; done
    | (simp only [Option.some.injEq] at h
       subst h
       simp only [List.mem_cons, List.mem_singleton, List.not_mem_nil, or_false] at he
       rcases he with he | he | he <;> subst he <;> rfl)

/-- The working hours publications carry the cached versions. -/
theorem working_hours_carries_cached_version (cache : PublicationCache)
    (cal : Option sipe_calendar) (frag : List publication_xml)
    (h : sipe_publish_get_category_cal_working_hours cache cal = some frag) :
    ∀ e ∈ frag, e.version = cached_version cache e := by
  intro e he
  unfold sipe_publish_get_category_cal_working_hours at h
  simp only [] at h
  repeat' split at h
  all_goals first
    | cases h; done
    | (simp only [Option.some.injEq] at h
       subst h
       simp only [List.mem_cons, List.mem_singleton, List.not_mem_nil, or_false] at he
       rcases he with he | he | he | he | he | he <;> subst he <;> rfl)

/-- The free/busy publications carry the cached versions. -/
theorem free_busy_carries_cached_version (ext : Externals) (cache : PublicationCache)
    (cal : Option sipe_calendar) (frag : List publication_xml)
    (h : sipe_publish_get_category_cal_free_busy ext cache cal = some frag) :
    ∀ e ∈ frag, e.version = cached_version cache e := by
  intro e he
  unfold sipe_publish_get_category_cal_free_busy at h
  simp only [] at h
  repeat' split at h
  all_goals first
    | cases h; done
    | (simp only [Option.some.injEq] at h
       subst h
       simp only [List.mem_cons, List.mem_singleton, List.not_mem_nil, or_false] at he
       rcases he with he | he | he | he | he | he <;> subst he <;> rfl)

/-- C4 (evaluation at the failing input): the cache holds the personal note in container 200
at version 1 and in container 300 at version 2; clearing the note yields three clearing
publications that all carry version 1, so the publication for container 300 does not carry
the cached version 2 of its own key. -/
theorem note_clearing_sends_version_of_container_200 :
    sipe_publish_get_category_note sample_externals
        [("note", [("<note><0><200>",
            { category := "note", inst := 0, container := 200, version := 1,
              note := some "away" }),
          ("<note><0><300>",
            { category := "note", inst := 0, container := 300, version := 2,
              note := some "away" })])]
        none (some "personal") 0 0
      = some [ { categoryName := "note", inst := 0, container := 200, version := 1,
                 expireType := "static", body := PublicationBody.clear },
               { categoryName := "note", inst := 0, container := 300, version := 1,
                 expireType := "static", body := PublicationBody.clear },
               { categoryName := "note", inst := 0, container := 400, version := 1,
                 expireType := "static", body := PublicationBody.clear } ] ∧
    cached_version
        [("note", [("<note><0><200>",
            { category := "note", inst := 0, container := 200, version := 1,
              note := some "away" }),
          ("<note><0><300>",
            { category := "note", inst := 0, container := 300, version := 2,
              note := some "away" })])]
        { categoryName := "note", inst := 0, container := 300, version := 1,
          expireType := "static", body := PublicationBody.clear } = 2 := by
  decide

/-! ## Calendar precedence and state suppression -/

/-- Without an event the calendar state builder clears the instance, or returns nothing when
the container 3 entry of the instance is not cached. -/
theorem state_calendar_no_event (ext : Externals) (cache : PublicationCache)
    (uri : Option String) (cal_satus : Int) :
    is_clearing_or_nothing cache
      (if cal_satus = SIPE_CAL_OOF then ext.sipe_get_pub_instance PubKey.SIPE_PUB_STATE_CALENDAR_OOF
       else ext.sipe_get_pub_instance PubKey.SIPE_PUB_STATE_CALENDAR)
      (sipe_publish_get_category_state_calendar ext cache none uri cal_satus) = true := by
  unfold is_clearing_or_nothing sipe_publish_get_category_state_calendar
  simp only []
  cases h3 : lookup_publication cache "state"
      (publication_key "state"
        (if cal_satus = SIPE_CAL_OOF then
          ext.sipe_get_pub_instance PubKey.SIPE_PUB_STATE_CALENDAR_OOF
         else ext.sipe_get_pub_instance PubKey.SIPE_PUB_STATE_CALENDAR) 3) with
  | none => rfl
  | some p3 => simp [is_clearing_pair]

/-- With a busy or out-of-office event the calendar state builder returns a populated pair,
unless the cached container 3 entry has availability 0 and the hash of the event. -/
theorem state_calendar_event (ext : Externals) (cache : PublicationCache)
    (uri : Option String) (cal_satus : Int) (e : sipe_cal_event)
    (he : e.cal_status = SIPE_CAL_BUSY ∨ e.cal_status = SIPE_CAL_OOF) :
    is_populated_unless_unchanged ext cache
      (if cal_satus = SIPE_CAL_OOF then ext.sipe_get_pub_instance PubKey.SIPE_PUB_STATE_CALENDAR_OOF
       else ext.sipe_get_pub_instance PubKey.SIPE_PUB_STATE_CALENDAR) e
      (sipe_publish_get_category_state_calendar ext cache (some e) uri cal_satus) = true := by
  unfold is_populated_unless_unchanged calendar_state_unchanged
    sipe_publish_get_category_state_calendar
  simp only []
  cases h3 : lookup_publication cache "state"
      (publication_key "state"
        (if cal_satus = SIPE_CAL_OOF then
          ext.sipe_get_pub_instance PubKey.SIPE_PUB_STATE_CALENDAR_OOF
         else ext.sipe_get_pub_instance PubKey.SIPE_PUB_STATE_CALENDAR) 3) with
  | none =>
    simp [he, is_populated_pair]
  | some p3 =>
    by_cases hu : p3.availability = 0 ∧ p3.cal_event_hash = some (ext.sipe_cal_event_hash e)
    · simp [hu, sipe_strequal]
    · have hdec : (decide (p3.availability = 0) &&
          decide (p3.cal_event_hash = some (ext.sipe_cal_event_hash e))) = false := by
        simpa using hu
      simp only [sipe_strequal, hdec]
      simp [he, hu, is_populated_pair]

theorem clearing_pair_not_populated (i j : Nat) (frag : List publication_xml)
    (hc : is_clearing_pair i frag = true) : is_populated_pair j frag = false := by
  unfold is_clearing_pair at hc
  unfold is_populated_pair
  split at hc
  · rename_i a b
    simp only [decide_eq_true_eq] at hc
    simp [hc.2.2.2.2.2.2.2.2.1]
  · exact absurd hc (by simp)

theorem clearing_or_nothing_not_populated (cache : PublicationCache) (i j : Nat)
    (pub : Option (List publication_xml)) (frag : List publication_xml)
    (hc : is_clearing_or_nothing cache i pub = true) (hp : pub = some frag) :
    is_populated_pair j frag = false := by
  subst hp
  unfold is_clearing_or_nothing at hc
  split at hc
  · rename_i h1 h2; exact absurd h2 (by simp)
  · rename_i h1 h2
    simp only [Option.some.injEq] at h2
    subst h2
    exact clearing_pair_not_populated i j _ hc
  · exact absurd hc (by simp)

theorem append_regroup {α : Type} (a b c d n : List α) :
    a ++ b ++ c ++ d ++ n = (a ++ b) ++ (c ++ d) ++ n := by
  simp only [List.append_assoc]

theorem SIPE_CAL_BUSY_ne_OOF : SIPE_CAL_BUSY ≠ SIPE_CAL_OOF := by decide

/-- The two calendar fragments when the current event is out of office. -/
theorem presence_publish_calendar_oof (ext : Externals) (cache : PublicationCache)
    (cal : sipe_calendar) (e : sipe_cal_event) (he : e.cal_status = SIPE_CAL_OOF) :
    is_populated_unless_unchanged ext cache
        (ext.sipe_get_pub_instance PubKey.SIPE_PUB_STATE_CALENDAR_OOF) e
        (presence_publish_calendar ext cache cal (some e)).1 = true ∧
      is_clearing_or_nothing cache (ext.sipe_get_pub_instance PubKey.SIPE_PUB_STATE_CALENDAR)
        (presence_publish_calendar ext cache cal (some e)).2 = true := by
  have h1 := state_calendar_event ext cache cal.email SIPE_CAL_OOF e (Or.inr he)
  have h2 := state_calendar_no_event ext cache cal.email SIPE_CAL_BUSY
  simp only [SIPE_CAL_BUSY_ne_OOF, if_true, if_false] at h1 h2
  simp only [presence_publish_calendar, he, if_true]
  exact ⟨h1, h2⟩

/-- The two calendar fragments when the current event is busy. -/
theorem presence_publish_calendar_busy (ext : Externals) (cache : PublicationCache)
    (cal : sipe_calendar) (e : sipe_cal_event) (he : e.cal_status = SIPE_CAL_BUSY) :
    is_clearing_or_nothing cache (ext.sipe_get_pub_instance PubKey.SIPE_PUB_STATE_CALENDAR_OOF)
        (presence_publish_calendar ext cache cal (some e)).1 = true ∧
      is_populated_unless_unchanged ext cache
        (ext.sipe_get_pub_instance PubKey.SIPE_PUB_STATE_CALENDAR) e
        (presence_publish_calendar ext cache cal (some e)).2 = true := by
  have h1 := state_calendar_no_event ext cache cal.email SIPE_CAL_OOF
  have h2 := state_calendar_event ext cache cal.email SIPE_CAL_BUSY e (Or.inl he)
  simp only [SIPE_CAL_BUSY_ne_OOF, if_true, if_false] at h1 h2
  simp only [presence_publish_calendar, he, SIPE_CAL_BUSY_ne_OOF, if_true, if_false]
  exact ⟨h1, h2⟩

/-- The two calendar fragments when there is no event or the event is neither busy nor out
of office. -/
theorem presence_publish_calendar_other (ext : Externals) (cache : PublicationCache)
    (cal : sipe_calendar) (event : Option sipe_cal_event)
    (he : ∀ e, event = some e → e.cal_status ≠ SIPE_CAL_OOF ∧ e.cal_status ≠ SIPE_CAL_BUSY) :
    is_clearing_or_nothing cache (ext.sipe_get_pub_instance PubKey.SIPE_PUB_STATE_CALENDAR_OOF)
        (presence_publish_calendar ext cache cal event).1 = true ∧
      is_clearing_or_nothing cache (ext.sipe_get_pub_instance PubKey.SIPE_PUB_STATE_CALENDAR)
        (presence_publish_calendar ext cache cal event).2 = true := by
  have h1 := state_calendar_no_event ext cache cal.email SIPE_CAL_OOF
  have h2 := state_calendar_no_event ext cache cal.email SIPE_CAL_BUSY
  simp only [SIPE_CAL_BUSY_ne_OOF, if_true, if_false] at h1 h2
  cases event with
  | none => exact ⟨h1, h2⟩
  | some e =>
    obtain ⟨n1, n2⟩ := he e rfl
    simp only [presence_publish_calendar, n1, n2, if_false]
    exact ⟨h1, h2⟩

/-- Every publication of the calendar state builder has the category `state`. -/
theorem state_calendar_category (ext : Externals) (cache : PublicationCache)
    (event : Option sipe_cal_event) (uri : Option String) (cal_satus : Int) :
    ∀ x ∈ fragment_or_empty
        (sipe_publish_get_category_state_calendar ext cache event uri cal_satus),
      x.categoryName = "state" := by
  intro x hx
  unfold sipe_publish_get_category_state_calendar at hx
  simp only [] at hx
  repeat' split at hx
  all_goals simp only [fragment_or_empty, Option.getD_none, Option.getD_some, List.mem_cons,
    List.mem_singleton, List.not_mem_nil, or_false] at hx
  all_goals first
    | exact absurd hx id
    | (rcases hx with e | e <;> rw [e])

theorem presence_publish_calendar_category (ext : Externals) (cache : PublicationCache)
    (cal : sipe_calendar) (event : Option sipe_cal_event) :
    (∀ x ∈ fragment_or_empty (presence_publish_calendar ext cache cal event).1,
      x.categoryName = "state") ∧
    (∀ x ∈ fragment_or_empty (presence_publish_calendar ext cache cal event).2,
      x.categoryName = "state") := by
  unfold presence_publish_calendar
  repeat' split
  all_goals
    constructor <;>
      (intro x hx
       dsimp only at hx
       exact state_calendar_category _ _ _ _ _ x hx)

/-- Every publication of the working hours builder has the category `calendarData`. -/
theorem working_hours_category (cache : PublicationCache) (cal : Option sipe_calendar) :
    ∀ x ∈ fragment_or_empty (sipe_publish_get_category_cal_working_hours cache cal),
      x.categoryName = "calendarData" := by
  intro x hx
  unfold sipe_publish_get_category_cal_working_hours at hx
  simp only [] at hx
  repeat' split at hx
  all_goals simp only [fragment_or_empty, Option.getD_none, Option.getD_some, List.mem_cons,
    List.mem_singleton, List.not_mem_nil, or_false] at hx
  all_goals first
    | exact absurd hx id
    | (rcases hx with e | e | e | e | e | e <;> rw [e] <;> rfl)

/-- Every publication of the free/busy builder has the category `calendarData`. -/
theorem free_busy_category (ext : Externals) (cache : PublicationCache)
    (cal : Option sipe_calendar) :
    ∀ x ∈ fragment_or_empty (sipe_publish_get_category_cal_free_busy ext cache cal),
      x.categoryName = "calendarData" := by
  intro x hx
  unfold sipe_publish_get_category_cal_free_busy at hx
  simp only [] at hx
  repeat' split at hx
  all_goals simp only [fragment_or_empty, Option.getD_none, Option.getD_some, List.mem_cons,
    List.mem_singleton, List.not_mem_nil, or_false] at hx
  all_goals first
    | exact absurd hx id
    | (rcases hx with e | e | e | e | e | e <;> rw [e] <;> rfl)

/-- Every publication of the note builder has the category `note`. -/
theorem note_category (ext : Externals) (cache : PublicationCache)
    (note note_type : Option String) (note_start note_end : Int) :
    ∀ x ∈ fragment_or_empty
        (sipe_publish_get_category_note ext cache note note_type note_start note_end),
      x.categoryName = "note" := by
  intro x hx
  unfold sipe_publish_get_category_note at hx
  simp only [] at hx
  repeat' split at hx
  all_goals simp only [fragment_or_empty, Option.getD_none, Option.getD_some, List.mem_cons,
    List.mem_singleton, List.not_mem_nil, or_false] at hx
  all_goals first
    | exact absurd hx id
    | (rcases hx with e | e | e <;> rw [e])

theorem filter_state_self (l : List publication_xml)
    (h : ∀ x ∈ l, x.categoryName = "state") :
    l.filter (fun e => decide (e.categoryName = "state")) = l := by
  rw [List.filter_eq_self]
  intro x hx
  simp [h x hx]

theorem filter_state_nil (l : List publication_xml) (c : String) (hc : c ≠ "state")
    (h : ∀ x ∈ l, x.categoryName = c) :
    l.filter (fun e => decide (e.categoryName = "state")) = [] := by
  rw [List.filter_eq_nil_iff]
  intro x hx
  simp [h x hx, hc]

/-- The request of `sipe_ocs2007_presence_publish` as a concatenation: the fragments of the
category `calendarData`, the two calendar state fragments and the fragment of the category
`note`; nothing is sent exactly when all five fragments are missing. -/
theorem presence_publish_fragments (ext : Externals) (cache : PublicationCache)
    (cal : sipe_calendar) (event : Option sipe_cal_event) (oof_note : Option String) :
    ∃ wh fb n : Option (List publication_xml),
      (∀ x ∈ fragment_or_empty wh, x.categoryName = "calendarData") ∧
      (∀ x ∈ fragment_or_empty fb, x.categoryName = "calendarData") ∧
      (∀ x ∈ fragment_or_empty n, x.categoryName = "note") ∧
      sipe_ocs2007_presence_publish ext cache (some cal) event oof_note
        = if (wh.isNone && fb.isNone && (presence_publish_calendar ext cache cal event).1.isNone
              && (presence_publish_calendar ext cache cal event).2.isNone && n.isNone) = true
          then none
          else some (fragment_or_empty wh ++ fragment_or_empty fb ++
            fragment_or_empty (presence_publish_calendar ext cache cal event).1 ++
            fragment_or_empty (presence_publish_calendar ext cache cal event).2 ++
            fragment_or_empty n) :=
  ⟨_, _, _, working_hours_category cache (some cal), free_busy_category ext cache (some cal),
    note_category ext cache oof_note (some "OOF") _ _, rfl⟩

/-- The request of `sipe_ocs2007_presence_publish`, when one is sent, holds the two calendar
state fragments next to each other, and these are its `state` publications; a request is
sent whenever one of the two fragments is there. -/
theorem presence_publish_state_part (ext : Externals) (cache : PublicationCache)
    (cal : sipe_calendar) (event : Option sipe_cal_event) (oof_note : Option String) :
    state_publications (sipe_ocs2007_presence_publish ext cache (some cal) event oof_note)
      = fragment_or_empty (presence_publish_calendar ext cache cal event).1 ++
        fragment_or_empty (presence_publish_calendar ext cache cal event).2 ∧
    (((presence_publish_calendar ext cache cal event).1.isSome = true ∨
        (presence_publish_calendar ext cache cal event).2.isSome = true) →
      ∃ batch before after,
        sipe_ocs2007_presence_publish ext cache (some cal) event oof_note = some batch ∧
        batch = before ++
          (fragment_or_empty (presence_publish_calendar ext cache cal event).1 ++
            fragment_or_empty (presence_publish_calendar ext cache cal event).2) ++ after) := by
  obtain ⟨hc1, hc2⟩ := presence_publish_calendar_category ext cache cal event
  obtain ⟨wh, fb, n, hwh, hfb, hn, heq⟩ := presence_publish_fragments ext cache cal event oof_note
  rw [heq]
  by_cases hall : (wh.isNone && fb.isNone && (presence_publish_calendar ext cache cal event).1.isNone
      && (presence_publish_calendar ext cache cal event).2.isNone && n.isNone) = true
  · rw [if_pos hall]
    simp only [Bool.and_eq_true, Option.isNone_iff_eq_none] at hall
    rw [hall.1.1.2, hall.1.2]
    exact ⟨rfl, by simp⟩
  · rw [if_neg hall]
    constructor
    · simp only [state_publications, Option.getD_some, List.filter_append]
      rw [filter_state_nil _ "calendarData" (by decide) hwh,
        filter_state_nil _ "calendarData" (by decide) hfb,
        filter_state_nil _ "note" (by decide) hn,
        filter_state_self _ hc1, filter_state_self _ hc2]
      simp
    · intro _
      exact ⟨_, _, _, rfl, append_regroup _ _ _ _ _⟩

/-- C9: calendar precedence in `sipe_ocs2007_presence_publish`. The `state` publications of
the request are a fragment for the out-of-office instance followed by a fragment for the
busy instance, and a request that holds them is sent whenever one of the two is there. A
populated calendar state pair is built for the out-of-office instance only when the current
event is out of office and for the busy instance only when it is busy. With an out-of-office
event the first fragment is the populated pair of the out-of-office instance (it is missing
exactly when it is suppressed as unchanged) and the second one clears the busy instance (it
is missing exactly when no busy entry is cached); with a busy event the roles are exchanged;
otherwise both fragments are clearing pairs or missing. -/
theorem presence_publish_calendar_precedence (ext : Externals) (cache : PublicationCache)
    (cal : sipe_calendar) (event : Option sipe_cal_event) (oof_note : Option String) :
    ∃ pub_oof pub_busy : Option (List publication_xml),
      state_publications (sipe_ocs2007_presence_publish ext cache (some cal) event oof_note)
        = fragment_or_empty pub_oof ++ fragment_or_empty pub_busy ∧
      ((pub_oof.isSome = true ∨ pub_busy.isSome = true) →
        ∃ batch before after,
          sipe_ocs2007_presence_publish ext cache (some cal) event oof_note = some batch ∧
          batch = before ++ (fragment_or_empty pub_oof ++ fragment_or_empty pub_busy) ++ after) ∧
      (∀ i frag, pub_oof = some frag → is_populated_pair i frag = true →
        ∃ e, event = some e ∧ e.cal_status = SIPE_CAL_OOF) ∧
      (∀ i frag, pub_busy = some frag → is_populated_pair i frag = true →
        ∃ e, event = some e ∧ e.cal_status = SIPE_CAL_BUSY) ∧
      (∀ e, event = some e → e.cal_status = SIPE_CAL_OOF →
        is_populated_unless_unchanged ext cache
            (ext.sipe_get_pub_instance PubKey.SIPE_PUB_STATE_CALENDAR_OOF) e pub_oof = true ∧
          is_clearing_or_nothing cache (ext.sipe_get_pub_instance PubKey.SIPE_PUB_STATE_CALENDAR)
            pub_busy = true) ∧
      (∀ e, event = some e → e.cal_status = SIPE_CAL_BUSY →
        is_clearing_or_nothing cache
            (ext.sipe_get_pub_instance PubKey.SIPE_PUB_STATE_CALENDAR_OOF) pub_oof = true ∧
          is_populated_unless_unchanged ext cache
            (ext.sipe_get_pub_instance PubKey.SIPE_PUB_STATE_CALENDAR) e pub_busy = true) ∧
      ((∀ e, event = some e → e.cal_status ≠ SIPE_CAL_OOF ∧ e.cal_status ≠ SIPE_CAL_BUSY) →
        is_clearing_or_nothing cache
            (ext.sipe_get_pub_instance PubKey.SIPE_PUB_STATE_CALENDAR_OOF) pub_oof = true ∧
          is_clearing_or_nothing cache (ext.sipe_get_pub_instance PubKey.SIPE_PUB_STATE_CALENDAR)
            pub_busy = true) := by
  refine ⟨(presence_publish_calendar ext cache cal event).1,
    (presence_publish_calendar ext cache cal event).2,
    (presence_publish_state_part ext cache cal event oof_note).1,
    (presence_publish_state_part ext cache cal event oof_note).2, ?_, ?_, ?_, ?_, ?_⟩
  · intro i frag hf hp
    by_cases h : ∃ e, event = some e ∧ e.cal_status = SIPE_CAL_OOF
    · exact h
    · exfalso
      have hc : is_clearing_or_nothing cache
          (ext.sipe_get_pub_instance PubKey.SIPE_PUB_STATE_CALENDAR_OOF)
          (presence_publish_calendar ext cache cal event).1 = true := by
        cases event with
        | none => exact (presence_publish_calendar_other ext cache cal none (by simp)).1
        | some e =>
          by_cases hb : e.cal_status = SIPE_CAL_BUSY
          · exact (presence_publish_calendar_busy ext cache cal e hb).1
          · exact (presence_publish_calendar_other ext cache cal (some e) (by
              intro e2 he2
              simp only [Option.some.injEq] at he2
              subst he2
              exact ⟨fun ho => h ⟨_, rfl, ho⟩, hb⟩)).1
      rw [clearing_or_nothing_not_populated cache _ i _ frag hc hf] at hp
      exact absurd hp (by simp)
  · intro i frag hf hp
    by_cases h : ∃ e, event = some e ∧ e.cal_status = SIPE_CAL_BUSY
    · exact h
    · exfalso
      have hc : is_clearing_or_nothing cache
          (ext.sipe_get_pub_instance PubKey.SIPE_PUB_STATE_CALENDAR)
          (presence_publish_calendar ext cache cal event).2 = true := by
        cases event with
        | none => exact (presence_publish_calendar_other ext cache cal none (by simp)).2
        | some e =>
          by_cases ho : e.cal_status = SIPE_CAL_OOF
          · exact (presence_publish_calendar_oof ext cache cal e ho).2
          · exact (presence_publish_calendar_other ext cache cal (some e) (by
              intro e2 he2
              simp only [Option.some.injEq] at he2
              subst he2
              exact ⟨ho, fun hb => h ⟨_, rfl, hb⟩⟩)).2
      rw [clearing_or_nothing_not_populated cache _ i _ frag hc hf] at hp
      exact absurd hp (by simp)
  · intro e he hs
    subst he
    exact presence_publish_calendar_oof ext cache cal e hs
  · intro e he hs
    subst he
    exact presence_publish_calendar_busy ext cache cal e hs
  · exact presence_publish_calendar_other ext cache cal event

/-- Witness of `presence_publish_calendar_precedence`: with an out-of-office event and
nothing cached a request is sent, and its `state` publications are the populated pair of the
out-of-office instance and nothing for the busy instance. -/
theorem presence_publish_calendar_precedence_witness :
    ∃ batch frag,
      sipe_ocs2007_presence_publish sample_externals []
        (some ⟨some "me@example.com", none, 0, none, none, 0, 0⟩)
        (some ⟨100, 200, SIPE_CAL_OOF, some "leave", none, false⟩) none = some batch ∧
      state_publications (some batch) = frag ∧
      is_populated_pair
        (sample_externals.sipe_get_pub_instance PubKey.SIPE_PUB_STATE_CALENDAR_OOF) frag
        = true := by
  obtain ⟨po, pb, h1, h2, _, _, h5, _, _⟩ := presence_publish_calendar_precedence
    sample_externals [] ⟨some "me@example.com", none, 0, none, none, 0, 0⟩
    (some ⟨100, 200, SIPE_CAL_OOF, some "leave", none, false⟩) none
  obtain ⟨hp, hc⟩ := h5 _ rfl rfl
  cases po with
  | none => exact absurd hp (by decide)
  | some frag =>
    cases pb with
    | some frag2 => exact absurd hc (by simp [is_clearing_or_nothing, lookup_publication,
        g_hash_table_lookup])
    | none =>
      obtain ⟨batch, _, _, hb, _⟩ := h2 (Or.inl rfl)
      refine ⟨batch, frag, hb, ?_, ?_⟩
      · rw [← hb, h1]
        simp [fragment_or_empty]
      · simp only [is_populated_unless_unchanged, Bool.and_eq_true] at hp
        exact hp.2

/-- C10: `sipe_publish_get_category_state` returns no fragment if and only if the cache
holds the container 2 entry of the state instance with the current availability; otherwise
it returns exactly two publications, for containers 2 and 3 in this order, with the same
instance and the same availability. -/
theorem state_builder_suppressed_iff_unchanged (ext : Externals) (cache : PublicationCache)
    (status : Option String) (is_user_state : Bool) :
    (sipe_publish_get_category_state ext cache status is_user_state = none ↔
      ∃ p2, lookup_publication cache "state"
          (publication_key "state"
            (if is_user_state then ext.sipe_get_pub_instance PubKey.SIPE_PUB_STATE_USER
             else ext.sipe_get_pub_instance PubKey.SIPE_PUB_STATE_MACHINE) 2) = some p2 ∧
        p2.availability = ext.sipe_get_availability_by_status status) ∧
    (sipe_publish_get_category_state ext cache status is_user_state = none ∨
      ∃ (v2 v3 : Nat) (expireType : String) (body : PublicationBody),
        (body = PublicationBody.machine_state (ext.sipe_get_availability_by_status status) ∨
          body = PublicationBody.user_state (ext.sipe_get_availability_by_status status)) ∧
        sipe_publish_get_category_state ext cache status is_user_state =
          some [ { categoryName := "state",
                   inst := if is_user_state then
                       ext.sipe_get_pub_instance PubKey.SIPE_PUB_STATE_USER
                     else ext.sipe_get_pub_instance PubKey.SIPE_PUB_STATE_MACHINE,
                   container := 2, version := v2, expireType := expireType, body := body },
                 { categoryName := "state",
                   inst := if is_user_state then
                       ext.sipe_get_pub_instance PubKey.SIPE_PUB_STATE_USER
                     else ext.sipe_get_pub_instance PubKey.SIPE_PUB_STATE_MACHINE,
                   container := 3, version := v3, expireType := expireType, body := body } ]) := by
  have hpair : ∀ p2 : Option sipe_publication,
      ∃ (v2 v3 : Nat) (expireType : String) (body : PublicationBody),
        (body = PublicationBody.machine_state (ext.sipe_get_availability_by_status status) ∨
          body = PublicationBody.user_state (ext.sipe_get_availability_by_status status)) ∧
        (some [ ({ categoryName := "state",
                   inst := if is_user_state then
                       ext.sipe_get_pub_instance PubKey.SIPE_PUB_STATE_USER
                     else ext.sipe_get_pub_instance PubKey.SIPE_PUB_STATE_MACHINE,
                   container := 2, version := version_or_zero p2,
                   expireType := if is_user_state then "static" else "endpoint",
                   body := if is_user_state then
                       PublicationBody.user_state (ext.sipe_get_availability_by_status status)
                     else PublicationBody.machine_state
                       (ext.sipe_get_availability_by_status status) } : publication_xml),
                 { categoryName := "state",
                   inst := if is_user_state then
                       ext.sipe_get_pub_instance PubKey.SIPE_PUB_STATE_USER
                     else ext.sipe_get_pub_instance PubKey.SIPE_PUB_STATE_MACHINE,
                   container := 3,
                   version := version_or_zero (lookup_publication cache "state"
                     (publication_key "state"
                       (if is_user_state then ext.sipe_get_pub_instance PubKey.SIPE_PUB_STATE_USER
                        else ext.sipe_get_pub_instance PubKey.SIPE_PUB_STATE_MACHINE) 3)),
                   expireType := if is_user_state then "static" else "endpoint",
                   body := if is_user_state then
                       PublicationBody.user_state (ext.sipe_get_availability_by_status status)
                     else PublicationBody.machine_state
                       (ext.sipe_get_availability_by_status status) } ]) =
          some [ { categoryName := "state",
                   inst := if is_user_state then
                       ext.sipe_get_pub_instance PubKey.SIPE_PUB_STATE_USER
                     else ext.sipe_get_pub_instance PubKey.SIPE_PUB_STATE_MACHINE,
                   container := 2, version := v2, expireType := expireType, body := body },
                 { categoryName := "state",
                   inst := if is_user_state then
                       ext.sipe_get_pub_instance PubKey.SIPE_PUB_STATE_USER
                     else ext.sipe_get_pub_instance PubKey.SIPE_PUB_STATE_MACHINE,
                   container := 3, version := v3, expireType := expireType, body := body } ] := by
    intro p2
    refine ⟨_, _, _, _, ?_, rfl⟩
    cases is_user_state <;> simp
  unfold sipe_publish_get_category_state
  simp only []
  cases h2 : lookup_publication cache "state"
      (publication_key "state"
        (if is_user_state then ext.sipe_get_pub_instance PubKey.SIPE_PUB_STATE_USER
         else ext.sipe_get_pub_instance PubKey.SIPE_PUB_STATE_MACHINE) 2) with
  | none =>
    refine ⟨by simp, Or.inr ?_⟩
    simpa using hpair none
  | some p2 =>
    by_cases ha : p2.availability = ext.sipe_get_availability_by_status status
    · simp [ha]
    · refine ⟨by simp [ha], Or.inr ?_⟩
      simpa [ha] using hpair (some p2)

/-! ## Access level resolution -/

/-- A chain of one lookup gives its level, or `-1`. -/
theorem first_success_singleton (o : Option Nat) :
    first_success [o] = match o with | some id => (id : Int) | none => -1 := by
  cases o <;> rfl

theorem find_member_level_eq (store : List sipe_container) (type : String)
    (value : Option String) (ids : List Nat) :
    find_member_level store (some type) value ids
      = first_success [ids.find? (fun id =>
          match sipe_find_container store id with
          | some container => container.members.any (member_matches (some type) value)
          | none => false)] := by
  induction ids with
  | nil => rfl
  | cons id rest ih =>
    simp only [find_member_level, List.find?_cons]
    cases hc : sipe_find_container store id with
    | none => simpa using ih
    | some container =>
      simp only [sipe_find_container_member]
      cases hm : container.members.find? (member_matches (some type) value) with
      | none =>
        have : container.members.any (member_matches (some type) value) = false := by
          rw [List.any_eq_false]
          intro m hmem
          have := List.find?_eq_none.mp hm m hmem
          simpa using this
        simpa [this] using ih
      | some m =>
        have : container.members.any (member_matches (some type) value) = true := by
          rw [List.any_eq_true]
          exact ⟨m, List.mem_of_find?_eq_some hm, List.find?_some hm⟩
        simp [this, first_success]

theorem find_member_access_level_user (store : List sipe_container) (value : Option String) :
    sipe_find_member_access_level store (some "user") value
      = first_success [lookup_level store "user" (sipe_get_no_sip_uri value)] := by
  simp [sipe_find_member_access_level, sipe_strequal, find_member_level_eq, lookup_level]

theorem find_member_access_level_other (store : List sipe_container) (type : String)
    (value : Option String) (h : type ≠ "user") :
    sipe_find_member_access_level store (some type) value
      = first_success [lookup_level store type value] := by
  have h2 : ¬ ("user" = type) := fun e => h e.symm
  simp [sipe_find_member_access_level, sipe_strequal, find_member_level_eq, lookup_level, h2]

theorem first_success_nonneg (o : Option Nat) :
    first_success [o] ≥ 0 ↔ o.isSome = true := by
  cases o with
  | none => simp [first_success]
  | some id => simp [first_success]

/-- C5 (as amended): for member type `user` the access level is the level found by the first
lookup that succeeds, in the order user, domain, sameEnterprise (same domain only),
publicCloud (public provider only), everyone, members being compared ignoring ASCII case and
the user lookup removing a leading `sip:` from the value twice; it is `-1` when no lookup
succeeds. -/
theorem find_access_level_user_first_match (sip_domain : Option String)
    (store : List sipe_container) (value : Option String) :
    sipe_ocs2007_find_access_level sip_domain store (some "user") value
      = find_access_level_user_amended sip_domain store value := by
  unfold sipe_ocs2007_find_access_level find_access_level_group find_access_level_user_amended
  simp only [sipe_strequal, decide_True, if_true, find_member_access_level_user,
    find_member_access_level_other store "domain" _ (by decide),
    find_member_access_level_other store "sameEnterprise" _ (by decide),
    find_member_access_level_other store "publicCloud" _ (by decide),
    find_member_access_level_other store "everyone" _ (by decide),
    first_success_nonneg]
  cases h1 : lookup_level store "user" (sipe_get_no_sip_uri (sipe_get_no_sip_uri value)) with
  | some id => simp [first_success]
  | none =>
    cases h2 : lookup_level store "domain" (sipe_get_domain (sipe_get_no_sip_uri value)) with
    | some id => simp [first_success]
    | none =>
      cases h3 : lookup_level store "sameEnterprise" none with
      | some id3 =>
        by_cases hd : sipe_strcase_equal sip_domain
            (sipe_get_domain (sipe_get_no_sip_uri value)) = true
        · simp [first_success, hd]
        · cases h4 : lookup_level store "publicCloud" none with
          | some id4 =>
            by_cases hp : sipe_is_public_domain
                (sipe_get_domain (sipe_get_no_sip_uri value)) = true
            · simp [first_success, hd, hp]
            · cases h5 : lookup_level store "everyone" none <;> simp [first_success, hd, hp]
          | none =>
            cases h5 : lookup_level store "everyone" none <;> simp [first_success, hd]
      | none =>
        cases h4 : lookup_level store "publicCloud" none with
        | some id4 =>
          by_cases hp : sipe_is_public_domain
              (sipe_get_domain (sipe_get_no_sip_uri value)) = true
          · simp [first_success, hp]
          · cases h5 : lookup_level store "everyone" none <;> simp [first_success, hp]
        | none =>
          cases h5 : lookup_level store "everyone" none <;> simp [first_success]

/-- C5 (counterexample): the Personal container holds the user `Bob@Example.com`; for the
value `sip:bob@example.com` the code returns 400, while the chain of exact lookups of the
claim finds nothing and gives `-1`. -/
theorem find_access_level_user_ignores_case :
    sipe_ocs2007_find_access_level (some "example.org")
        [⟨400, 1, [⟨some "user", some "Bob@Example.com"⟩]⟩]
        (some "user") (some "sip:bob@example.com") = 400 ∧
    find_access_level_user_as_stated (some "example.org")
        [⟨400, 1, [⟨some "user", some "Bob@Example.com"⟩]⟩]
        (some "sip:bob@example.com") = -1 := by
  decide

/-! ## Change of an access level -/

theorem find_container_remove_ne (type value : Option String) (id j : Nat) (h : j ≠ id)
    (store : List sipe_container) :
    sipe_find_container (remove_container_member type value id store) j
      = sipe_find_container store j := by
  induction store with
  | nil => rfl
  | cons c rest ih =>
    simp only [remove_container_member]
    by_cases hc : id = c.id
    · have hj : ¬ (j = c.id) := fun e => h (e.trans hc.symm)
      simp [hc, sipe_find_container, List.find?_cons, hj]
    · simp only [hc, if_false]
      simp only [sipe_find_container, List.find?_cons] at ih ⊢
      rw [ih]

theorem find_container_remove_eq (type value : Option String) (id : Nat)
    (store : List sipe_container) :
    sipe_find_container (remove_container_member type value id store) id
      = (sipe_find_container store id).map (fun c =>
          { c with members := c.members.eraseP (member_matches type value) }) := by
  induction store with
  | nil => rfl
  | cons c rest ih =>
    simp only [remove_container_member]
    by_cases hc : id = c.id
    · simp [hc, sipe_find_container, List.find?_cons]
    · simp only [hc, if_false]
      simp only [sipe_find_container, List.find?_cons, hc, decide_False] at ih ⊢
      exact ih

theorem find_eraseP_of_at_most_once {α : Type} (p : α → Bool) (l : List α)
    (h : (l.filter p).length ≤ 1) : (l.eraseP p).find? p = none := by
  induction l with
  | nil => rfl
  | cons a l ih =>
    by_cases hp : p a = true
    · simp only [List.filter_cons, hp, if_true, List.length_cons] at h
      have hl : l.filter p = [] := List.length_eq_zero.mp (by omega)
      simp only [List.eraseP_cons, hp, cond_true]
      rw [List.find?_eq_none]
      intro x hx
      have : x ∉ l.filter p := by rw [hl]; simp
      intro hpx
      exact this (List.mem_filter.mpr ⟨hx, hpx⟩)
    · have hp2 : p a = false := by simpa using hp
      simp only [List.filter_cons, hp2, Bool.false_eq_true, if_false] at h
      simp only [List.eraseP_cons, hp2, cond_false, List.find?_cons]
      exact ih h

theorem filter_eraseP_length_le {α : Type} (p : α → Bool) (l : List α) :
    ((l.eraseP p).filter p).length ≤ (l.filter p).length := by
  induction l with
  | nil => simp
  | cons a l ih =>
    by_cases hp : p a = true
    · simp [List.eraseP_cons, hp, List.filter_cons]
    · have hp2 : p a = false := by simpa using hp
      simp [List.eraseP_cons, hp2, List.filter_cons, ih]

theorem remove_keeps_at_most_once (type value : Option String) (id : Nat)
    (store : List sipe_container) (h : ∀ c ∈ store, holds_at_most_once type value c) :
    ∀ c ∈ remove_container_member type value id store, holds_at_most_once type value c := by
  induction store with
  | nil => intro c hc; simp [remove_container_member] at hc
  | cons a rest ih =>
    intro c hc
    simp only [remove_container_member] at hc
    by_cases ha : id = a.id
    · simp only [ha, if_true, List.mem_cons] at hc
      rcases hc with hc | hc
      · subst hc
        have := h a (by simp)
        unfold holds_at_most_once at this ⊢
        exact le_trans (filter_eraseP_length_le _ _) this
      · exact h c (by simp [hc])
    · simp only [ha, if_false, List.mem_cons] at hc
      rcases hc with hc | hc
      · subst hc; exact h c (by simp)
      · exact ih (fun c hc => h c (by simp [hc])) c hc

theorem level_holds_remove_self (type value : Option String) (id : Nat)
    (store : List sipe_container) (h : ∀ c ∈ store, holds_at_most_once type value c) :
    level_holds (remove_container_member type value id store) type value id = false := by
  unfold level_holds
  rw [find_container_remove_eq]
  cases hc : sipe_find_container store id with
  | none => rfl
  | some c =>
    simp only [Option.map, container_holds, sipe_find_container_member]
    cases type with
    | none => rfl
    | some t =>
      have hmem : c ∈ store := List.mem_of_find?_eq_some hc
      simp only []
      rw [find_eraseP_of_at_most_once _ _ (h c hmem)]
      rfl

theorem level_holds_remove_ne (type value : Option String) (id j : Nat) (h : j ≠ id)
    (store : List sipe_container) :
    level_holds (remove_container_member type value id store) type value j
      = level_holds store type value j := by
  unfold level_holds
  rw [find_container_remove_ne type value id j h]

/-- After the find/delete loop no scanned level other than the requested one holds the
member, if no container listed the member twice. -/
theorem change_access_level_loop_clears (container_id : Int) (type value : Option String) :
    ∀ (ids : List Nat) (st : List sipe_container × List container_xml),
      (∀ c ∈ st.1, holds_at_most_once type value c) →
      (∀ c ∈ (change_access_level_loop container_id type value ids st).1,
          holds_at_most_once type value c) ∧
      (∀ j : Nat, (container_id < 0 ∨ container_id ≠ (j : Int)) →
        (j ∈ ids ∨ level_holds st.1 type value j = false) →
        level_holds (change_access_level_loop container_id type value ids st).1 type value j
          = false) := by
  intro ids
  induction ids with
  | nil =>
    intro st h
    refine ⟨h, ?_⟩
    intro j _ hj
    rcases hj with hj | hj
    · simp at hj
    · exact hj
  | cons id rest ih =>
    intro st h
    obtain ⟨store, xmls⟩ := st
    simp only [change_access_level_loop]
    cases hc : sipe_find_container store id with
    | none =>
      simp only []
      refine ⟨(ih (store, xmls) h).1, ?_⟩
      intro j hcond hj
      apply (ih (store, xmls) h).2 j hcond
      rcases hj with hj | hj
      · rcases List.mem_cons.mp hj with e | e
        · subst e; right; simp [level_holds, hc]
        · left; exact e
      · right; exact hj
    | some c =>
      simp only []
      cases hm : sipe_find_container_member c type value with
      | none =>
        simp only []
        refine ⟨(ih (store, xmls) h).1, ?_⟩
        intro j hcond hj
        apply (ih (store, xmls) h).2 j hcond
        rcases hj with hj | hj
        · rcases List.mem_cons.mp hj with e | e
          · subst e; right; simp [level_holds, hc, container_holds, hm]
          · left; exact e
        · right; exact hj
      | some m =>
        simp only []
        by_cases hcond0 : container_id < 0 ∨ container_id ≠ (id : Int)
        · simp only [hcond0, if_true]
          have h2 := remove_keeps_at_most_once type value id store h
          refine ⟨(ih (_, _) h2).1, ?_⟩
          intro j hcond hj
          apply (ih (_, _) h2).2 j hcond
          by_cases e : j = id
          · subst e; right; exact level_holds_remove_self type value j store h
          · rcases hj with hj | hj
            · rcases List.mem_cons.mp hj with e2 | e2
              · exact absurd e2 e
              · left; exact e2
            · right
              simp only []
              rw [level_holds_remove_ne type value id j e]
              exact hj
        · simp only [hcond0, if_false]
          refine ⟨(ih (store, xmls) h).1, ?_⟩
          intro j hcond hj
          apply (ih (store, xmls) h).2 j hcond
          rcases hj with hj | hj
          · rcases List.mem_cons.mp hj with e | e
            · subst e; exact absurd hcond hcond0
            · left; exact e
          · right; exact hj

/-- C6 (as amended): after `sipe_ocs2007_change_access_level` at most one of the five
access levels has a container that holds the member, provided no container of the store
listed the member more than once; containers with other ids are not scanned. -/
theorem change_access_level_at_most_one_level (sip_domain : Option String)
    (store : List sipe_container) (container_id : Int) (type value : Option String)
    (h : ∀ c ∈ store, holds_at_most_once type value c) :
    ∀ i ∈ containers, ∀ j ∈ containers,
      level_holds (sipe_ocs2007_change_access_level sip_domain store container_id type value).1
          type value i = true →
      level_holds (sipe_ocs2007_change_access_level sip_domain store container_id type value).1
          type value j = true →
      i = j := by
  intro i hi j hj h1 h2
  have hl := (change_access_level_loop_clears container_id type value containers (store, []) h).2
  simp only [sipe_ocs2007_change_access_level] at h1 h2
  have ei : ¬ (container_id < 0 ∨ container_id ≠ (i : Int)) := by
    intro hc
    have := hl i hc (Or.inl hi)
    rw [this] at h1
    exact absurd h1 (by simp)
  have ej : ¬ (container_id < 0 ∨ container_id ≠ (j : Int)) := by
    intro hc
    have := hl j hc (Or.inl hj)
    rw [this] at h2
    exact absurd h2 (by simp)
  omega

/-- Witness of `change_access_level_at_most_one_level`: a user held by the Personal and the
Team container is moved to Team; afterwards Team holds the user and Personal does not. -/
theorem change_access_level_at_most_one_level_witness :
    level_holds (sipe_ocs2007_change_access_level (some "example.org")
        [⟨400, 3, [⟨some "user", some "bob@example.com"⟩]⟩,
         ⟨300, 7, [⟨some "user", some "bob@example.com"⟩]⟩]
        300 (some "user") (some "bob@example.com")).1
        (some "user") (some "bob@example.com") 300 = true ∧
    level_holds (sipe_ocs2007_change_access_level (some "example.org")
        [⟨400, 3, [⟨some "user", some "bob@example.com"⟩]⟩,
         ⟨300, 7, [⟨some "user", some "bob@example.com"⟩]⟩]
        300 (some "user") (some "bob@example.com")).1
        (some "user") (some "bob@example.com") 400 = false :=
  ⟨by decide,
   Bool.eq_false_iff.mpr (fun h400 =>
     absurd
       (change_access_level_at_most_one_level (some "example.org")
         [⟨400, 3, [⟨some "user", some "bob@example.com"⟩]⟩,
          ⟨300, 7, [⟨some "user", some "bob@example.com"⟩]⟩]
         300 (some "user") (some "bob@example.com") (by decide)
         400 (by decide) 300 (by decide) h400 (by decide))
       (by decide))⟩

/-- C6 (counterexample): the member `sameEnterprise` is held by container 2 and by the
Company container 200; after the change to level 200 both containers still hold it. -/
theorem change_access_level_leaves_other_container :
    ((sipe_ocs2007_change_access_level (some "example.org")
        [⟨2, 1, [⟨some "sameEnterprise", none⟩]⟩, ⟨200, 4, [⟨some "sameEnterprise", none⟩]⟩]
        200 (some "sameEnterprise") none).1.filter
      (container_holds (some "sameEnterprise") none)).length = 2 := by
  decide

theorem change_access_level_loop_removes (container_id : Int) (type value : Option String) :
    ∀ (ids : List Nat) (st : List sipe_container × List container_xml),
      ∃ removes : List container_xml, (∀ x ∈ removes, x.action = "remove") ∧
        (change_access_level_loop container_id type value ids st).2 = st.2 ++ removes := by
  intro ids
  induction ids with
  | nil => intro st; exact ⟨[], by simp, by simp [change_access_level_loop]⟩
  | cons id rest ih =>
    intro st
    obtain ⟨store, xmls⟩ := st
    simp only [change_access_level_loop]
    cases hc : sipe_find_container store id with
    | none => exact ih (store, xmls)
    | some c =>
      simp only []
      cases hm : sipe_find_container_member c type value with
      | none => exact ih (store, xmls)
      | some m =>
        simp only []
        by_cases hcond0 : container_id < 0 ∨ container_id ≠ (id : Int)
        · simp only [hcond0, if_true]
          obtain ⟨removes, hr, he⟩ := ih (remove_container_member type value id store,
            xmls ++ [ { container_id := id, container_version := c.version,
                        action := "remove", type := type, value := value } ])
          refine ⟨{ container_id := id, container_version := c.version,
                    action := "remove", type := type, value := value } :: removes, ?_, ?_⟩
          · intro x hx
            rcases List.mem_cons.mp hx with e | e
            · subst e; rfl
            · exact hr x e
          · rw [he]; simp
        · simp only [hcond0, if_false]
          exact ih (store, xmls)

/-- The find/delete loop changes nothing when no scanned level other than the requested one
holds the member. -/
theorem change_access_level_loop_idle (container_id : Int) (type value : Option String) :
    ∀ (ids : List Nat) (st : List sipe_container × List container_xml),
      (∀ j ∈ ids, (container_id < 0 ∨ container_id ≠ (j : Int)) →
        level_holds st.1 type value j = false) →
      change_access_level_loop container_id type value ids st = st := by
  intro ids
  induction ids with
  | nil => intro st _; rfl
  | cons id rest ih =>
    intro st h
    obtain ⟨store, xmls⟩ := st
    have hrest := ih (store, xmls) (fun j hj => h j (List.mem_cons_of_mem _ hj))
    simp only [change_access_level_loop]
    cases hc : sipe_find_container store id with
    | none => exact hrest
    | some c =>
      simp only []
      cases hm : sipe_find_container_member c type value with
      | none => exact hrest
      | some m =>
        simp only []
        by_cases hcond0 : container_id < 0 ∨ container_id ≠ (id : Int)
        · have := h id (List.mem_cons_self _ _) hcond0
          simp [level_holds, hc, container_holds, hm] at this
        · simp only [hcond0, if_false]
          exact hrest

/-- C7 (as amended): when `sipe_ocs2007_change_access_level` is called twice in a row with
the same arguments on a store in which no container lists the member twice, the second call
leaves the store as the first call left it and prepares no remove element; it sends the add
element of the first call again, so it sends no request exactly when the requested level is
negative or the store left by the first call already resolves to it. -/
theorem change_access_level_second_call (sip_domain : Option String)
    (store : List sipe_container) (container_id : Int) (type value : Option String)
    (h : ∀ c ∈ store, holds_at_most_once type value c) :
    (sipe_ocs2007_change_access_level sip_domain
        (sipe_ocs2007_change_access_level sip_domain store container_id type value).1
        container_id type value).1
      = (sipe_ocs2007_change_access_level sip_domain store container_id type value).1 ∧
    ∃ removes adds : List container_xml,
      (∀ x ∈ removes, x.action = "remove") ∧ (∀ x ∈ adds, x.action = "add") ∧
      adds.length ≤ 1 ∧
      (sipe_ocs2007_change_access_level sip_domain store container_id type value).2
        = set_container_members_request (removes ++ adds) ∧
      (sipe_ocs2007_change_access_level sip_domain
          (sipe_ocs2007_change_access_level sip_domain store container_id type value).1
          container_id type value).2
        = set_container_members_request adds ∧
      (adds = [] ↔ (container_id < 0 ∨
        sipe_ocs2007_find_access_level sip_domain
          (sipe_ocs2007_change_access_level sip_domain store container_id type value).1
          type value = container_id)) := by
  have hl := (change_access_level_loop_clears container_id type value containers (store, []) h).2
  have hidle := change_access_level_loop_idle container_id type value containers
    ((change_access_level_loop container_id type value containers (store, [])).1, [])
    (fun j hj hc => hl j hc (Or.inl hj))
  obtain ⟨removes, hr, he⟩ :=
    change_access_level_loop_removes container_id type value containers (store, [])
  simp only [sipe_ocs2007_change_access_level, hidle]
  refine ⟨trivial, removes, change_access_level_add sip_domain
      (change_access_level_loop container_id type value containers (store, [])).1
      container_id type value, hr, ?_, ?_, ?_, ?_, ?_⟩
  · intro x hx
    unfold change_access_level_add at hx
    simp only [] at hx
    split at hx
    · simp only [List.mem_singleton] at hx
      subst hx; rfl
    · simp at hx
  · unfold change_access_level_add
    simp only []
    split <;> simp
  · rw [he]; simp
  · simp
  · unfold change_access_level_add
    simp only []
    split
    · rename_i hc
      simp only [List.cons_ne_nil, false_iff]
      intro hx
      rcases hx with hx | hx
      · omega
      · exact hc.1 hx.symm
    · rename_i hc
      simp only [true_iff]
      by_cases hneg : container_id < 0
      · left; exact hneg
      · right
        by_contra hne
        exact hc ⟨fun e => hne e.symm, by omega⟩

/-- Witness of `change_access_level_second_call`: a user not yet listed is given the Team
level twice. -/
theorem change_access_level_second_call_witness :
    (sipe_ocs2007_change_access_level (some "example.org")
        (sipe_ocs2007_change_access_level (some "example.org")
          [⟨300, 5, []⟩] 300 (some "user") (some "bob@example.com")).1
        300 (some "user") (some "bob@example.com")).1
      = (sipe_ocs2007_change_access_level (some "example.org")
          [⟨300, 5, []⟩] 300 (some "user") (some "bob@example.com")).1 ∧
    ∃ removes adds : List container_xml,
      (∀ x ∈ removes, x.action = "remove") ∧ (∀ x ∈ adds, x.action = "add") ∧
      adds.length ≤ 1 ∧
      (sipe_ocs2007_change_access_level (some "example.org")
          [⟨300, 5, []⟩] 300 (some "user") (some "bob@example.com")).2
        = set_container_members_request (removes ++ adds) ∧
      (sipe_ocs2007_change_access_level (some "example.org")
          (sipe_ocs2007_change_access_level (some "example.org")
            [⟨300, 5, []⟩] 300 (some "user") (some "bob@example.com")).1
          300 (some "user") (some "bob@example.com")).2
        = set_container_members_request adds ∧
      (adds = [] ↔ ((300 : Int) < 0 ∨
        sipe_ocs2007_find_access_level (some "example.org")
          (sipe_ocs2007_change_access_level (some "example.org")
            [⟨300, 5, []⟩] 300 (some "user") (some "bob@example.com")).1
          (some "user") (some "bob@example.com") = 300)) :=
  change_access_level_second_call (some "example.org") [⟨300, 5, []⟩] 300
    (some "user") (some "bob@example.com") (by decide)

/-- C7 (counterexample): the Team container exists and does not list the user; the first
call sends the add element, the store stays as it was, and the second call with the same
arguments sends the same request again. -/
theorem change_access_level_repeats_add :
    sipe_ocs2007_change_access_level (some "example.org") [⟨300, 5, []⟩] 300
        (some "user") (some "bob@example.com")
      = ([⟨300, 5, []⟩],
         some [⟨300, 5, "add", some "user", some "bob@example.com"⟩]) ∧
    (sipe_ocs2007_change_access_level (some "example.org")
        (sipe_ocs2007_change_access_level (some "example.org") [⟨300, 5, []⟩] 300
          (some "user") (some "bob@example.com")).1
        300 (some "user") (some "bob@example.com")).2
      = some [⟨300, 5, "add", some "user", some "bob@example.com"⟩] := by
  decide

/-! ## Keys of the publication cache -/

theorem toDigitsCore_digits (fuel : Nat) :
    ∀ (n : Nat) (ds : List Char), (∀ c ∈ ds, 48 ≤ c.toNat ∧ c.toNat ≤ 57) →
      ∀ c ∈ Nat.toDigitsCore 10 fuel n ds, 48 ≤ c.toNat ∧ c.toNat ≤ 57 := by
  induction fuel with
  | zero => intro n ds h; simpa [Nat.toDigitsCore] using h
  | succ fuel ih =>
    intro n ds h
    have hd := digitChar_toNat (n % 10) (Nat.mod_lt _ (by decide))
    have hcons : ∀ c ∈ Nat.digitChar (n % 10) :: ds, 48 ≤ c.toNat ∧ c.toNat ≤ 57 := by
      intro c hc
      rcases List.mem_cons.mp hc with e | e
      · subst e; omega
      · exact h c e
    simp only [Nat.toDigitsCore]
    by_cases h0 : n / 10 = 0
    · simp only [h0, if_true]; exact hcons
    · simp only [h0, if_false]; exact ih _ _ hcons

theorem repr_digits (n : Nat) : ∀ c ∈ (toString n).data, 48 ≤ c.toNat ∧ c.toNat ≤ 57 := by
  have h := toDigitsCore_digits (n + 1) n [] (by simp)
  simpa [toString, Nat.repr, Nat.toDigits, List.asString] using h

theorem repr_injective (a b : Nat) (h : toString a = toString b) : a = b := by
  have ha := atoi_digits_repr a
  rw [h, atoi_digits_repr b] at ha
  exact ha.symm

/-- Two texts that agree after digit runs closed by the same non-digit have equal runs. -/
theorem digit_run_unique (x : Char) (hx : ¬ (48 ≤ x.toNat ∧ x.toNat ≤ 57)) :
    ∀ (d1 d2 r1 r2 : List Char),
      (∀ c ∈ d1, 48 ≤ c.toNat ∧ c.toNat ≤ 57) → (∀ c ∈ d2, 48 ≤ c.toNat ∧ c.toNat ≤ 57) →
      d1 ++ x :: r1 = d2 ++ x :: r2 → d1 = d2 ∧ r1 = r2 := by
  intro d1
  induction d1 with
  | nil =>
    intro d2 r1 r2 _ h2 h
    cases d2 with
    | nil => simpa using h
    | cons c d2 =>
      simp only [List.nil_append, List.cons_append, List.cons.injEq] at h
      exact absurd (h.1 ▸ h2 c (by simp)) hx
  | cons c d1 ih =>
    intro d2 r1 r2 h1 h2 h
    cases d2 with
    | nil =>
      simp only [List.nil_append, List.cons_append, List.cons.injEq] at h
      exact absurd (h.1 ▸ h1 c (by simp)) hx
    | cons c2 d2 =>
      simp only [List.cons_append, List.cons.injEq] at h
      obtain ⟨e1, e2⟩ := ih d2 r1 r2 (fun c hc => h1 c (by simp [hc]))
        (fun c hc => h2 c (by simp [hc])) h.2
      exact ⟨by rw [h.1, e1], e2⟩

theorem key_of_strings_data (category inst container : String) :
    (key_of_strings category inst container).data
      = '<' :: (category.data ++ '>' :: '<' :: (inst.data ++ '>' :: '<' ::
          (container.data ++ ['>']))) := by
  simp [key_of_strings, String.data_append]

/-- For one category the key text determines instance and container. -/
theorem publication_key_injective (category : String) (i1 c1 i2 c2 : Nat)
    (h : publication_key category i1 c1 = publication_key category i2 c2) :
    i1 = i2 ∧ c1 = c2 := by
  have hd := congrArg String.data h
  simp only [publication_key, key_of_strings_data, List.cons.injEq, true_and,
    List.append_cancel_left_eq] at hd
  have hgt : ¬ (48 ≤ ('>' : Char).toNat ∧ ('>' : Char).toNat ≤ 57) := by decide
  obtain ⟨e1, r1⟩ := digit_run_unique '>' hgt _ _ _ _ (repr_digits i1) (repr_digits i2) hd
  simp only [List.cons.injEq, true_and] at r1
  obtain ⟨e2, _⟩ := digit_run_unique '>' hgt _ _ _ _ (repr_digits c1) (repr_digits c2) r1
  exact ⟨repr_injective _ _ (String.ext e1), repr_injective _ _ (String.ext e2)⟩

/-! ## Ingestion of a roaming-self snapshot -/

/-- The removing traversal keeps the entry found under a key when its container is not
the one that is cleared. -/
theorem remove_container_foreach_keeps (container : Nat) (k : String) (v : sipe_publication)
    (hv : v.container ≠ container) :
    ∀ (t : GHashTable sipe_publication), g_hash_table_lookup t k = some v →
      g_hash_table_lookup (remove_container_foreach container t) k = some v := by
  intro t
  induction t with
  | nil => intro h; simp [g_hash_table_lookup] at h
  | cons hd tl ih =>
    intro h
    obtain ⟨k1, v1⟩ := hd
    by_cases hk : k1 = k
    · subst hk
      simp only [g_hash_table_lookup, if_true, Option.some.injEq] at h
      subst h
      simp [remove_container_foreach, hv, g_hash_table_lookup]
    · simp only [g_hash_table_lookup, hk, if_false] at h
      by_cases hc : v1.container = container
      · simp [remove_container_foreach, hc, h]
      · simp [remove_container_foreach, hc, g_hash_table_lookup, hk, ih h]

/-- The removing traversal adds no entry. -/
theorem mem_of_mem_remove_container_foreach (container : Nat) (kv : String × sipe_publication) :
    ∀ (t : GHashTable sipe_publication), kv ∈ remove_container_foreach container t → kv ∈ t := by
  intro t
  induction t with
  | nil => intro h; simp [remove_container_foreach] at h
  | cons hd tl ih =>
    intro h
    obtain ⟨k1, v1⟩ := hd
    by_cases hc : v1.container = container
    · simp only [remove_container_foreach, hc, if_true] at h
      exact List.mem_cons_of_mem _ h
    · simp only [remove_container_foreach, hc, if_false, List.mem_cons] at h
      rcases h with h | h
      · exact h ▸ List.mem_cons_self _ _
      · exact List.mem_cons_of_mem _ (ih h)

theorem capture_user_state_cache (node : xml_category) (key : String)
    (sip : sipe_account_data) :
    (capture_user_state node key sip).our_publications = sip.our_publications := by
  unfold capture_user_state
  simp only []
  repeat' split
  all_goals rfl

theorem ingest_note_cache (ext : Externals) (node : xml_category) (publish_time : Int)
    (sip : sipe_account_data) (loc : roaming_locals) :
    (ingest_note ext node publish_time sip loc).1.our_publications = sip.our_publications := by
  unfold ingest_note
  simp only []
  repeat' split
  all_goals rfl

theorem ingest_user_properties_cache (node : xml_category) (sip : sipe_account_data)
    (loc : roaming_locals) :
    (ingest_user_properties node sip loc).1.our_publications = sip.our_publications := by
  unfold ingest_user_properties
  repeat' split
  all_goals rfl

/-- The cache after one category element, case by case. -/
theorem process_category_cache (ext : Externals) (rext : RoamingExternals)
    (node : xml_category) (sip : sipe_account_data) (loc : roaming_locals) :
    (process_category ext rext node sip loc).1.our_publications =
      if category_container node = GUINT_NONE then sip.our_publications
      else if category_instance node = GUINT_NONE then
        sipe_remove_category_container_publications sip.our_publications node.name
          (category_container node)
      else if sipe_is_our_publication ext
          (publication_key node.name (category_instance node) (category_container node)) = true
        then
          g_hash_table_insert sip.our_publications node.name
            (g_hash_table_insert ((g_hash_table_lookup sip.our_publications node.name).getD [])
              (publication_key node.name (category_instance node) (category_container node))
              (publication_of_category ext rext node))
      else sip.our_publications := by
  unfold process_category
  simp only []
  by_cases h1 : category_container node = GUINT_NONE
  · simp only [h1, if_true]
  · simp only [h1, if_false]
    by_cases h2 : category_instance node = GUINT_NONE
    · simp only [h2, if_true]
      split <;> rfl
    · simp only [h2, if_false, ingest_user_properties_cache]
      unfold ingest_our_publication
      by_cases h3 : sipe_is_our_publication ext
          (publication_key node.name (category_instance node) (category_container node)) = true
      · simp only [h3, if_true, ingest_note_cache, capture_user_state_cache]
      · simp only [h3, if_false]
        exact capture_user_state_cache _ _ _

/-- A cached entry survives a category element of another category or another container. -/
theorem process_category_frame (ext : Externals) (rext : RoamingExternals)
    (other : xml_category) (sip : sipe_account_data) (loc : roaming_locals)
    (category : String) (inst container : Nat) (p : sipe_publication)
    (hp : lookup_publication sip.our_publications category
      (publication_key category inst container) = some p)
    (hpc : p.container = container)
    (hother : other.name = category → category_container other ≠ container) :
    lookup_publication (process_category ext rext other sip loc).1.our_publications category
      (publication_key category inst container) = some p := by
  rw [process_category_cache]
  split
  · exact hp
  · split
    · unfold sipe_remove_category_container_publications
      cases ht : g_hash_table_lookup sip.our_publications other.name with
      | none => exact hp
      | some t =>
        simp only []
        by_cases hn : other.name = category
        · rw [hn, lookup_publication_insert_self]
          rw [hn] at ht
          simp only [lookup_publication, ht] at hp
          apply remove_container_foreach_keeps _ _ _ _ _ hp
          rw [hpc]
          exact fun e => hother hn e.symm
        · rw [lookup_publication_insert_ne _ _ _ _ _ hn]
          exact hp
    · split
      · by_cases hn : other.name = category
        · rw [hn, lookup_publication_insert_self]
          have hk : publication_key category (category_instance other) (category_container other)
              ≠ publication_key category inst container := by
            intro e
            exact hother hn (publication_key_injective _ _ _ _ _ e).2
          rw [lookup_insert_ne _ _ _ _ hk]
          simp only [lookup_publication] at hp
          cases ht : g_hash_table_lookup sip.our_publications category with
          | none => simp [ht] at hp
          | some t => simpa [ht] using hp
        · rw [lookup_publication_insert_ne _ _ _ _ _ hn]
          exact hp
      · exact hp

/-- A normal category element with one of our keys is cached as read from the snapshot. -/
theorem process_category_hit (ext : Externals) (rext : RoamingExternals)
    (node : xml_category) (sip : sipe_account_data) (loc : roaming_locals)
    (hc : category_container node ≠ GUINT_NONE) (hi : category_instance node ≠ GUINT_NONE)
    (hours : sipe_is_our_publication ext
      (publication_key node.name (category_instance node) (category_container node)) = true) :
    lookup_publication (process_category ext rext node sip loc).1.our_publications node.name
      (publication_key node.name (category_instance node) (category_container node))
      = some (publication_of_category ext rext node) := by
  rw [process_category_cache]
  simp only [hc, hi, hours, if_true, if_false, lookup_publication_insert_self,
    lookup_insert_self]

theorem process_categories_frame (ext : Externals) (rext : RoamingExternals)
    (category : String) (inst container : Nat) (p : sipe_publication)
    (hpc : p.container = container) :
    ∀ (nodes : List xml_category) (st : sipe_account_data × roaming_locals),
      lookup_publication st.1.our_publications category
        (publication_key category inst container) = some p →
      (∀ other ∈ nodes, other.name = category → category_container other ≠ container) →
      lookup_publication (process_categories ext rext nodes st).1.our_publications category
        (publication_key category inst container) = some p := by
  intro nodes
  induction nodes with
  | nil => intro st hp _; exact hp
  | cons other rest ih =>
    intro st hp h
    simp only [process_categories]
    apply ih
    · exact process_category_frame ext rext other st.1 st.2 category inst container p hp hpc
        (h other (by simp))
    · exact fun o ho => h o (by simp [ho])

theorem process_categories_round_trip (ext : Externals) (rext : RoamingExternals)
    (node : xml_category)
    (hc : category_container node ≠ GUINT_NONE) (hi : category_instance node ≠ GUINT_NONE)
    (hours : sipe_is_our_publication ext
      (publication_key node.name (category_instance node) (category_container node)) = true) :
    ∀ (nodes : List xml_category) (n : Nat) (st : sipe_account_data × roaming_locals),
      nodes[n]? = some node →
      (∀ m other, m ≠ n → nodes[m]? = some other → other.name = node.name →
        category_container other ≠ category_container node) →
      lookup_publication (process_categories ext rext nodes st).1.our_publications node.name
        (publication_key node.name (category_instance node) (category_container node))
        = some (publication_of_category ext rext node) := by
  intro nodes
  induction nodes with
  | nil => intro n st h; simp at h
  | cons hd rest ih =>
    intro n st hn hother
    simp only [process_categories]
    cases n with
    | zero =>
      simp only [List.getElem?_cons_zero, Option.some.injEq] at hn
      subst hn
      apply process_categories_frame ext rext _ _ _ _ (by rfl)
      · exact process_category_hit ext rext hd st.1 st.2 hc hi hours
      · intro other ho hname
        obtain ⟨m, hm⟩ := List.getElem?_of_mem ho
        exact hother (m + 1) other (by omega) (by simpa using hm) hname
    | succ n =>
      apply ih n _ (by simpa using hn)
      intro m other hm ho hname
      exact hother (m + 1) other (by omega) (by simpa using ho) hname

theorem process_roaming_self_cache (ext : Externals) (rext : RoamingExternals)
    (sip_domain : Option String) (sip : sipe_account_data) (xml : roaming_self_xml) :
    (sipe_ocs2007_process_roaming_self ext rext sip_domain sip (some xml)).1.our_publications
      = (process_categories ext rext xml.categories
          ({ sip with our_publications :=
               drop_categories sip.our_publications (collect_category_names xml.categories []) },
           { devices := [], aggreg_avail := 0, do_update_status := false,
             has_note_cleaned := false, effects := [] })).1.our_publications := by
  unfold sipe_ocs2007_process_roaming_self
  simp only []
  repeat' split
  all_goals rfl

/-- C8: round trip of ingestion. When the snapshot holds a normal category element for one
of the engine's own publication keys and no other element for the same category and
container, the cache holds after `sipe_ocs2007_process_roaming_self` an entry under that key
with the category, instance, container and version of the element. -/
theorem roaming_self_round_trip (ext : Externals) (rext : RoamingExternals)
    (sip_domain : Option String) (sip : sipe_account_data) (xml : roaming_self_xml)
    (n : Nat) (node : xml_category)
    (hnode : xml.categories[n]? = some node)
    (hc : category_container node ≠ GUINT_NONE) (hi : category_instance node ≠ GUINT_NONE)
    (hours : sipe_is_our_publication ext
      (publication_key node.name (category_instance node) (category_container node)) = true)
    (hother : ∀ m other, m ≠ n → xml.categories[m]? = some other → other.name = node.name →
      category_container other ≠ category_container node) :
    ∃ p, lookup_publication
        (sipe_ocs2007_process_roaming_self ext rext sip_domain sip (some xml)).1.our_publications
        node.name
        (publication_key node.name (category_instance node) (category_container node))
        = some p ∧
      p.version = category_version node ∧ p.category = node.name ∧
      p.inst = category_instance node ∧ p.container = category_container node := by
  refine ⟨publication_of_category ext rext node, ?_, rfl, rfl, rfl, rfl⟩
  rw [process_roaming_self_cache]
  exact process_categories_round_trip ext rext node hc hi hours xml.categories n _ hnode hother

/-- Witness of `roaming_self_round_trip`: a snapshot with the machine state of container 2
at version 5. -/
theorem roaming_self_round_trip_witness :
    ∃ p, lookup_publication
        (sipe_ocs2007_process_roaming_self sample_externals sample_roaming_externals
          (some "example.org") fresh_session
          (some { categories := [plain_category "state" (some "2") (some "12") (some "5")],
                  containers := none, subscribers := [] })).1.our_publications
        "state" (publication_key "state" 12 2) = some p ∧
      p.version = 5 ∧ p.category = "state" ∧ p.inst = 12 ∧ p.container = 2 :=
  roaming_self_round_trip sample_externals sample_roaming_externals (some "example.org")
    fresh_session
    { categories := [plain_category "state" (some "2") (some "12") (some "5")],
      containers := none, subscribers := [] }
    0 (plain_category "state" (some "2") (some "12") (some "5"))
    (by decide) (by decide) (by decide) (by decide)
    (by
      intro m other hm ho
      cases m with
      | zero => exact absurd rfl hm
      | succ m => simp at ho)

/-! ## Suppression in the note, working hours and free/busy builders -/

/-- C11: `sipe_publish_get_category_note` returns no fragment if and only if the normalised
note (HTML stripped, then markup escaped) equals the note text of the cached container 200
entry of the note instance, two absent texts counting as equal; in every other case it
returns exactly three publications, for containers 200, 300 and 400 in this order, which all
carry the one normalised note, or all clear when the note is absent. -/
theorem note_builder_suppressed_iff_unchanged (ext : Externals) (cache : PublicationCache)
    (note note_type : Option String) (note_start note_end : Int) :
    (sipe_publish_get_category_note ext cache note note_type note_start note_end = none ↔
      (note.bind ext.sipe_backend_markup_strip_html).map ext.g_markup_escape_text
        = (lookup_publication cache "note"
            (publication_key "note"
              (if sipe_strequal (some "OOF") note_type then
                 ext.sipe_get_pub_instance PubKey.SIPE_PUB_NOTE_OOF else 0) 200)).bind
            (fun p => p.note)) ∧
    (sipe_publish_get_category_note ext cache note note_type note_start note_end = none ∨
      ∃ (v200 v300 v400 : Nat) (body : PublicationBody),
        (((note.bind ext.sipe_backend_markup_strip_html).map ext.g_markup_escape_text = none ∧
            body = PublicationBody.clear) ∨
          ∃ text, (note.bind ext.sipe_backend_markup_strip_html).map ext.g_markup_escape_text
              = some text ∧
            body = PublicationBody.note note_type
              (if note_start ≠ 0 then some (ext.sipe_utils_time_to_str note_start) else none)
              (if note_end ≠ 0 then some (ext.sipe_utils_time_to_str note_end) else none)
              text) ∧
        sipe_publish_get_category_note ext cache note note_type note_start note_end =
          some [ { categoryName := "note",
                   inst := if sipe_strequal (some "OOF") note_type then
                       ext.sipe_get_pub_instance PubKey.SIPE_PUB_NOTE_OOF else 0,
                   container := 200, version := v200, expireType := "static", body := body },
                 { categoryName := "note",
                   inst := if sipe_strequal (some "OOF") note_type then
                       ext.sipe_get_pub_instance PubKey.SIPE_PUB_NOTE_OOF else 0,
                   container := 300, version := v300, expireType := "static", body := body },
                 { categoryName := "note",
                   inst := if sipe_strequal (some "OOF") note_type then
                       ext.sipe_get_pub_instance PubKey.SIPE_PUB_NOTE_OOF else 0,
                   container := 400, version := v400, expireType := "static",
                   body := body } ]) := by
  unfold sipe_publish_get_category_note
  simp only []
  by_cases heq : (note.bind ext.sipe_backend_markup_strip_html).map ext.g_markup_escape_text
      = (lookup_publication cache "note"
          (publication_key "note"
            (if sipe_strequal (some "OOF") note_type then
               ext.sipe_get_pub_instance PubKey.SIPE_PUB_NOTE_OOF else 0) 200)).bind
          (fun p => p.note)
  · simp [sipe_strequal, heq]
  · have hs : sipe_strequal
        ((note.bind ext.sipe_backend_markup_strip_html).map ext.g_markup_escape_text)
        ((lookup_publication cache "note"
          (publication_key "note"
            (if sipe_strequal (some "OOF") note_type then
               ext.sipe_get_pub_instance PubKey.SIPE_PUB_NOTE_OOF else 0) 200)).bind
          (fun p => p.note)) = false := by
      simpa [sipe_strequal] using heq
    simp only [hs, Bool.false_eq_true, if_false]
    refine ⟨?_, Or.inr ?_⟩
    · constructor
      · intro h
        split at h <;> exact absurd h (by simp)
      · intro h; exact absurd h heq
    · cases hn : (note.bind ext.sipe_backend_markup_strip_html).map ext.g_markup_escape_text with
      | none => exact ⟨_, _, _, _, Or.inl ⟨rfl, rfl⟩, rfl⟩
      | some text => exact ⟨_, _, _, _, Or.inr ⟨text, rfl, rfl⟩, rfl⟩

/-- C13: `sipe_publish_get_category_cal_working_hours` returns a fragment if and only if a
calendar with a non-blank mailbox address and a non-blank working hours document is
available and the document differs from the one of the cached container 300 entry; the
fragment then holds the publications of containers 1, 100, 200, 300, 400 and 32000, those of
100 and 32000 with an empty `calendarData` element and the others with mailbox address and
document. -/
theorem working_hours_builder_emits_iff_changed (cache : PublicationCache)
    (cal : Option sipe_calendar) :
    ((sipe_publish_get_category_cal_working_hours cache cal).isSome = true ↔
      ∃ c, cal = some c ∧ is_empty c.email = false ∧
        is_empty c.working_hours_xml_str = false ∧
        c.working_hours_xml_str ≠
          (lookup_publication cache "calendarData" (publication_key "calendarData" 0 300)).bind
            (fun p => p.working_hours_xml_str)) ∧
    (∀ c, cal = some c → (sipe_publish_get_category_cal_working_hours cache cal).isSome = true →
      ∃ (v1 v100 v200 v300 v400 v32000 : Nat),
        sipe_publish_get_category_cal_working_hours cache cal =
          some [ { categoryName := "calendarData", inst := 0, container := 1, version := v1,
                   expireType := "static",
                   body := PublicationBody.working_hours c.email c.working_hours_xml_str },
                 { categoryName := "calendarData", inst := 0, container := 100,
                   version := v100, expireType := "static",
                   body := PublicationBody.calendar_data_empty },
                 { categoryName := "calendarData", inst := 0, container := 200,
                   version := v200, expireType := "static",
                   body := PublicationBody.working_hours c.email c.working_hours_xml_str },
                 { categoryName := "calendarData", inst := 0, container := 300,
                   version := v300, expireType := "static",
                   body := PublicationBody.working_hours c.email c.working_hours_xml_str },
                 { categoryName := "calendarData", inst := 0, container := 400,
                   version := v400, expireType := "static",
                   body := PublicationBody.working_hours c.email c.working_hours_xml_str },
                 { categoryName := "calendarData", inst := 0, container := 32000,
                   version := v32000, expireType := "static",
                   body := PublicationBody.calendar_data_empty } ]) := by
  cases cal with
  | none => simp [sipe_publish_get_category_cal_working_hours]
  | some c =>
    by_cases h1 : is_empty c.email = true
    · have hb : sipe_publish_get_category_cal_working_hours cache (some c) = none := by
        simp [sipe_publish_get_category_cal_working_hours, h1]
      simp [hb, h1]
    · by_cases h2 : is_empty c.working_hours_xml_str = true
      · have hb : sipe_publish_get_category_cal_working_hours cache (some c) = none := by
          simp [sipe_publish_get_category_cal_working_hours, h2]
        simp [hb, h2]
      · have h1f : is_empty c.email = false := by simpa using h1
        have h2f : is_empty c.working_hours_xml_str = false := by simpa using h2
        by_cases h3 : c.working_hours_xml_str =
            (lookup_publication cache "calendarData" (publication_key "calendarData" 0 300)).bind
              (fun p => p.working_hours_xml_str)
        · have hb : sipe_publish_get_category_cal_working_hours cache (some c) = none := by
            unfold sipe_publish_get_category_cal_working_hours
            simp only [h1f, h2f, Bool.or_self, Bool.false_eq_true, if_false, sipe_strequal,
              Option.bind_some]
            rw [if_pos]
            simp only [decide_eq_true_eq]
            exact h3
          rw [hb]
          refine ⟨?_, ?_⟩
          · constructor
            · intro h; exact absurd h (by simp)
            · rintro ⟨c2, hc, _, _, hne⟩
              simp only [Option.some.injEq] at hc
              subst hc
              exact absurd h3 hne
          · intro c2 _ h; exact absurd h (by simp)
        · have hb : sipe_publish_get_category_cal_working_hours cache (some c) =
              some [ working_hours_publication cache c 1 true,
                     working_hours_publication cache c 100 false,
                     working_hours_publication cache c 200 true,
                     working_hours_publication cache c 300 true,
                     working_hours_publication cache c 400 true,
                     working_hours_publication cache c 32000 false ] := by
            unfold sipe_publish_get_category_cal_working_hours
            simp only [h1f, h2f, Bool.or_self, Bool.false_eq_true, if_false, sipe_strequal,
              Option.bind_some]
            rw [if_neg]
            simp only [decide_eq_true_eq]
            exact h3
          rw [hb]
          refine ⟨?_, ?_⟩
          · constructor
            · intro _; exact ⟨c, rfl, h1f, h2f, h3⟩
            · intro _; rfl
          · intro c2 hc _
            simp only [Option.some.injEq] at hc
            subst hc
            exact ⟨_, _, _, _, _, _, rfl⟩

/-- The free/busy builder returns no fragment exactly when the data to publish is missing;
the cache plays no part in the decision. -/
theorem free_busy_builder_none_iff (ext : Externals) (cache : PublicationCache)
    (cal : Option sipe_calendar) :
    sipe_publish_get_category_cal_free_busy ext cache cal = none ↔
      (cal = none ∨ ∃ c, cal = some c ∧
        (is_empty c.email = true ∨ c.fb_start = 0 ∨ is_empty c.free_busy = true)) := by
  cases cal with
  | none => simp [sipe_publish_get_category_cal_free_busy]
  | some c =>
    unfold sipe_publish_get_category_cal_free_busy
    simp only []
    by_cases h : (is_empty c.email || decide (c.fb_start = 0) || is_empty c.free_busy) = true
    · simp only [h, if_true, true_iff]
      right
      refine ⟨c, rfl, ?_⟩
      simpa [or_assoc] using h
    · simp only [h, if_false]
      constructor
      · intro h2; exact absurd h2 (by simp)
      · rintro (h2 | ⟨c2, hc, h2⟩)
        · exact absurd h2 (by simp)
        · simp only [Option.some.injEq] at hc
          subst hc
          exfalso
          apply h
          simpa [or_assoc] using h2

/-- C14 (as amended): the free/busy builder does not suppress on no change. Whenever a
calendar with a non-blank mailbox address, a start time and a non-blank free/busy blob is
available it returns a fragment of six publications, for containers 1, 100, 200, 300, 400
and 32000, whatever the cache holds. -/
theorem free_busy_builder_always_refreshes (ext : Externals) (cache : PublicationCache)
    (c : sipe_calendar) (hemail : is_empty c.email = false) (hstart : c.fb_start ≠ 0)
    (hfb : is_empty c.free_busy = false) :
    ∃ frag, sipe_publish_get_category_cal_free_busy ext cache (some c) = some frag ∧
      frag.map (fun e => e.container) = [1, 100, 200, 300, 400, 32000] := by
  unfold sipe_publish_get_category_cal_free_busy
  simp only [hemail, hfb, hstart, decide_False, Bool.or_self, Bool.false_eq_true, if_false]
  exact ⟨_, rfl, rfl⟩

/-- Witness of `free_busy_builder_always_refreshes`: a calendar with free/busy data and an
empty cache. -/
theorem free_busy_builder_always_refreshes_witness :
    ∃ frag, sipe_publish_get_category_cal_free_busy sample_externals []
        (some ⟨some "me@example.com", none, 1000, some "AAAA", none, 0, 0⟩) = some frag ∧
      frag.map (fun e => e.container) = [1, 100, 200, 300, 400, 32000] :=
  free_busy_builder_always_refreshes sample_externals []
    ⟨some "me@example.com", none, 1000, some "AAAA", none, 0, 0⟩
    (by decide) (by decide) (by decide)

/-- C14 (counterexample): the cached container 300 entry of the free/busy instance stores
the start time and the blob that are to be published, and the builder still returns the
fragment. -/
theorem free_busy_builder_republishes_unchanged :
    (lookup_publication
        [("calendarData", [("<calendarData><16><300>",
          { category := "calendarData", inst := 16, container := 300, version := 4,
            fb_start_str := some "1000", free_busy_base64 := some "AAAA" })])]
        "calendarData" (publication_key "calendarData" 16 300)).map
          (fun p => (p.fb_start_str, p.free_busy_base64))
      = some (some (sample_externals.sipe_utils_time_to_str 1000),
              sample_externals.sipe_cal_get_freebusy_base64 (some "AAAA")) ∧
    (sipe_publish_get_category_cal_free_busy sample_externals
        [("calendarData", [("<calendarData><16><300>",
          { category := "calendarData", inst := 16, container := 300, version := 4,
            fb_start_str := some "1000", free_busy_base64 := some "AAAA" })])]
        (some ⟨some "me@example.com", none, 1000, some "AAAA", none, 0, 0⟩)).isSome = true := by
  decide

/-! ## Suppression of the calendar state -/

/-- With an event the calendar state builder returns no fragment exactly when the cached
container 3 entry of the instance has availability 0 and the hash of the event. -/
theorem state_calendar_suppressed_iff (ext : Externals) (cache : PublicationCache)
    (uri : Option String) (cal_satus : Int) (e : sipe_cal_event) :
    sipe_publish_get_category_state_calendar ext cache (some e) uri cal_satus = none ↔
      ∃ p3, lookup_publication cache "state"
          (publication_key "state"
            (if cal_satus = SIPE_CAL_OOF then
               ext.sipe_get_pub_instance PubKey.SIPE_PUB_STATE_CALENDAR_OOF
             else ext.sipe_get_pub_instance PubKey.SIPE_PUB_STATE_CALENDAR) 3) = some p3 ∧
        p3.availability = 0 ∧ p3.cal_event_hash = some (ext.sipe_cal_event_hash e) := by
  unfold sipe_publish_get_category_state_calendar
  simp only []
  cases h3 : lookup_publication cache "state"
      (publication_key "state"
        (if cal_satus = SIPE_CAL_OOF then
          ext.sipe_get_pub_instance PubKey.SIPE_PUB_STATE_CALENDAR_OOF
         else ext.sipe_get_pub_instance PubKey.SIPE_PUB_STATE_CALENDAR) 3) with
  | none =>
    simp only [Bool.false_eq_true, if_false]
    constructor
    · intro h; split at h <;> exact absurd h (by simp)
    · rintro ⟨p3, hp, _⟩; exact absurd hp (by simp)
  | some p3 =>
    by_cases hu : p3.availability = 0 ∧ p3.cal_event_hash = some (ext.sipe_cal_event_hash e)
    · simp [hu, sipe_strequal]
    · have hdec : (decide (p3.availability = 0) &&
          decide (p3.cal_event_hash = some (ext.sipe_cal_event_hash e))) = false := by
        simpa using hu
      simp only [sipe_strequal, hdec, Bool.false_eq_true, if_false]
      constructor
      · intro h; split at h <;> exact absurd h (by simp)
      · rintro ⟨q, hq, h1, h2⟩
        simp only [Option.some.injEq] at hq
        subst hq
        exact absurd ⟨h1, h2⟩ hu

/-- C12 (evaluation at the failing input): the server returns the engine's publication of a
busy meeting (availability 6500) for containers 2 and 3 and the ingestion caches it; the
cached container 3 entry has the hash of the event and availability 6500, and the builder,
called again with the same busy event, returns the populated pair instead of nothing. -/
theorem state_calendar_busy_not_suppressed :
    (lookup_publication
        (sipe_ocs2007_process_roaming_self sample_hash_externals sample_roaming_externals
          (some "example.org") fresh_session
          (some { categories := [busy_state_category "2" "1", busy_state_category "3" "1"],
                  containers := none, subscribers := [] })).1.our_publications
        "state" (publication_key "state" 14 3)).map
          (fun p => (p.cal_event_hash, p.availability))
      = some (some (sample_hash_externals.sipe_cal_event_hash
          ⟨100, 160, SIPE_CAL_BUSY, some "standup", some "room 1", true⟩), 6500) ∧
    sipe_publish_get_category_state_calendar sample_hash_externals
        (sipe_ocs2007_process_roaming_self sample_hash_externals sample_roaming_externals
          (some "example.org") fresh_session
          (some { categories := [busy_state_category "2" "1", busy_state_category "3" "1"],
                  containers := none, subscribers := [] })).1.our_publications
        (some ⟨100, 160, SIPE_CAL_BUSY, some "standup", some "room 1", true⟩)
        (some "me@example.com") SIPE_CAL_BUSY
      = some [ { categoryName := "state", inst := 14, container := 2, version := 1,
                 expireType := "endpoint",
                 body := PublicationBody.calendar_state (some "me@example.com") "100"
                   (some 6500) (some CalendarActivity.in_meeting) "standup" "room 1" },
               { categoryName := "state", inst := 14, container := 3, version := 1,
                 expireType := "endpoint",
                 body := PublicationBody.calendar_state (some "me@example.com") "100"
                   (some 6500) (some CalendarActivity.in_meeting) "standup" "room 1" } ] := by
  decide

/-! ## Reconciler: other faults, versions and repetition -/

/-- C18: when the fault document of a response cannot be parsed or carries a fault code other
than `Client.BadCall.WrongDelta`, `process_send_presence_category_publish_response` leaves
the publication cache unchanged and starts neither the initial publish nor the status
resync. -/
theorem reconcile_ignores_other_faults (cache : PublicationCache) (msg : sipmsg)
    (request : List PublicationNode)
    (h : msg.body = none ∨ fault_code_of msg ≠ some "Client.BadCall.WrongDelta") :
    process_send_presence_category_publish_response cache msg request = (cache, none) := by
  have hne : fault_code_of msg ≠ some "Client.BadCall.WrongDelta" := by
    rcases h with h | h
    · simp [fault_code_of, h]
    · exact h
  unfold process_send_presence_category_publish_response
  split
  · simp [sipe_strequal, hne]
  · rfl

/-- Witness of `reconcile_ignores_other_faults`: a 409 response with another fault code. -/
theorem reconcile_ignores_other_faults_witness :
    process_send_presence_category_publish_response
        [("state", [("<state><1><2>",
          { category := "state", inst := 1, container := 2, version := 3 })])]
        { response := 409, contenttype := some "application/msrtc-fault+xml",
          body := some { faultcode := some "Client.BadCall.Other",
                         operations := [⟨"1", some "5"⟩] } }
        [⟨"state", "1", "2"⟩]
      = ([("state", [("<state><1><2>",
          { category := "state", inst := 1, container := 2, version := 3 })])], none) :=
  reconcile_ignores_other_faults _ _ _ (Or.inr (by decide))

/-- The loop changes a cached entry in its version only, and only to a version that the
fault table names for a publication element with the key of the entry. -/
theorem reconcile_loop_version (faults : GHashTable (Option String)) (c k : String) :
    ∀ (nodes : List PublicationNode) (start : Nat) (cache : PublicationCache) (flag : Bool)
      (p : sipe_publication),
      lookup_publication cache c k = some p →
      ∃ v : Nat,
        lookup_publication (reconcile_loop faults nodes start (cache, flag)).1 c k
          = some { p with version := v } ∧
        (v = p.version ∨ ∃ (i : Nat) (node : PublicationNode) (cv : String),
          nodes[i]? = some node ∧ node.categoryName = c ∧ node_key node = k ∧
          fault_lookup faults (toString (start + i)) = some cv ∧ v = to_guint (atoi cv)) := by
  intro nodes
  induction nodes with
  | nil => intro start cache flag p hp; exact ⟨p.version, hp, Or.inl rfl⟩
  | cons hd rest ih =>
    intro start cache flag p hp
    simp only [reconcile_loop]
    have shift : ∀ (q : sipe_publication) (v : Nat),
        (v = q.version ∨ ∃ (i : Nat) (node : PublicationNode) (cv : String),
          rest[i]? = some node ∧ node.categoryName = c ∧ node_key node = k ∧
          fault_lookup faults (toString (start + 1 + i)) = some cv ∧ v = to_guint (atoi cv)) →
        (v = q.version ∨ ∃ (i : Nat) (node : PublicationNode) (cv : String),
          (hd :: rest)[i]? = some node ∧ node.categoryName = c ∧ node_key node = k ∧
          fault_lookup faults (toString (start + i)) = some cv ∧ v = to_guint (atoi cv)) := by
      intro q v h
      rcases h with h | ⟨i, node, cv, h1, h2, h3, h4, h5⟩
      · exact Or.inl h
      · refine Or.inr ⟨i + 1, node, cv, by simpa using h1, h2, h3, ?_, h5⟩
        rw [← h4]; congr 2; omega
    cases hf : fault_lookup faults (toString start) with
    | none =>
      obtain ⟨v, h1, h2⟩ := ih (start + 1) cache
        (flag || sipe_strequal (some "device") (some hd.categoryName)) p hp
      exact ⟨v, h1, shift p v h2⟩
    | some cv0 =>
      simp only []
      by_cases hk : hd.categoryName = c ∧ node_key hd = k
      · obtain ⟨e1, e2⟩ := hk
        subst e1; subst e2
        have hhit := patch_publication_hit cache hd cv0 p hp
        obtain ⟨v, h1, h2⟩ := ih (start + 1) _
          (flag || sipe_strequal (some "device") (some hd.categoryName)) _ hhit
        refine ⟨v, h1, ?_⟩
        rcases shift { p with version := to_guint (atoi cv0) } v h2 with h | h
        · refine Or.inr ⟨0, hd, cv0, by simp, rfl, rfl, by simpa using hf, h⟩
        · exact Or.inr h
      · have hfr := patch_publication_frame cache hd cv0 c k hk
        obtain ⟨v, h1, h2⟩ := ih (start + 1) (patch_publication cache hd cv0)
          (flag || sipe_strequal (some "device") (some hd.categoryName)) p (by rw [hfr, hp])
        exact ⟨v, h1, shift p v h2⟩

/-- C19 (as amended): a WrongDelta rejection changes a cached entry in its version only, and
the version afterwards is either the version before or the `curVersion` that the fault table
names for a publication element of the request with the key of the entry, whether that is
higher or lower than the version before. -/
theorem reconcile_version_kept_or_named (cache : PublicationCache) (msg : sipmsg)
    (request : List PublicationNode) (c k : String) (p : sipe_publication)
    (hmsg : is_wrong_delta msg) (hp : lookup_publication cache c k = some p) :
    ∃ v : Nat,
      lookup_publication (process_send_presence_category_publish_response cache msg request).1
          c k = some { p with version := v } ∧
      (v = p.version ∨ ∃ (N : Nat) (node : PublicationNode) (cv : String),
        1 ≤ N ∧ request[N - 1]? = some node ∧ node.categoryName = c ∧ node_key node = k ∧
        fault_lookup (faults_of msg) (toString N) = some cv ∧ v = to_guint (atoi cv)) := by
  rw [process_response_wrong_delta cache msg request hmsg]
  obtain ⟨v, h1, h2⟩ := reconcile_loop_version (faults_of msg) c k request 1 cache false p hp
  refine ⟨v, h1, ?_⟩
  rcases h2 with h | ⟨i, node, cv, e1, e2, e3, e4, e5⟩
  · exact Or.inl h
  · refine Or.inr ⟨i + 1, node, cv, by omega, by simpa using e1, e2, e3, ?_, e5⟩
    rw [← e4]; congr 2; omega

/-- Witness of `reconcile_version_kept_or_named`: an entry at version 9 and a rejection that
names version 5 for it. -/
theorem reconcile_version_kept_or_named_witness :
    ∃ v : Nat,
      lookup_publication (process_send_presence_category_publish_response
          [("state", [("<state><1><2>",
            { category := "state", inst := 1, container := 2, version := 9 })])]
          (wrong_delta_msg [⟨"1", some "5"⟩]) [⟨"state", "1", "2"⟩]).1
          "state" "<state><1><2>"
        = some { ({ category := "state", inst := 1, container := 2, version := 9 } :
            sipe_publication) with version := v } ∧
      (v = ({ category := "state", inst := 1, container := 2, version := 9 } :
          sipe_publication).version ∨
        ∃ (N : Nat) (node : PublicationNode) (cv : String),
          1 ≤ N ∧ ([⟨"state", "1", "2"⟩] : List PublicationNode)[N - 1]? = some node ∧
          node.categoryName = "state" ∧ node_key node = "<state><1><2>" ∧
          fault_lookup (faults_of (wrong_delta_msg [⟨"1", some "5"⟩])) (toString N) = some cv ∧
          v = to_guint (atoi cv)) :=
  reconcile_version_kept_or_named _ (wrong_delta_msg [⟨"1", some "5"⟩]) [⟨"state", "1", "2"⟩]
    "state" "<state><1><2>" { category := "state", inst := 1, container := 2, version := 9 }
    (by decide) (by decide)

/-- C19 (counterexample): the cache holds the entry at version 9, having advanced past the
faulted state, and a late rejection names version 5 for it; afterwards the cached version is
5, lower than before. -/
theorem reconcile_lowers_version :
    is_wrong_delta (wrong_delta_msg [⟨"1", some "5"⟩]) ∧
    (lookup_publication
        [("state", [("<state><1><2>",
          { category := "state", inst := 1, container := 2, version := 9 })])]
        "state" "<state><1><2>").map (fun q => q.version) = some 9 ∧
    (lookup_publication (process_send_presence_category_publish_response
        [("state", [("<state><1><2>",
          { category := "state", inst := 1, container := 2, version := 9 })])]
        (wrong_delta_msg [⟨"1", some "5"⟩]) [⟨"state", "1", "2"⟩]).1
        "state" "<state><1><2>").map (fun q => q.version) = some 5 := by
  decide

/-! ## Repetition of a rejection -/

theorem insert_insert_same {β : Type} (t : GHashTable β) (k : String) (a b : β) :
    g_hash_table_insert (g_hash_table_insert t k a) k b = g_hash_table_insert t k b := by
  induction t with
  | nil => simp [g_hash_table_insert]
  | cons hd tl ih =>
    obtain ⟨k1, v1⟩ := hd
    by_cases h : k1 = k
    · simp [g_hash_table_insert, h]
    · simp [g_hash_table_insert, h, ih]

theorem insert_lookup_self {β : Type} (t : GHashTable β) (k : String) (a : β)
    (h : g_hash_table_lookup t k = some a) : g_hash_table_insert t k a = t := by
  induction t with
  | nil => simp [g_hash_table_lookup] at h
  | cons hd tl ih =>
    obtain ⟨k1, v1⟩ := hd
    by_cases hk : k1 = k
    · subst hk
      simp only [g_hash_table_lookup, if_true, Option.some.injEq] at h
      simp [g_hash_table_insert, h]
    · simp only [g_hash_table_lookup, hk, if_false] at h
      simp [g_hash_table_insert, hk, ih h]

theorem insert_comm {β : Type} (t : GHashTable β) (k1 k2 : String) (a b : β) (hne : k1 ≠ k2)
    (h1 : (g_hash_table_lookup t k1).isSome = true)
    (h2 : (g_hash_table_lookup t k2).isSome = true) :
    g_hash_table_insert (g_hash_table_insert t k1 a) k2 b
      = g_hash_table_insert (g_hash_table_insert t k2 b) k1 a := by
  induction t with
  | nil => simp [g_hash_table_lookup] at h1
  | cons hd tl ih =>
    obtain ⟨k0, v0⟩ := hd
    by_cases e1 : k0 = k1
    · subst e1
      simp [g_hash_table_insert, hne]
    · by_cases e2 : k0 = k2
      · subst e2
        have hne2 : ¬ (k0 = k1) := e1
        simp [g_hash_table_insert, hne2]
      · simp only [g_hash_table_lookup, e1, e2, if_false] at h1 h2
        simp [g_hash_table_insert, e1, e2, ih h1 h2]

theorem set_version_of_some (Z : PublicationCache) (c k : String) (w : Nat)
    (t : GHashTable sipe_publication) (p : sipe_publication)
    (ht : g_hash_table_lookup Z c = some t) (hp : g_hash_table_lookup t k = some p) :
    set_version Z c k w
      = g_hash_table_insert Z c (g_hash_table_insert t k { p with version := w }) := by
  simp [set_version, ht, hp]

theorem set_version_missing (Z : PublicationCache) (c k : String) (w : Nat)
    (h : lookup_publication Z c k = none) : set_version Z c k w = Z := by
  unfold lookup_publication at h
  unfold set_version
  cases ht : g_hash_table_lookup Z c with
  | none => rfl
  | some t =>
    simp only [ht] at h
    simp [h]

theorem lookup_isSome_insert {β : Type} (t : GHashTable β) (k k2 : String) (v : β)
    (h : (g_hash_table_lookup t k).isSome = true) :
    (g_hash_table_lookup (g_hash_table_insert t k v) k2).isSome
      = (g_hash_table_lookup t k2).isSome := by
  by_cases e : k = k2
  · subst e; simp [lookup_insert_self, h]
  · rw [lookup_insert_ne _ _ _ _ e]

theorem set_version_categories (Z : PublicationCache) (c k c2 : String) (w : Nat) :
    (g_hash_table_lookup (set_version Z c k w) c2).isSome
      = (g_hash_table_lookup Z c2).isSome := by
  unfold set_version
  cases ht : g_hash_table_lookup Z c with
  | none => rfl
  | some t =>
    simp only []
    cases hp : g_hash_table_lookup t k with
    | none => rfl
    | some p =>
      simp only []
      exact lookup_isSome_insert Z c c2 _ (by simp [ht])

theorem set_version_lookup (Z : PublicationCache) (c k c2 k2 : String) (w : Nat) :
    lookup_publication (set_version Z c k w) c2 k2
      = if c = c2 ∧ k = k2 then
          (lookup_publication Z c k).map (fun p => { p with version := w })
        else lookup_publication Z c2 k2 := by
  unfold set_version
  cases ht : g_hash_table_lookup Z c with
  | none =>
    simp only []
    split
    · rename_i h
      obtain ⟨e1, e2⟩ := h
      subst e1; subst e2
      simp [lookup_publication, ht]
    · rfl
  | some t =>
    simp only []
    cases hp : g_hash_table_lookup t k with
    | none =>
      simp only []
      split
      · rename_i h
        obtain ⟨e1, e2⟩ := h
        subst e1; subst e2
        simp [lookup_publication, ht, hp]
      · rfl
    | some p =>
      simp only []
      by_cases e1 : c = c2
      · subst e1
        rw [lookup_publication_insert_self]
        by_cases e2 : k = k2
        · subst e2
          simp [lookup_insert_self, lookup_publication, ht, hp]
        · simp [lookup_insert_ne _ _ _ _ e2, e2, lookup_publication, ht]
      · rw [lookup_publication_insert_ne _ _ _ _ _ e1]
        simp [e1]

theorem set_version_same (Z : PublicationCache) (c k : String) (w w2 : Nat) :
    set_version (set_version Z c k w) c k w2 = set_version Z c k w2 := by
  cases ht : g_hash_table_lookup Z c with
  | none => simp [set_version, ht]
  | some t =>
    cases hp : g_hash_table_lookup t k with
    | none => simp [set_version, ht, hp]
    | some p =>
      rw [set_version_of_some Z c k w t p ht hp, set_version_of_some Z c k w2 t p ht hp]
      rw [set_version_of_some _ c k w2 _ { p with version := w }
        (lookup_insert_self _ _ _) (lookup_insert_self _ _ _)]
      rw [insert_insert_same, insert_insert_same]

theorem set_version_comm (Z : PublicationCache) (c k c2 k2 : String) (w w2 : Nat)
    (hne : ¬ (c = c2 ∧ k = k2)) :
    set_version (set_version Z c k w) c2 k2 w2
      = set_version (set_version Z c2 k2 w2) c k w := by
  have hne2 : ¬ (c2 = c ∧ k2 = k) := fun h => hne ⟨h.1.symm, h.2.symm⟩
  cases h1 : lookup_publication Z c k with
  | none =>
    rw [set_version_missing Z c k w h1]
    rw [set_version_missing (set_version Z c2 k2 w2) c k w
      (by rw [set_version_lookup]; simp [hne2, h1])]
  | some p =>
    cases h2 : lookup_publication Z c2 k2 with
    | none =>
      rw [set_version_missing Z c2 k2 w2 h2]
      rw [set_version_missing (set_version Z c k w) c2 k2 w2
        (by rw [set_version_lookup]; simp [hne, h2])]
    | some p2 =>
      unfold lookup_publication at h1 h2
      cases ht : g_hash_table_lookup Z c with
      | none => simp [ht] at h1
      | some t =>
        cases ht2 : g_hash_table_lookup Z c2 with
        | none => simp [ht2] at h2
        | some t2 =>
          simp only [ht] at h1
          simp only [ht2] at h2
          rw [set_version_of_some Z c k w t p ht h1, set_version_of_some Z c2 k2 w2 t2 p2 ht2 h2]
          by_cases ec : c = c2
          · subst ec
            have et : t = t2 := by rw [ht] at ht2; exact Option.some.inj ht2
            subst et
            have ek : k ≠ k2 := fun e => hne ⟨rfl, e⟩
            rw [set_version_of_some _ c k2 w2 _ p2 (lookup_insert_self _ _ _)
              (by rw [lookup_insert_ne _ _ _ _ ek]; exact h2)]
            rw [set_version_of_some _ c k w _ p (lookup_insert_self _ _ _)
              (by rw [lookup_insert_ne _ _ _ _ (Ne.symm ek)]; exact h1)]
            rw [insert_insert_same, insert_insert_same]
            rw [insert_comm t k k2 _ _ ek (by simp [h1]) (by simp [h2])]
          · rw [set_version_of_some _ c2 k2 w2 t2 p2
              (by rw [lookup_insert_ne _ _ _ _ ec]; exact ht2) h2]
            rw [set_version_of_some _ c k w t p
              (by rw [lookup_insert_ne _ _ _ _ (Ne.symm ec)]; exact ht) h1]
            rw [insert_comm Z c c2 _ _ ec (by simp [ht]) (by simp [ht2])]

theorem set_version_id (Z : PublicationCache) (c k : String) (p : sipe_publication)
    (h : lookup_publication Z c k = some p) : set_version Z c k p.version = Z := by
  unfold lookup_publication at h
  cases ht : g_hash_table_lookup Z c with
  | none => simp [ht] at h
  | some t =>
    simp only [ht] at h
    rw [set_version_of_some Z c k _ t p ht h]
    rw [insert_lookup_self t k _ h, insert_lookup_self Z c t ht]

/-- On a cache that holds the category of the element, the patch is a change of version. -/
theorem patch_publication_eq_set_version (Z : PublicationCache) (node : PublicationNode)
    (cv : String) (h : (g_hash_table_lookup Z node.categoryName).isSome = true) :
    patch_publication Z node cv
      = set_version Z node.categoryName (node_key node) (to_guint (atoi cv)) := by
  unfold patch_publication set_version
  cases ht : g_hash_table_lookup Z node.categoryName with
  | none => simp [ht] at h
  | some t => rfl

theorem patch_publication_categories (Z : PublicationCache) (node : PublicationNode)
    (cv c2 : String) (h : (g_hash_table_lookup Z c2).isSome = true) :
    (g_hash_table_lookup (patch_publication Z node cv) c2).isSome = true := by
  cases ht : g_hash_table_lookup Z node.categoryName with
  | none =>
    have hne : node.categoryName ≠ c2 := by
      intro e; rw [e] at ht; simp [ht] at h
    simp only [patch_publication, ht]
    rw [lookup_insert_ne _ _ _ _ hne]
    exact h
  | some t =>
    rw [patch_publication_eq_set_version Z node cv (by simp [ht]), set_version_categories]
    exact h

theorem patch_publication_own_category (Z : PublicationCache) (node : PublicationNode)
    (cv : String) :
    (g_hash_table_lookup (patch_publication Z node cv) node.categoryName).isSome = true := by
  cases ht : g_hash_table_lookup Z node.categoryName with
  | none => simp [patch_publication, ht, lookup_insert_self]
  | some t => exact patch_publication_categories Z node cv _ (by simp [ht])

theorem patch_publication_own_version (X : PublicationCache) (node : PublicationNode)
    (cv : String) (q : sipe_publication)
    (h : lookup_publication (patch_publication X node cv) node.categoryName (node_key node)
      = some q) :
    q.version = to_guint (atoi cv) := by
  cases ht : g_hash_table_lookup X node.categoryName with
  | none =>
    rw [patch_publication_lost_category X node cv ht] at h
    simp only [Option.some.injEq] at h
    rw [← h]
  | some t =>
    rw [patch_publication_eq_set_version X node cv (by simp [ht]), set_version_lookup] at h
    simp only [and_self, if_true] at h
    cases hp : lookup_publication X node.categoryName (node_key node) with
    | none => simp [hp] at h
    | some p =>
      simp only [hp, Option.map_some', Option.some.injEq] at h
      rw [← h]

theorem reconcile_loop_flag_free (faults : GHashTable (Option String)) :
    ∀ (nodes : List PublicationNode) (start : Nat) (X : PublicationCache) (b b2 : Bool),
      (reconcile_loop faults nodes start (X, b)).1
        = (reconcile_loop faults nodes start (X, b2)).1 := by
  intro nodes
  induction nodes with
  | nil => intro start X b b2; rfl
  | cons n rest ih =>
    intro start X b b2
    simp only [reconcile_loop]
    exact ih _ _ _ _

theorem reconcile_loop_categories (faults : GHashTable (Option String)) (c : String) :
    ∀ (nodes : List PublicationNode) (start : Nat) (X : PublicationCache) (b : Bool),
      (g_hash_table_lookup X c).isSome = true →
      (g_hash_table_lookup (reconcile_loop faults nodes start (X, b)).1 c).isSome = true := by
  intro nodes
  induction nodes with
  | nil => intro start X b h; exact h
  | cons n rest ih =>
    intro start X b h
    simp only [reconcile_loop]
    apply ih
    cases hf : fault_lookup faults (toString start) with
    | none => exact h
    | some cv => exact patch_publication_categories X n cv c h

theorem reconcile_loop_faulted_category (faults : GHashTable (Option String)) :
    ∀ (nodes : List PublicationNode) (start : Nat) (X : PublicationCache) (b : Bool)
      (i : Nat) (m : PublicationNode) (cv : String),
      nodes[i]? = some m → fault_lookup faults (toString (start + i)) = some cv →
      (g_hash_table_lookup (reconcile_loop faults nodes start (X, b)).1
        m.categoryName).isSome = true := by
  intro nodes
  induction nodes with
  | nil => intro start X b i m cv h; simp at h
  | cons n rest ih =>
    intro start X b i m cv hm hf
    simp only [reconcile_loop]
    cases i with
    | zero =>
      simp only [List.getElem?_cons_zero, Option.some.injEq] at hm
      subst hm
      simp only [Nat.add_zero] at hf
      simp only [hf]
      exact reconcile_loop_categories faults _ rest _ _ _
        (patch_publication_own_category X n cv)
    | succ i =>
      exact ih (start + 1) _ _ i m cv (by simpa using hm) (by rw [← hf]; congr 2; omega)

/-- A change of version is overwritten by a later faulted element with the same key. -/
theorem reconcile_loop_absorbs (faults : GHashTable (Option String)) (c k : String) (w : Nat) :
    ∀ (rest : List PublicationNode) (start : Nat) (Z : PublicationCache) (b : Bool),
      (∀ (j : Nat) (m : PublicationNode) (cv : String), rest[j]? = some m →
        fault_lookup faults (toString (start + j)) = some cv →
        (g_hash_table_lookup Z m.categoryName).isSome = true) →
      (∃ (j : Nat) (m : PublicationNode) (cv : String), rest[j]? = some m ∧
        m.categoryName = c ∧ node_key m = k ∧
        fault_lookup faults (toString (start + j)) = some cv) →
      (reconcile_loop faults rest start (set_version Z c k w, b)).1
        = (reconcile_loop faults rest start (Z, b)).1 := by
  intro rest
  induction rest with
  | nil => intro start Z b _ h; obtain ⟨j, m, cv, h1, _⟩ := h; simp at h1
  | cons m0 rest ih =>
    intro start Z b hst hex
    have hst2 : ∀ (Z2 : PublicationCache),
        (∀ c2, (g_hash_table_lookup Z c2).isSome = true →
          (g_hash_table_lookup Z2 c2).isSome = true) →
        ∀ (j : Nat) (m : PublicationNode) (cv : String), rest[j]? = some m →
          fault_lookup faults (toString (start + 1 + j)) = some cv →
          (g_hash_table_lookup Z2 m.categoryName).isSome = true := by
      intro Z2 hZ2 j m cv hm hf
      exact hZ2 _ (hst (j + 1) m cv (by simpa using hm) (by rw [← hf]; congr 2; omega))
    simp only [reconcile_loop]
    cases hf : fault_lookup faults (toString start) with
    | none =>
      simp only []
      apply ih (start + 1) Z _ (hst2 Z (fun _ h => h))
      obtain ⟨j, m, cv, h1, h2, h3, h4⟩ := hex
      cases j with
      | zero => simp [hf] at h4
      | succ j => exact ⟨j, m, cv, by simpa using h1, h2, h3, by rw [← h4]; congr 2; omega⟩
    | some cv0 =>
      simp only []
      have hcat : (g_hash_table_lookup Z m0.categoryName).isSome = true :=
        hst 0 m0 cv0 (by simp) (by simpa using hf)
      rw [patch_publication_eq_set_version (set_version Z c k w) m0 cv0
        (by rw [set_version_categories]; exact hcat)]
      rw [patch_publication_eq_set_version Z m0 cv0 hcat]
      by_cases hk : c = m0.categoryName ∧ k = node_key m0
      · obtain ⟨e1, e2⟩ := hk
        subst e1; subst e2
        rw [set_version_same]
      · rw [set_version_comm Z c k _ _ w _ hk]
        apply ih (start + 1) _ _
          (hst2 _ (fun c2 h => by rw [set_version_categories]; exact h))
        obtain ⟨j, m, cv, h1, h2, h3, h4⟩ := hex
        cases j with
        | zero =>
          simp only [List.getElem?_cons_zero, Option.some.injEq] at h1
          subst h1
          exact absurd ⟨h2.symm, h3.symm⟩ hk
        | succ j => exact ⟨j, m, cv, by simpa using h1, h2, h3, by rw [← h4]; congr 2; omega⟩

/-- The loop leaves its own result as it is when it is run on it again. -/
theorem reconcile_loop_idempotent (faults : GHashTable (Option String)) :
    ∀ (nodes : List PublicationNode) (start : Nat) (X : PublicationCache) (b b2 : Bool),
      (reconcile_loop faults nodes start
          ((reconcile_loop faults nodes start (X, b)).1, b2)).1
        = (reconcile_loop faults nodes start (X, b)).1 := by
  intro nodes
  induction nodes with
  | nil => intro start X b b2; rfl
  | cons n rest ih =>
    intro start X b b2
    simp only [reconcile_loop]
    cases hf : fault_lookup faults (toString start) with
    | none => exact ih _ _ _ _
    | some cv =>
      simp only []
      have hY := ih (start + 1) (patch_publication X n cv)
        (b || sipe_strequal (some "device") (some n.categoryName))
        (b2 || sipe_strequal (some "device") (some n.categoryName))
      have hcatY : (g_hash_table_lookup
          (reconcile_loop faults rest (start + 1)
            (patch_publication X n cv,
             b || sipe_strequal (some "device") (some n.categoryName))).1
          n.categoryName).isSome = true :=
        reconcile_loop_categories faults _ rest _ _ _ (patch_publication_own_category X n cv)
      rw [patch_publication_eq_set_version _ n cv hcatY]
      cases hq : lookup_publication
          (reconcile_loop faults rest (start + 1)
            (patch_publication X n cv,
             b || sipe_strequal (some "device") (some n.categoryName))).1
          n.categoryName (node_key n) with
      | none =>
        rw [set_version_missing _ _ _ _ hq]
        exact hY
      | some q =>
        by_cases hex : ∃ (j : Nat) (m : PublicationNode) (cv2 : String), rest[j]? = some m ∧
            m.categoryName = n.categoryName ∧ node_key m = node_key n ∧
            fault_lookup faults (toString (start + 1 + j)) = some cv2
        · rw [reconcile_loop_absorbs faults _ _ _ rest (start + 1) _ _ ?_ hex]
          · exact hY
          · intro j m cv2 hm hf2
            exact reconcile_loop_faulted_category faults rest (start + 1) _ _ j m cv2 hm hf2
        · have hfr := reconcile_loop_frame faults n.categoryName (node_key n) rest (start + 1)
            (patch_publication X n cv)
            (b || sipe_strequal (some "device") (some n.categoryName))
            (by
              intro j nd hnd h1 h2
              cases hfl : fault_lookup faults (toString (start + 1 + j)) with
              | none => rfl
              | some cv2 => exact absurd ⟨j, nd, cv2, hnd, h1, h2, hfl⟩ hex)
          rw [hfr] at hq
          have hv := patch_publication_own_version X n cv q hq
          rw [← hfr] at hq
          rw [← hv, set_version_id _ _ _ q hq]
          exact hY

/-- C20: the reconciler is idempotent. Applying the same WrongDelta rejection, with the same
outbound document, to the cache left by its first application gives that cache again (and
starts the same publish sequence). -/
theorem reconcile_idempotent (cache : PublicationCache) (msg : sipmsg)
    (request : List PublicationNode) (hmsg : is_wrong_delta msg) :
    process_send_presence_category_publish_response
        (process_send_presence_category_publish_response cache msg request).1 msg request
      = process_send_presence_category_publish_response cache msg request := by
  rw [process_response_wrong_delta _ msg request hmsg,
    process_response_wrong_delta cache msg request hmsg]
  simp only [reconcile_loop_flag, reconcile_loop_idempotent]

/-- Witness of `reconcile_idempotent`: a rejection of a request whose category is not cached
and which repeats a key. -/
theorem reconcile_idempotent_witness :
    process_send_presence_category_publish_response
        (process_send_presence_category_publish_response
          [("note", [("<note><0><200>",
            { category := "note", inst := 0, container := 200, version := 2 })])]
          (wrong_delta_msg [⟨"1", some "5"⟩, ⟨"2", some "6"⟩, ⟨"3", some "7"⟩])
          [⟨"state", "1", "2"⟩, ⟨"state", "1", "3"⟩, ⟨"state", "1", "2"⟩]).1
        (wrong_delta_msg [⟨"1", some "5"⟩, ⟨"2", some "6"⟩, ⟨"3", some "7"⟩])
        [⟨"state", "1", "2"⟩, ⟨"state", "1", "3"⟩, ⟨"state", "1", "2"⟩]
      = process_send_presence_category_publish_response
          [("note", [("<note><0><200>",
            { category := "note", inst := 0, container := 200, version := 2 })])]
          (wrong_delta_msg [⟨"1", some "5"⟩, ⟨"2", some "6"⟩, ⟨"3", some "7"⟩])
          [⟨"state", "1", "2"⟩, ⟨"state", "1", "3"⟩, ⟨"state", "1", "2"⟩] :=
  reconcile_idempotent _ (wrong_delta_msg [⟨"1", some "5"⟩, ⟨"2", some "6"⟩, ⟨"3", some "7"⟩])
    [⟨"state", "1", "2"⟩, ⟨"state", "1", "3"⟩, ⟨"state", "1", "2"⟩] (by decide)


/-! ## Ingestion: containers, access levels and the categories of the snapshot -/

theorem process_containers_cons (node : xml_container) (rest : List xml_container)
    (store : List sipe_container) :
    process_containers (node :: rest) store
      = process_containers rest
          ((match sipe_find_container store (container_of_xml node).id with
            | some _ => store.eraseP
                (fun (container : sipe_container) => decide ((container_of_xml node).id = container.id))
            | none => store) ++ [container_of_xml node]) := rfl

theorem filter_eraseP_other {α : Type} (p q : α → Bool) (hpq : ∀ a, q a = true → p a = false) :
    ∀ (l : List α), (l.eraseP q).filter p = l.filter p := by
  intro l
  induction l with
  | nil => rfl
  | cons a t ih =>
    by_cases hq : q a = true
    · simp [List.eraseP_cons, hq, List.filter_cons, hpq a hq]
    · simp [List.eraseP_cons, hq, List.filter_cons, ih]

/-- Containers of an id that the snapshot does not name keep their place. -/
theorem process_containers_filter_other (x : Nat) :
    ∀ (cs : List xml_container) (store : List sipe_container),
      (∀ node ∈ cs, (container_of_xml node).id ≠ x) →
      (process_containers cs store).filter (fun c => decide (c.id = x))
        = store.filter (fun c => decide (c.id = x)) := by
  intro cs
  induction cs with
  | nil => intro store _; rfl
  | cons node rest ih =>
    intro store h
    rw [process_containers_cons, ih _ (fun n hn => h n (by simp [hn]))]
    have hne : (container_of_xml node).id ≠ x := h node (by simp)
    rw [List.filter_append]
    have h1 : [container_of_xml node].filter (fun c => decide (c.id = x)) = [] := by
      simp [List.filter_cons, hne]
    rw [h1, List.append_nil]
    cases sipe_find_container store (container_of_xml node).id with
    | none => rfl
    | some c =>
      simp only []
      apply filter_eraseP_other
      intro a ha
      simp only [decide_eq_true_eq] at ha
      simp only [decide_eq_false_iff_not]
      rw [← ha]
      exact hne

theorem eraseP_id_absent (x : Nat) :
    ∀ (l : List sipe_container), (l.map (fun c => c.id)).Nodup →
      ∀ a ∈ l.eraseP (fun c => decide (x = c.id)), a.id ≠ x := by
  intro l
  induction l with
  | nil => intro _ a ha; simp at ha
  | cons b t ih =>
    intro hn a ha
    simp only [List.map_cons, List.nodup_cons, List.mem_map, not_exists, not_and] at hn
    by_cases hb : x = b.id
    · simp only [List.eraseP_cons, hb, decide_True, cond_true] at ha
      intro e
      exact hn.1 a ha (by rw [e, hb])
    · simp only [List.eraseP_cons, hb, decide_False, cond_false, List.mem_cons] at ha
      rcases ha with e | ha
      · rw [e]; exact fun e2 => hb e2.symm
      · exact ih hn.2 a ha

/-- The store before the new container is appended holds no container of its id. -/
theorem store_without_id (x : Nat) (store : List sipe_container)
    (hn : (store.map (fun c => c.id)).Nodup) :
    ∀ a ∈ (match sipe_find_container store x with
        | some _ => store.eraseP (fun (container : sipe_container) => decide (x = container.id))
        | none => store), a.id ≠ x := by
  intro a ha
  cases hf : sipe_find_container store x with
  | none =>
    rw [hf] at ha
    have := List.find?_eq_none.mp hf a ha
    simp only [decide_eq_true_eq] at this
    exact fun e => this e.symm
  | some c =>
    rw [hf] at ha
    exact eraseP_id_absent x store hn a ha

theorem store_step_nodup (x : sipe_container) (store : List sipe_container)
    (hn : (store.map (fun c => c.id)).Nodup) :
    (((match sipe_find_container store x.id with
        | some _ => store.eraseP (fun (container : sipe_container) => decide (x.id = container.id))
        | none => store) ++ [x]).map (fun c => c.id)).Nodup := by
  have habs := store_without_id x.id store hn
  rw [List.map_append, List.nodup_append]
  refine ⟨?_, by simp, ?_⟩
  · cases sipe_find_container store x.id with
    | none => exact hn
    | some c => exact List.Nodup.sublist (List.Sublist.map _ (List.eraseP_sublist _)) hn
  · intro i hi1 hi2
    simp only [List.map_cons, List.map_nil, List.mem_singleton] at hi2
    obtain ⟨a, ha, e⟩ := List.mem_map.mp hi1
    exact habs a ha (by rw [e, hi2])

/-- The loop over the container elements keeps ids unique and leaves, for every id it meets,
the container of the last element with that id. -/
theorem process_containers_rebuilds :
    ∀ (cs : List xml_container) (store : List sipe_container),
      (store.map (fun c => c.id)).Nodup →
      ((process_containers cs store).map (fun c => c.id)).Nodup ∧
      ∀ (i : Nat) (node : xml_container), cs[i]? = some node →
        (∀ (j : Nat) (other : xml_container), i < j → cs[j]? = some other →
          (container_of_xml other).id ≠ (container_of_xml node).id) →
        (process_containers cs store).filter
            (fun c => decide (c.id = (container_of_xml node).id))
          = [container_of_xml node] := by
  intro cs
  induction cs with
  | nil => intro store hn; exact ⟨hn, fun i node h => by simp at h⟩
  | cons hd rest ih =>
    intro store hn
    rw [process_containers_cons]
    have hn2 := store_step_nodup (container_of_xml hd) store hn
    obtain ⟨ih1, ih2⟩ := ih _ hn2
    refine ⟨ih1, ?_⟩
    intro i node hi hlast
    cases i with
    | zero =>
      simp only [List.getElem?_cons_zero, Option.some.injEq] at hi
      subst hi
      rw [process_containers_filter_other]
      · rw [List.filter_append]
        have h0 : List.filter (fun (c : sipe_container) => decide (c.id = (container_of_xml hd).id))
            (match sipe_find_container store (container_of_xml hd).id with
            | some _ => store.eraseP
                (fun (container : sipe_container) => decide ((container_of_xml hd).id = container.id))
            | none => store) = [] := by
          rw [List.filter_eq_nil_iff]
          intro a ha
          simp only [decide_eq_true_eq]
          exact store_without_id _ store hn a ha
        rw [h0]
        simp [List.filter_cons]
      · intro other ho
        obtain ⟨j, hj⟩ := List.getElem?_of_mem ho
        exact hlast (j + 1) other (by omega) (by simpa using hj)
    | succ i =>
      apply ih2 i node (by simpa using hi)
      intro j other hij hj
      exact hlast (j + 1) other (by omega) (by simpa using hj)

theorem capture_user_state_acl (node : xml_category) (key : String) (sip : sipe_account_data) :
    (capture_user_state node key sip).access_level_set = sip.access_level_set ∧
      (capture_user_state node key sip).containers = sip.containers := by
  unfold capture_user_state
  simp only []
  repeat' split
  all_goals exact ⟨rfl, rfl⟩

theorem ingest_note_acl (ext : Externals) (node : xml_category) (publish_time : Int)
    (sip : sipe_account_data) (loc : roaming_locals) :
    (ingest_note ext node publish_time sip loc).1.access_level_set = sip.access_level_set ∧
      (ingest_note ext node publish_time sip loc).1.containers = sip.containers ∧
      (ingest_note ext node publish_time sip loc).2.effects = loc.effects := by
  unfold ingest_note
  simp only []
  repeat' split
  all_goals exact ⟨rfl, rfl, rfl⟩

theorem ingest_our_publication_acl (ext : Externals) (rext : RoamingExternals)
    (node : xml_category) (key : String) (publish_time : Int)
    (cat_publications : Option (GHashTable sipe_publication))
    (sip : sipe_account_data) (loc : roaming_locals) :
    (ingest_our_publication ext rext node key publish_time cat_publications sip loc).1.access_level_set
        = sip.access_level_set ∧
      (ingest_our_publication ext rext node key publish_time cat_publications sip loc).1.containers
        = sip.containers ∧
      (ingest_our_publication ext rext node key publish_time cat_publications sip loc).2.effects
        = loc.effects := by
  unfold ingest_our_publication
  split
  · exact ingest_note_acl ext node publish_time sip loc
  · exact ⟨rfl, rfl, rfl⟩

theorem ingest_aggregate_state_effects (node : xml_category) (loc : roaming_locals) :
    (ingest_aggregate_state node loc).effects = loc.effects := by
  unfold ingest_aggregate_state
  repeat' split
  all_goals rfl

theorem ingest_user_properties_acl (node : xml_category) (sip : sipe_account_data)
    (loc : roaming_locals) :
    (ingest_user_properties node sip loc).1.access_level_set = sip.access_level_set ∧
      (ingest_user_properties node sip loc).1.containers = sip.containers ∧
      (ingest_user_properties node sip loc).2.effects.filter is_set_container_members
        = loc.effects.filter is_set_container_members := by
  unfold ingest_user_properties
  repeat' split
  all_goals first
    | exact ⟨rfl, rfl, rfl⟩
    | exact ⟨rfl, rfl, by simp [List.filter_append, List.filter_cons, is_set_container_members]⟩

/-- One category element leaves the access-level flag and the containers alone and asks for
no `setContainerMembers`. -/
theorem process_category_acl (ext : Externals) (rext : RoamingExternals)
    (node : xml_category) (sip : sipe_account_data) (loc : roaming_locals) :
    (process_category ext rext node sip loc).1.access_level_set = sip.access_level_set ∧
      (process_category ext rext node sip loc).1.containers = sip.containers ∧
      (process_category ext rext node sip loc).2.effects.filter is_set_container_members
        = loc.effects.filter is_set_container_members := by
  unfold process_category
  simp only []
  by_cases h1 : category_container node = GUINT_NONE
  · simp only [h1, if_true, and_self]
  · simp only [h1, if_false]
    by_cases h2 : category_instance node = GUINT_NONE
    · simp only [h2, if_true]
      repeat' split
      all_goals exact ⟨rfl, rfl, rfl⟩
    · simp only [h2, if_false]
      refine ⟨(ingest_user_properties_acl _ _ _).1.trans
          ((ingest_our_publication_acl _ _ _ _ _ _ _ _).1.trans (capture_user_state_acl _ _ _).1),
        (ingest_user_properties_acl _ _ _).2.1.trans
          ((ingest_our_publication_acl _ _ _ _ _ _ _ _).2.1.trans
            (capture_user_state_acl _ _ _).2), ?_⟩
      rw [(ingest_user_properties_acl _ _ _).2.2, ingest_aggregate_state_effects,
        (ingest_our_publication_acl _ _ _ _ _ _ _ _).2.2]
      split <;> rfl

theorem process_categories_acl (ext : Externals) (rext : RoamingExternals) :
    ∀ (nodes : List xml_category) (st : sipe_account_data × roaming_locals),
      (process_categories ext rext nodes st).1.access_level_set = st.1.access_level_set ∧
        (process_categories ext rext nodes st).1.containers = st.1.containers ∧
        (process_categories ext rext nodes st).2.effects.filter is_set_container_members
          = st.2.effects.filter is_set_container_members := by
  intro nodes
  induction nodes with
  | nil => intro st; exact ⟨rfl, rfl, rfl⟩
  | cons node rest ih =>
    intro st
    simp only [process_categories]
    obtain ⟨a1, a2, a3⟩ := ih (process_category ext rext node st.1 st.2)
    obtain ⟨b1, b2, b3⟩ := process_category_acl ext rext node st.1 st.2
    exact ⟨a1.trans b1, a2.trans b2, a3.trans b3⟩

theorem refresh_blocked_status_quiet (sip_domain : Option String) (store : List sipe_container)
    (buddies : List (String × Bool)) :
    (sipe_refresh_blocked_status sip_domain store buddies).filter is_set_container_members
      = [] := by
  rw [List.filter_eq_nil_iff]
  intro a ha
  unfold sipe_refresh_blocked_status at ha
  obtain ⟨b, _, hb⟩ := List.mem_filterMap.mp ha
  simp only [] at hb
  split at hb
  · simp only [Option.some.injEq] at hb
    rw [← hb]
    simp [is_set_container_members]
  · cases hb

theorem process_subscribers_quiet (rext : RoamingExternals) :
    ∀ (nodes : List xml_subscriber),
      (process_subscribers rext nodes).filter is_set_container_members = [] := by
  intro nodes
  induction nodes with
  | nil => rfl
  | cons node rest ih =>
    unfold process_subscribers
    cases hu : node.user with
    | none => simpa using ih
    | some user =>
      simp only []
      repeat' split
      all_goals simp [List.filter_cons, List.filter_append, is_set_container_members, ih]

theorem filter_status_and_note (b : Bool) (status : Option String) :
    List.filter is_set_container_members
        (if b = true then [Effect.status_and_note status] else []) = [] := by
  cases b <;> simp [List.filter_cons, is_set_container_members]

theorem filter_set_container_members_request (o : Option (List container_xml)) :
    List.filter is_set_container_members
        (match o with
         | some container_xmls => [Effect.set_container_members container_xmls]
         | none => [])
      = (match o with
         | some container_xmls => [Effect.set_container_members container_xmls]
         | none => []) := by
  cases o <;> simp [List.filter_cons, is_set_container_members]

/-- The `setContainerMembers` requests, the access-level flag and the containers after one
ingestion. -/
theorem process_roaming_self_acl (ext : Externals) (rext : RoamingExternals)
    (sip_domain : Option String) (sip : sipe_account_data) (xml : roaming_self_xml) :
    (sipe_ocs2007_process_roaming_self ext rext sip_domain sip (some xml)).2.filter
        is_set_container_members
      = (match set_container_members_request
            (if (!sip.access_level_set && xml.containers.isSome) = true then
              initial_access_levels sip_domain
                (process_containers (xml.containers.getD []) sip.containers)
             else []) with
         | some container_xmls => [Effect.set_container_members container_xmls]
         | none => []) ∧
    (sipe_ocs2007_process_roaming_self ext rext sip_domain sip (some xml)).1.access_level_set
      = (sip.access_level_set || xml.containers.isSome) ∧
    (sipe_ocs2007_process_roaming_self ext rext sip_domain sip (some xml)).1.containers
      = process_containers (xml.containers.getD []) sip.containers := by
  obtain ⟨a1, a2, a3⟩ := process_categories_acl ext rext xml.categories
    ({ sip with our_publications :=
         drop_categories sip.our_publications (collect_category_names xml.categories []) },
     { devices := [], aggreg_avail := 0, do_update_status := false,
       has_note_cleaned := false, effects := [] })
  simp only [List.filter_nil] at a1 a2 a3
  unfold sipe_ocs2007_process_roaming_self
  simp only []
  generalize process_categories ext rext xml.categories
    ({ sip with our_publications :=
         drop_categories sip.our_publications (collect_category_names xml.categories []) },
     { devices := [], aggreg_avail := 0, do_update_status := false,
       has_note_cleaned := false, effects := [] }) = st at a1 a2 a3 ⊢
  rw [a1, a2]
  have hq1 := refresh_blocked_status_quiet sip_domain
    (process_containers (xml.containers.getD []) sip.containers) rext.buddies
  have hq2 := process_subscribers_quiet rext xml.subscribers
  by_cases hc : (!sip.access_level_set && xml.containers.isSome) = true
  · simp only [hc, if_true]
    have hc2 : (sip.access_level_set || xml.containers.isSome) = true := by
      simp only [Bool.and_eq_true, Bool.not_eq_true'] at hc
      simp [hc.2]
    rw [hc2]
    by_cases hp : st.1.initial_state_published = true
    · simp only [hp, Bool.not_true, if_false, Bool.false_eq_true]
      refine ⟨?_, ?_, ?_⟩
      · simp only [List.filter_append, a3, hq1, hq2, List.nil_append, List.append_nil,
          filter_status_and_note]
        exact filter_set_container_members_request _
      · repeat' split
        all_goals rfl
      · repeat' split
        all_goals rfl
    · simp only [Bool.not_eq_true] at hp
      simp only [hp, Bool.not_false, if_true]
      refine ⟨?_, trivial, trivial⟩
      simp only [List.filter_append, a3, hq1, hq2, List.nil_append, List.append_nil]
      have hf : List.filter is_set_container_members
          [Effect.presence_publish
              (send_publish_category_initial ext rext st.1.our_publications st.1.status).2,
            Effect.groupchat_init, Effect.cal_delayed_calendar_update] = [] := by
        simp [List.filter_cons, is_set_container_members]
      rw [hf, List.append_nil]
      exact filter_set_container_members_request _
  · simp only [hc, if_false, Bool.false_eq_true]
    have hc2 : (sip.access_level_set || xml.containers.isSome) = sip.access_level_set := by
      cases h1 : sip.access_level_set <;> cases h2 : xml.containers.isSome <;> simp_all
    rw [hc2]
    have hreq : set_container_members_request [] = none := rfl
    by_cases hp : st.1.initial_state_published = true
    · simp only [hp, Bool.not_true, if_false, Bool.false_eq_true]
      refine ⟨?_, ?_, ?_⟩
      · simp only [List.filter_append, a3, hq1, hq2, List.nil_append, List.append_nil,
          hreq, filter_status_and_note]
      · repeat' split
        all_goals rfl
      · repeat' split
        all_goals rfl
    · simp only [Bool.not_eq_true] at hp
      simp only [hp, Bool.not_false, if_true]
      refine ⟨?_, trivial, trivial⟩
      simp [List.filter_append, a3, hq1, hq2, List.filter_cons, is_set_container_members, hreq]

theorem find_member_level_absent (store : List sipe_container) (type : String)
    (h : ∀ c ∈ store, container_holds (some type) none c = false) :
    ∀ (ids : List Nat), find_member_level store (some type) none ids = -1 := by
  intro ids
  induction ids with
  | nil => rfl
  | cons id rest ih =>
    unfold find_member_level
    cases hc : sipe_find_container store id with
    | none => exact ih
    | some c =>
      have hmem : c ∈ store := List.mem_of_find?_eq_some hc
      have hh := h c hmem
      unfold container_holds at hh
      cases hm : sipe_find_container_member c (some type) none with
      | none => simp only [hm]; exact ih
      | some m => simp [hm] at hh

/-- A member type that no container holds has no access level. -/
theorem find_access_level_absent (sip_domain : Option String) (store : List sipe_container)
    (type : String) (hu : type ≠ "user")
    (h : ∀ c ∈ store, container_holds (some type) none c = false) :
    sipe_ocs2007_find_access_level sip_domain store (some type) none = -1 := by
  have h2 : ¬ ("user" = type) := fun e => hu e.symm
  unfold sipe_ocs2007_find_access_level find_access_level_group
  simp only [sipe_strequal, Option.some.injEq, h2, decide_False, Bool.false_eq_true, if_false]
  unfold sipe_find_member_access_level
  simp only [sipe_strequal, Option.some.injEq, h2, decide_False, Bool.false_eq_true, if_false]
  exact find_member_level_absent store type h containers

/-- Every container of the store after the loop was there before or was read from a
container element. -/
theorem process_containers_mem :
    ∀ (cs : List xml_container) (store : List sipe_container),
      ∀ c ∈ process_containers cs store, c ∈ store ∨ ∃ node ∈ cs, c = container_of_xml node := by
  intro cs
  induction cs with
  | nil => intro store c hc; exact Or.inl hc
  | cons node rest ih =>
    intro store c hc
    rw [process_containers_cons] at hc
    rcases ih _ c hc with h | ⟨n, hn, e⟩
    · rw [List.mem_append] at h
      rcases h with h | h
      · left
        cases hf : sipe_find_container store (container_of_xml node).id with
        | none => rw [hf] at h; exact h
        | some x => rw [hf] at h; exact List.mem_of_mem_eraseP h
      · right
        exact ⟨node, by simp, by simpa using h⟩
    · right
      exact ⟨n, by simp [hn], e⟩

/-- A session whose access levels are set asks for no `setContainerMembers` and keeps the
flag. -/
theorem process_roaming_self_settled (ext : Externals) (rext : RoamingExternals)
    (sip_domain : Option String) (sip : sipe_account_data) (body : Option roaming_self_xml)
    (hset : sip.access_level_set = true) :
    (sipe_ocs2007_process_roaming_self ext rext sip_domain sip body).2.filter
        is_set_container_members = [] ∧
    (sipe_ocs2007_process_roaming_self ext rext sip_domain sip body).1.access_level_set
      = true := by
  cases body with
  | none => exact ⟨rfl, hset⟩
  | some xml =>
    obtain ⟨h1, h2, _⟩ := process_roaming_self_acl ext rext sip_domain sip xml
    rw [h1, h2, hset]
    exact ⟨rfl, rfl⟩

theorem process_roaming_self_run_settled (ext : Externals) (rext : RoamingExternals)
    (sip_domain : Option String) :
    ∀ (bodies : List (Option roaming_self_xml)) (st : sipe_account_data × List Effect),
      st.1.access_level_set = true →
      (process_roaming_self_run ext rext sip_domain bodies st).2.filter is_set_container_members
        = st.2.filter is_set_container_members := by
  intro bodies
  induction bodies with
  | nil => intro st _; rfl
  | cons body rest ih =>
    intro st hset
    obtain ⟨h1, h2⟩ := process_roaming_self_settled ext rext sip_domain st.1 body hset
    simp only [process_roaming_self_run]
    rw [ih ((sipe_ocs2007_process_roaming_self ext rext sip_domain st.1 body).1,
      st.2 ++ (sipe_ocs2007_process_roaming_self ext rext sip_domain st.1 body).2) h2]
    simp only [List.filter_append, h1, List.append_nil]

/-- C15: seeding of the access levels, end to end. When the access levels of the session were
never set, no container of the store holds a `sameEnterprise` or a `federated` member, and
the snapshot has a containers section none of whose containers holds one either,
`sipe_ocs2007_process_roaming_self` sends exactly one `setContainerMembers` request, which
adds `sameEnterprise` to container 200 and `federated` to container 100 (each with the
version of that container in the store, 0 without one), and sets `access_level_set`; no run
of further snapshots sends a `setContainerMembers` request. -/
theorem roaming_self_seeds_access_levels_once (ext : Externals) (rext : RoamingExternals)
    (sip_domain : Option String) (sip : sipe_account_data) (xml : roaming_self_xml)
    (cs : List xml_container)
    (hset : sip.access_level_set = false)
    (hcs : xml.containers = some cs)
    (hstore : ∀ c ∈ sip.containers,
      container_holds (some "sameEnterprise") none c = false ∧
        container_holds (some "federated") none c = false)
    (hsnap : ∀ node ∈ cs,
      container_holds (some "sameEnterprise") none (container_of_xml node) = false ∧
        container_holds (some "federated") none (container_of_xml node) = false) :
    (sipe_ocs2007_process_roaming_self ext rext sip_domain sip (some xml)).2.filter
        is_set_container_members
      = [Effect.set_container_members
          [ { container_id := 200,
              container_version := container_version_or_zero
                (sipe_ocs2007_process_roaming_self ext rext sip_domain sip (some xml)).1.containers
                200,
              action := "add", type := some "sameEnterprise", value := none },
            { container_id := 100,
              container_version := container_version_or_zero
                (sipe_ocs2007_process_roaming_self ext rext sip_domain sip (some xml)).1.containers
                100,
              action := "add", type := some "federated", value := none } ]] ∧
    (sipe_ocs2007_process_roaming_self ext rext sip_domain sip (some xml)).1.access_level_set
      = true ∧
    ∀ (bodies : List (Option roaming_self_xml)),
      (process_roaming_self_run ext rext sip_domain bodies
        ((sipe_ocs2007_process_roaming_self ext rext sip_domain sip (some xml)).1, [])).2.filter
          is_set_container_members = [] := by
  obtain ⟨h1, h2, h3⟩ := process_roaming_self_acl ext rext sip_domain sip xml
  have hflag : (sipe_ocs2007_process_roaming_self ext rext sip_domain sip
      (some xml)).1.access_level_set = true := by
    rw [h2, hset, hcs]; rfl
  refine ⟨?_, hflag, ?_⟩
  · rw [h1, h3, hset, hcs]
    have hall : ∀ c ∈ process_containers cs sip.containers,
        container_holds (some "sameEnterprise") none c = false ∧
          container_holds (some "federated") none c = false := by
      intro c hc
      rcases process_containers_mem cs sip.containers c hc with h | ⟨n, hn, e⟩
      · exact hstore c h
      · rw [e]; exact hsnap n hn
    have hs := find_access_level_absent sip_domain (process_containers cs sip.containers)
      "sameEnterprise" (by decide) (fun c hc => (hall c hc).1)
    have hf := find_access_level_absent sip_domain (process_containers cs sip.containers)
      "federated" (by decide) (fun c hc => (hall c hc).2)
    simp only [Bool.not_false, Option.isSome_some, Bool.and_self, if_true, Option.getD_some,
      initial_access_levels, hs, hf, set_container_members_request, container_version_or_zero]
    rfl
  · intro bodies
    exact process_roaming_self_run_settled ext rext sip_domain bodies _ hflag

/-- Witness of `roaming_self_seeds_access_levels_once`: a fresh session reads a snapshot
whose container 200, at version 7, lists one user; a second snapshot of the same kind
follows. -/
theorem roaming_self_seeds_access_levels_once_witness :
    (sipe_ocs2007_process_roaming_self sample_externals sample_roaming_externals
        (some "example.org") fresh_session
        (some { categories := [],
                containers := some [ { id := some "200", version := some "7",
                                       members := [⟨some "user", some "a@example.org"⟩] } ],
                subscribers := [] })).2.filter is_set_container_members
      = [Effect.set_container_members
          [ { container_id := 200, container_version := 7, action := "add",
              type := some "sameEnterprise", value := none },
            { container_id := 100, container_version := 0, action := "add",
              type := some "federated", value := none } ]] ∧
    (process_roaming_self_run sample_externals sample_roaming_externals (some "example.org")
        [some { categories := [],
                containers := some [ { id := some "100", version := some "2", members := [] } ],
                subscribers := [] }, none]
        ((sipe_ocs2007_process_roaming_self sample_externals sample_roaming_externals
          (some "example.org") fresh_session
          (some { categories := [],
                  containers := some [ { id := some "200", version := some "7",
                                         members := [⟨some "user", some "a@example.org"⟩] } ],
                  subscribers := [] })).1, [])).2.filter is_set_container_members = [] :=
  have h := roaming_self_seeds_access_levels_once sample_externals sample_roaming_externals
    (some "example.org") fresh_session
    { categories := [],
      containers := some [ { id := some "200", version := some "7",
                             members := [⟨some "user", some "a@example.org"⟩] } ],
      subscribers := [] }
    [ { id := some "200", version := some "7",
        members := [⟨some "user", some "a@example.org"⟩] } ]
    rfl rfl (by decide) (by decide)
  ⟨h.1, h.2.2 _⟩

/-- C17: rebuilding of the container store. After `sipe_ocs2007_process_roaming_self` on a
snapshot with a containers section, read into a store whose container ids are distinct, the
ids of the store are distinct again and, for every container element of the section that is
the last one with its id, the store holds exactly one container with that id: the one read
from the element, with its version and its members in document order. -/
theorem roaming_self_rebuilds_containers (ext : Externals) (rext : RoamingExternals)
    (sip_domain : Option String) (sip : sipe_account_data) (xml : roaming_self_xml)
    (cs : List xml_container)
    (hcs : xml.containers = some cs)
    (hids : (sip.containers.map (fun c => c.id)).Nodup) :
    ((sipe_ocs2007_process_roaming_self ext rext sip_domain sip (some xml)).1.containers.map
        (fun c => c.id)).Nodup ∧
    ∀ (i : Nat) (node : xml_container), cs[i]? = some node →
      (∀ (j : Nat) (other : xml_container), i < j → cs[j]? = some other →
        (container_of_xml other).id ≠ (container_of_xml node).id) →
      (sipe_ocs2007_process_roaming_self ext rext sip_domain sip (some xml)).1.containers.filter
          (fun c => decide (c.id = (container_of_xml node).id))
        = [container_of_xml node] := by
  rw [(process_roaming_self_acl ext rext sip_domain sip xml).2.2, hcs]
  exact process_containers_rebuilds cs sip.containers hids

/-- Witness of `roaming_self_rebuilds_containers`: container 200 of the store, at version 1
with one member, is replaced by the container 200 of the snapshot, at version 7 with another
member. -/
theorem roaming_self_rebuilds_containers_witness :
    (sipe_ocs2007_process_roaming_self sample_externals sample_roaming_externals
        (some "example.org")
        { fresh_session with
          containers := [ { id := 200, version := 1,
                            members := [⟨some "user", some "old@example.org"⟩] } ] }
        (some { categories := [],
                containers := some [ { id := some "200", version := some "7",
                                       members := [⟨some "user", some "new@example.org"⟩] } ],
                subscribers := [] })).1.containers.filter
          (fun c => decide (c.id = 200))
      = [ { id := 200, version := 7, members := [⟨some "user", some "new@example.org"⟩] } ] :=
  (roaming_self_rebuilds_containers sample_externals sample_roaming_externals
    (some "example.org")
    { fresh_session with
      containers := [ { id := 200, version := 1,
                        members := [⟨some "user", some "old@example.org"⟩] } ] }
    { categories := [],
      containers := some [ { id := some "200", version := some "7",
                             members := [⟨some "user", some "new@example.org"⟩] } ],
      subscribers := [] }
    [ { id := some "200", version := some "7",
        members := [⟨some "user", some "new@example.org"⟩] } ]
    rfl (by decide)).2 0
    { id := some "200", version := some "7",
      members := [⟨some "user", some "new@example.org"⟩] }
    rfl
    (by
      intro j other hij hj
      cases j with
      | zero => exact absurd hij (by decide)
      | succ j => simp at hj)

theorem lookup_remove_self {β : Type} (k : String) :
    ∀ (t : GHashTable β), g_hash_table_lookup (g_hash_table_remove t k) k = none := by
  intro t
  induction t with
  | nil => rfl
  | cons hd tl ih =>
    obtain ⟨k1, v1⟩ := hd
    by_cases h : k1 = k
    · simp only [g_hash_table_remove, h, if_true, ih]
    · simp only [g_hash_table_remove, h, if_false, g_hash_table_lookup, ih]

theorem lookup_remove_ne {β : Type} (k k2 : String) (hne : k ≠ k2) :
    ∀ (t : GHashTable β),
      g_hash_table_lookup (g_hash_table_remove t k) k2 = g_hash_table_lookup t k2 := by
  intro t
  induction t with
  | nil => rfl
  | cons hd tl ih =>
    obtain ⟨k1, v1⟩ := hd
    by_cases h : k1 = k
    · have h2 : ¬ k1 = k2 := fun e => hne (h.symm.trans e)
      simp only [g_hash_table_remove, h, if_true, ih, g_hash_table_lookup]
      rw [h] at h2
      simp only [h2, if_false]
    · simp only [g_hash_table_remove, h, if_false, g_hash_table_lookup, ih]

theorem mem_insert {β : Type} (k : String) (v : β) :
    ∀ (t : GHashTable β), ∀ kv ∈ g_hash_table_insert t k v, kv ∈ t ∨ kv = (k, v) := by
  intro t
  induction t with
  | nil => intro kv h; simp only [g_hash_table_insert, List.mem_singleton] at h; exact Or.inr h
  | cons hd tl ih =>
    intro kv h
    obtain ⟨k1, v1⟩ := hd
    by_cases hk : k1 = k
    · simp only [g_hash_table_insert, hk, if_true, List.mem_cons] at h
      rcases h with h | h
      · exact Or.inr h
      · exact Or.inl (List.mem_cons_of_mem _ h)
    · simp only [g_hash_table_insert, hk, if_false, List.mem_cons] at h
      rcases h with h | h
      · exact Or.inl (by rw [h]; exact List.mem_cons_self _ _)
      · rcases ih kv h with h2 | h2
        · exact Or.inl (List.mem_cons_of_mem _ h2)
        · exact Or.inr h2

theorem strcmp_eq (a b : String) : strcmp a b = Ordering.eq ↔ a = b := by
  unfold strcmp
  exact compare_eq_iff_eq

theorem mem_insert_sorted {α : Type} (func : α → α → Ordering) (data x : α) :
    ∀ (l : List α), x ∈ g_slist_insert_sorted func data l ↔ x = data ∨ x ∈ l := by
  intro l
  induction l with
  | nil => simp [g_slist_insert_sorted]
  | cons y rest ih =>
    unfold g_slist_insert_sorted
    split
    · simp only [List.mem_cons, ih]
      tauto
    · simp only [List.mem_cons]

theorem mem_insert_unique_sorted (l : List String) (data x : String) :
    x ∈ slist_insert_unique_sorted strcmp l data ↔ x ∈ l ∨ x = data := by
  unfold slist_insert_unique_sorted
  split
  · rename_i h
    rw [List.any_eq_true] at h
    obtain ⟨y, hy, e⟩ := h
    simp only [decide_eq_true_eq] at e
    have e2 := (strcmp_eq y data).mp e
    constructor
    · exact fun hx => Or.inl hx
    · rintro (hx | hx)
      · exact hx
      · rw [hx, ← e2]; exact hy
  · rw [mem_insert_sorted]
    tauto

/-- The names collected are those of the list so far and those of the category elements. -/
theorem mem_collect_category_names (x : String) :
    ∀ (nodes : List xml_category) (names : List String),
      x ∈ collect_category_names nodes names ↔ x ∈ names ∨ ∃ node ∈ nodes, node.name = x := by
  intro nodes
  induction nodes with
  | nil => intro names; simp [collect_category_names]
  | cons node rest ih =>
    intro names
    simp only [collect_category_names, ih, mem_insert_unique_sorted, List.mem_cons,
      exists_eq_or_imp]
    constructor
    · rintro ((h | h) | h)
      · exact Or.inl h
      · exact Or.inr (Or.inl h.symm)
      · exact Or.inr (Or.inr h)
    · rintro (h | h | h)
      · exact Or.inl (Or.inl h)
      · exact Or.inl (Or.inr h.symm)
      · exact Or.inr h

theorem drop_categories_keeps_none (c : String) :
    ∀ (names : List String) (cache : PublicationCache),
      g_hash_table_lookup cache c = none →
      g_hash_table_lookup (drop_categories cache names) c = none := by
  intro names
  induction names with
  | nil => intro cache h; exact h
  | cons n rest ih =>
    intro cache h
    unfold drop_categories
    cases hl : g_hash_table_lookup cache n with
    | none => exact ih cache h
    | some t =>
      apply ih
      by_cases e : n = c
      · rw [e]; exact lookup_remove_self c cache
      · rw [lookup_remove_ne n c e]; exact h

/-- A category named in the list has no sub-table after the drop. -/
theorem drop_categories_dropped (c : String) :
    ∀ (names : List String) (cache : PublicationCache), c ∈ names →
      g_hash_table_lookup (drop_categories cache names) c = none := by
  intro names
  induction names with
  | nil => intro cache h; simp at h
  | cons n rest ih =>
    intro cache h
    unfold drop_categories
    by_cases e : n = c
    · cases hl : g_hash_table_lookup cache n with
      | none => exact drop_categories_keeps_none c rest cache (by rw [← e]; exact hl)
      | some t =>
        exact drop_categories_keeps_none c rest _ (by rw [e]; exact lookup_remove_self c cache)
    · have hc : c ∈ rest := by
        rcases List.mem_cons.mp h with h | h
        · exact absurd h.symm e
        · exact h
      cases hl : g_hash_table_lookup cache n with
      | none => exact ih cache hc
      | some t => exact ih _ hc

/-- A category not named in the list keeps its sub-table. -/
theorem drop_categories_other (c : String) :
    ∀ (names : List String) (cache : PublicationCache), c ∉ names →
      g_hash_table_lookup (drop_categories cache names) c = g_hash_table_lookup cache c := by
  intro names
  induction names with
  | nil => intro cache _; rfl
  | cons n rest ih =>
    intro cache h
    simp only [List.mem_cons, not_or] at h
    unfold drop_categories
    cases hl : g_hash_table_lookup cache n with
    | none => exact ih cache h.2
    | some t =>
      simp only []
      rw [ih _ h.2, lookup_remove_ne n c (fun e => h.1 e.symm)]

/-- A category element leaves the sub-tables of the other categories alone. -/
theorem process_category_other (ext : Externals) (rext : RoamingExternals)
    (node : xml_category) (sip : sipe_account_data) (loc : roaming_locals) (c : String)
    (hne : node.name ≠ c) :
    g_hash_table_lookup (process_category ext rext node sip loc).1.our_publications c
      = g_hash_table_lookup sip.our_publications c := by
  rw [process_category_cache]
  split
  · rfl
  · split
    · unfold sipe_remove_category_container_publications
      cases g_hash_table_lookup sip.our_publications node.name with
      | none => rfl
      | some t => exact lookup_insert_ne _ _ _ _ hne
    · split
      · exact lookup_insert_ne _ _ _ _ hne
      · rfl

theorem process_categories_other (ext : Externals) (rext : RoamingExternals) (c : String) :
    ∀ (nodes : List xml_category) (st : sipe_account_data × roaming_locals),
      (∀ node ∈ nodes, node.name ≠ c) →
      g_hash_table_lookup (process_categories ext rext nodes st).1.our_publications c
        = g_hash_table_lookup st.1.our_publications c := by
  intro nodes
  induction nodes with
  | nil => intro st _; rfl
  | cons node rest ih =>
    intro st h
    simp only [process_categories]
    rw [ih _ (fun n hn => h n (by simp [hn])),
      process_category_other ext rext node st.1 st.2 c (h node (by simp))]

/-- A property of the entries of one category that holds for the entry read from each
category element is kept by the element. -/
theorem process_category_entries (ext : Externals) (rext : RoamingExternals)
    (c : String) (Q : String × sipe_publication → Prop)
    (node : xml_category) (sip : sipe_account_data) (loc : roaming_locals)
    (hnode : node.name = c → category_container node ≠ GUINT_NONE →
      category_instance node ≠ GUINT_NONE →
      sipe_is_our_publication ext
        (publication_key node.name (category_instance node) (category_container node)) = true →
      Q (publication_key node.name (category_instance node) (category_container node),
         publication_of_category ext rext node))
    (hinv : ∀ t, g_hash_table_lookup sip.our_publications c = some t → ∀ kv ∈ t, Q kv) :
    ∀ t, g_hash_table_lookup (process_category ext rext node sip loc).1.our_publications c
        = some t → ∀ kv ∈ t, Q kv := by
  intro t ht
  by_cases hn : node.name = c
  · rw [process_category_cache] at ht
    split at ht
    · exact hinv t ht
    · split at ht
      · unfold sipe_remove_category_container_publications at ht
        cases hl : g_hash_table_lookup sip.our_publications node.name with
        | none => rw [hl] at ht; exact hinv t ht
        | some t0 =>
          rw [hl] at ht
          simp only [] at ht
          rw [hn, lookup_insert_self] at ht
          simp only [Option.some.injEq] at ht
          intro kv hkv
          rw [← ht] at hkv
          exact hinv t0 (by rw [← hn]; exact hl) kv
            (mem_of_mem_remove_container_foreach _ kv t0 hkv)
      · split at ht
        · rename_i h1 h2 h3
          rw [hn, lookup_insert_self] at ht
          simp only [Option.some.injEq] at ht
          intro kv hkv
          rw [← ht] at hkv
          rcases mem_insert _ _ _ kv hkv with h | h
          · cases hl : g_hash_table_lookup sip.our_publications c with
            | none => rw [hl] at h; simp at h
            | some t0 =>
              rw [hl] at h
              exact hinv t0 hl kv h
          · rw [h, ← hn]
            exact hnode hn h1 h2 h3
        · exact hinv t ht
  · rw [process_category_other ext rext node sip loc c hn] at ht
    exact hinv t ht

theorem process_categories_entries (ext : Externals) (rext : RoamingExternals)
    (c : String) (Q : String × sipe_publication → Prop) :
    ∀ (nodes : List xml_category) (st : sipe_account_data × roaming_locals),
      (∀ node ∈ nodes, node.name = c → category_container node ≠ GUINT_NONE →
        category_instance node ≠ GUINT_NONE →
        sipe_is_our_publication ext
          (publication_key node.name (category_instance node) (category_container node)) = true →
        Q (publication_key node.name (category_instance node) (category_container node),
           publication_of_category ext rext node)) →
      (∀ t, g_hash_table_lookup st.1.our_publications c = some t → ∀ kv ∈ t, Q kv) →
      ∀ t, g_hash_table_lookup (process_categories ext rext nodes st).1.our_publications c
          = some t → ∀ kv ∈ t, Q kv := by
  intro nodes
  induction nodes with
  | nil => intro st _ hinv; exact hinv
  | cons node rest ih =>
    intro st hnodes hinv
    simp only [process_categories]
    apply ih _ (fun n hn => hnodes n (by simp [hn]))
    exact process_category_entries ext rext c Q node st.1 st.2 (hnodes node (by simp)) hinv

/-- C16: the cache after `sipe_ocs2007_process_roaming_self`. For a category that the
snapshot names, every entry of its sub-table was read from a category element of this
snapshot with that name, under one of our keys (so an entry cached before is gone unless the
snapshot supplies its key again); for a category that the snapshot does not name, the
sub-table is the one cached before. -/
theorem roaming_self_rebuilds_named_categories (ext : Externals) (rext : RoamingExternals)
    (sip_domain : Option String) (sip : sipe_account_data) (xml : roaming_self_xml) :
    (∀ (c : String) (t : GHashTable sipe_publication),
      (∃ node ∈ xml.categories, node.name = c) →
      g_hash_table_lookup
        (sipe_ocs2007_process_roaming_self ext rext sip_domain sip (some xml)).1.our_publications
        c = some t →
      ∀ kv ∈ t, ∃ node ∈ xml.categories, node.name = c ∧
        category_container node ≠ GUINT_NONE ∧ category_instance node ≠ GUINT_NONE ∧
        sipe_is_our_publication ext kv.1 = true ∧
        kv.1 = publication_key c (category_instance node) (category_container node) ∧
        kv.2 = publication_of_category ext rext node) ∧
    (∀ (c : String), (∀ node ∈ xml.categories, node.name ≠ c) →
      g_hash_table_lookup
        (sipe_ocs2007_process_roaming_self ext rext sip_domain sip (some xml)).1.our_publications
        c = g_hash_table_lookup sip.our_publications c) := by
  rw [process_roaming_self_cache]
  constructor
  · intro c t hc ht
    refine process_categories_entries ext rext c _ xml.categories _ ?_ ?_ t ht
    · intro node hnode hn h1 h2 h3
      refine ⟨node, hnode, hn, h1, h2, ?_, ?_, rfl⟩
      · exact h3
      · simp only [hn]
    · intro t0 ht0
      simp only [] at ht0
      rw [drop_categories_dropped c _ _
        ((mem_collect_category_names c xml.categories []).mpr (Or.inr hc))] at ht0
      cases ht0
  · intro c hc
    rw [process_categories_other ext rext c xml.categories _ hc]
    simp only []
    apply drop_categories_other
    intro hmem
    rcases (mem_collect_category_names c xml.categories []).mp hmem with h | ⟨node, hn, e⟩
    · simp at h
    · exact hc node hn e


/-! ## Direct lookup of an access level and the table of public domains -/

theorem container_holds_eq_any (type : String) (value : Option String) (c : sipe_container) :
    container_holds (some type) value c = c.members.any (member_matches (some type) value) := by
  unfold container_holds sipe_find_container_member
  simp only []
  cases hf : c.members.find? (member_matches (some type) value) with
  | none =>
    symm
    rw [Option.isSome_none, List.any_eq_false]
    intro m hm
    have := List.find?_eq_none.mp hf m hm
    simpa using this
  | some m =>
    symm
    rw [Option.isSome_some, List.any_eq_true]
    exact ⟨m, List.mem_of_find?_eq_some hf, List.find?_some hf⟩

theorem lookup_level_eq_find (store : List sipe_container) (type : String)
    (value : Option String) :
    lookup_level store type value
      = containers.find? (fun id => level_holds store (some type) value id) := by
  unfold lookup_level
  congr 1
  funext id
  unfold level_holds
  cases sipe_find_container store id with
  | none => rfl
  | some c => exact (container_holds_eq_any type value c).symm

/-- C21 (as amended): for a member type other than `user`,
`sipe_ocs2007_find_access_level` looks the pair up directly, whatever the SIP domain of the
account: it returns the first of the levels 32000, 400, 300, 200, 100 whose container (the
first of the store with that id) holds a member of that type and value, compared ignoring
ASCII case, and `-1` exactly when the container of none of the five levels holds one. -/
theorem find_access_level_other_direct (sip_domain : Option String)
    (store : List sipe_container) (type : String) (value : Option String)
    (h : type ≠ "user") :
    sipe_ocs2007_find_access_level sip_domain store (some type) value
      = (match containers.find? (fun id => level_holds store (some type) value id) with
         | some id => (id : Int)
         | none => -1) ∧
    (sipe_ocs2007_find_access_level sip_domain store (some type) value = -1 ↔
      ∀ id ∈ containers, level_holds store (some type) value id = false) ∧
    (∀ id : Nat, sipe_ocs2007_find_access_level sip_domain store (some type) value = (id : Int) →
      id ∈ containers ∧ level_holds store (some type) value id = true) := by
  have h2 : ¬ ("user" = type) := fun e => h e.symm
  have hval : sipe_ocs2007_find_access_level sip_domain store (some type) value
      = (match containers.find? (fun id => level_holds store (some type) value id) with
         | some id => (id : Int)
         | none => -1) := by
    unfold sipe_ocs2007_find_access_level find_access_level_group
    simp only [sipe_strequal, Option.some.injEq, h2, decide_False, Bool.false_eq_true, if_false]
    rw [find_member_access_level_other store type value h, first_success_singleton,
      lookup_level_eq_find]
  refine ⟨hval, ?_, ?_⟩
  · rw [hval]
    cases hf : containers.find? (fun id => level_holds store (some type) value id) with
    | none =>
      simp only [true_iff]
      intro id hid
      have := List.find?_eq_none.mp hf id hid
      simpa using this
    | some id =>
      simp only []
      constructor
      · intro e
        have h0 : (0 : Int) ≤ (id : Int) := Int.ofNat_nonneg id
        rw [e] at h0
        exact absurd h0 (by decide)
      · intro hall
        have h1 := List.find?_some hf
        have h3 := hall id (List.mem_of_find?_eq_some hf)
        rw [h3] at h1
        exact absurd h1 (by simp)
  · intro id hid
    rw [hval] at hid
    cases hf : containers.find? (fun id => level_holds store (some type) value id) with
    | none =>
      rw [hf] at hid
      simp only [] at hid
      have h0 : (0 : Int) ≤ (id : Int) := Int.ofNat_nonneg id
      rw [← hid] at h0
      exact absurd h0 (by decide)
    | some j =>
      rw [hf] at hid
      simp only [Nat.cast_inj] at hid
      subst hid
      exact ⟨List.mem_of_find?_eq_some hf, List.find?_some hf⟩

/-- Witness of `find_access_level_other_direct`: a domain listed in the Team container. -/
theorem find_access_level_other_direct_witness :
    sipe_ocs2007_find_access_level (some "example.org")
        [⟨300, 2, [⟨some "domain", some "Partner.example"⟩]⟩]
        (some "domain") (some "partner.example")
      = (match containers.find? (fun id =>
            level_holds [⟨300, 2, [⟨some "domain", some "Partner.example"⟩]⟩]
              (some "domain") (some "partner.example") id) with
         | some id => (id : Int)
         | none => -1) :=
  (find_access_level_other_direct (some "example.org")
    [⟨300, 2, [⟨some "domain", some "Partner.example"⟩]⟩]
    "domain" (some "partner.example") (by decide)).1

/-- C21 (counterexample): container 2, which is none of the five levels, holds the domain
member, and the lookup still returns `-1`. -/
theorem find_access_level_skips_other_containers :
    ([⟨2, 1, [⟨some "domain", some "example.com"⟩]⟩] : List sipe_container).any
        (container_holds (some "domain") (some "example.com")) = true ∧
    sipe_ocs2007_find_access_level (some "example.org")
        [⟨2, 1, [⟨some "domain", some "example.com"⟩]⟩]
        (some "domain") (some "example.com") = -1 := by
  decide

/-- C24: `sipe_is_public_domain` is true exactly for a domain that equals, ignoring ASCII
case, one whole entry of the table `public_domains`; a missing domain, a sub-domain and a
super-domain of an entry are not public. -/
theorem is_public_domain_iff (domain : Option String) :
    (sipe_is_public_domain domain = true ↔
      ∃ d, domain = some d ∧ ∃ e ∈ public_domains, ascii_lower e = ascii_lower d) ∧
    sipe_is_public_domain none = false ∧
    sipe_is_public_domain (some "mail.yahoo.com") = false ∧
    sipe_is_public_domain (some "yahoo.com.example.org") = false ∧
    sipe_is_public_domain (some "ahoo.com") = false ∧
    sipe_is_public_domain (some "Yahoo.COM") = true := by
  refine ⟨?_, by decide, by decide, by decide, by decide, by decide⟩
  unfold sipe_is_public_domain
  rw [List.any_eq_true]
  constructor
  · rintro ⟨e, he, hm⟩
    cases domain with
    | none => simp [sipe_strcase_equal] at hm
    | some d =>
      simp only [sipe_strcase_equal, decide_eq_true_eq] at hm
      exact ⟨d, rfl, e, he, hm⟩
  · rintro ⟨d, hd, e, he, hm⟩
    subst hd
    exact ⟨e, he, by simp [sipe_strcase_equal, hm]⟩


/-! ## The request of a change of access level -/

theorem container_version_remove_ne (type value : Option String) (id j : Nat) (h : j ≠ id)
    (store : List sipe_container) :
    container_version_or_zero (remove_container_member type value id store) j
      = container_version_or_zero store j := by
  unfold container_version_or_zero
  rw [find_container_remove_ne type value id j h]

/-- The elements prepared by the find/delete loop: one `remove` element for each scanned
level, in order, whose container holds the member and which is not the requested level. -/
theorem change_access_level_loop_elements (container_id : Int) (type value : Option String) :
    ∀ (ids : List Nat), ids.Nodup →
      ∀ (store : List sipe_container) (xmls : List container_xml),
        (change_access_level_loop container_id type value ids (store, xmls)).2
          = xmls ++ (ids.filter (fun id =>
              level_holds store type value id &&
                decide (container_id < 0 ∨ container_id ≠ (id : Int)))).map
                  (remove_element store type value) := by
  intro ids
  induction ids with
  | nil => intro _ store xmls; simp [change_access_level_loop]
  | cons id rest ih =>
    intro hn store xmls
    have hnr : rest.Nodup := (List.nodup_cons.mp hn).2
    have hid : id ∉ rest := (List.nodup_cons.mp hn).1
    simp only [change_access_level_loop]
    cases hc : sipe_find_container store id with
    | none =>
      simp only []
      rw [ih hnr store xmls]
      simp [List.filter_cons, level_holds, hc]
    | some c =>
      simp only []
      cases hm : sipe_find_container_member c type value with
      | none =>
        simp only []
        rw [ih hnr store xmls]
        simp [List.filter_cons, level_holds, hc, container_holds, hm]
      | some m =>
        simp only []
        by_cases hcond : container_id < 0 ∨ container_id ≠ (id : Int)
        · simp only [hcond, if_true]
          rw [ih hnr]
          have hfilter : rest.filter (fun j =>
                level_holds (remove_container_member type value id store) type value j &&
                  decide (container_id < 0 ∨ container_id ≠ (j : Int)))
              = rest.filter (fun j =>
                level_holds store type value j &&
                  decide (container_id < 0 ∨ container_id ≠ (j : Int))) := by
            apply List.filter_congr
            intro j hj
            have hne : j ≠ id := fun e => hid (e ▸ hj)
            rw [level_holds_remove_ne type value id j hne]
          have hmap : ∀ (l : List Nat), (∀ j ∈ l, j ∈ rest) →
              l.map (remove_element (remove_container_member type value id store) type value)
                = l.map (remove_element store type value) := by
            intro l hl
            apply List.map_congr_left
            intro j hj
            have hne : j ≠ id := fun e => hid (e ▸ hl j hj)
            unfold remove_element
            rw [container_version_remove_ne type value id j hne]
          rw [hfilter, hmap _ (fun j hj => (List.mem_filter.mp hj).1)]
          have hhold : level_holds store type value id = true := by
            simp [level_holds, hc, container_holds, hm]
          have hx : remove_element store type value id
              = { container_id := id, container_version := c.version,
                  action := "remove", type := type, value := value } := by
            simp [remove_element, container_version_or_zero, hc]
          simp [List.filter_cons, hhold, hcond, hx]
        · simp only [hcond, if_false]
          rw [ih hnr store xmls]
          simp [List.filter_cons, hcond]

theorem containers_nodup : containers.Nodup := by decide

theorem change_access_level_add_shape (sip_domain : Option String)
    (store : List sipe_container) (container_id : Int) (type value : Option String) :
    (change_access_level_add sip_domain store container_id type value).length ≤ 1 ∧
    ∀ x ∈ change_access_level_add sip_domain store container_id type value,
      x.action = "add" ∧ x.container_id = to_guint container_id := by
  unfold change_access_level_add
  simp only []
  split
  · refine ⟨by simp, ?_⟩
    intro x hx
    simp only [List.mem_singleton] at hx
    subst hx
    exact ⟨rfl, rfl⟩
  · exact ⟨by simp, by simp⟩

/-- C22 (as amended): a call of `sipe_ocs2007_change_access_level` sends at most one
`setContainerMembers` request; it holds one `remove` element for each level of the table,
in its order, whose container holds the member and which is not the requested level,
followed by at most one `add` element for the requested level, and none is sent when nothing
is prepared. No request is sent when `sipe_ocs2007_find_access_level` already equals the
requested container and the container of no other level holds the member. -/
theorem change_access_level_one_request (sip_domain : Option String)
    (store : List sipe_container) (container_id : Int) (type value : Option String) :
    (sipe_ocs2007_change_access_level sip_domain store container_id type value).2
      = set_container_members_request
          ((removed_levels container_id store type value).map (remove_element store type value)
            ++ change_access_level_add sip_domain
                (sipe_ocs2007_change_access_level sip_domain store container_id type value).1
                container_id type value) ∧
    (change_access_level_add sip_domain
        (sipe_ocs2007_change_access_level sip_domain store container_id type value).1
        container_id type value).length ≤ 1 ∧
    (∀ x ∈ change_access_level_add sip_domain
        (sipe_ocs2007_change_access_level sip_domain store container_id type value).1
        container_id type value, x.action = "add" ∧ x.container_id = to_guint container_id) ∧
    (sipe_ocs2007_find_access_level sip_domain store type value = container_id →
      (∀ id ∈ containers, (id : Int) ≠ container_id →
        level_holds store type value id = false) →
      sipe_ocs2007_change_access_level sip_domain store container_id type value
        = (store, none)) := by
  have hel := change_access_level_loop_elements container_id type value containers
    containers_nodup store []
  refine ⟨?_, (change_access_level_add_shape _ _ _ _ _).1,
    (change_access_level_add_shape _ _ _ _ _).2, ?_⟩
  · simp only [sipe_ocs2007_change_access_level, hel, List.nil_append, removed_levels]
  · intro hfind hother
    have hidle := change_access_level_loop_idle container_id type value containers (store, [])
      (by
        intro j hj hc
        apply hother j hj
        rcases hc with hc | hc
        · intro e
          have h0 : (0 : Int) ≤ (j : Int) := Int.ofNat_nonneg j
          omega
        · exact fun e => hc e.symm)
    simp only [sipe_ocs2007_change_access_level, hidle, List.nil_append]
    have hadd : change_access_level_add sip_domain store container_id type value = [] := by
      unfold change_access_level_add
      simp only [hfind, ne_eq, not_true_eq_false, false_and, if_false]
    rw [hadd]
    rfl

/-- Witness of `change_access_level_one_request`: the Team level is requested for a domain
that only the Team container holds. -/
theorem change_access_level_one_request_witness :
    sipe_ocs2007_change_access_level (some "example.org")
        [⟨400, 3, []⟩, ⟨300, 7, [⟨some "domain", some "partner.example"⟩]⟩]
        300 (some "domain") (some "partner.example")
      = ([⟨400, 3, []⟩, ⟨300, 7, [⟨some "domain", some "partner.example"⟩]⟩], none) :=
  (change_access_level_one_request (some "example.org")
    [⟨400, 3, []⟩, ⟨300, 7, [⟨some "domain", some "partner.example"⟩]⟩]
    300 (some "domain") (some "partner.example")).2.2.2 (by decide) (by decide)

/-- C22 (counterexample): the Personal and the Company container both hold the domain, so
the access level found is already the requested level 400, and the call still sends a
request, which removes the domain from the Company container. -/
theorem change_access_level_sends_though_resolved :
    sipe_ocs2007_find_access_level (some "example.org")
        [⟨400, 3, [⟨some "domain", some "partner.example"⟩]⟩,
         ⟨200, 5, [⟨some "domain", some "partner.example"⟩]⟩]
        (some "domain") (some "partner.example") = 400 ∧
    (sipe_ocs2007_change_access_level (some "example.org")
        [⟨400, 3, [⟨some "domain", some "partner.example"⟩]⟩,
         ⟨200, 5, [⟨some "domain", some "partner.example"⟩]⟩]
        400 (some "domain") (some "partner.example")).2
      = some [⟨200, 5, "remove", some "domain", some "partner.example"⟩] := by
  decide

theorem remove_container_member_keeps (type value : Option String) (id : Nat)
    (c : sipe_container) (hne : c.id ≠ id) :
    ∀ (store : List sipe_container), c ∈ store →
      c ∈ remove_container_member type value id store := by
  intro store
  induction store with
  | nil => intro h; simp at h
  | cons a rest ih =>
    intro h
    simp only [remove_container_member]
    by_cases ha : id = a.id
    · simp only [ha, if_true, List.mem_cons]
      rcases List.mem_cons.mp h with e | e
      · subst e; exact absurd ha.symm hne
      · exact Or.inr e
    · simp only [ha, if_false, List.mem_cons]
      rcases List.mem_cons.mp h with e | e
      · exact Or.inl e
      · exact Or.inr (ih e)

/-- The find/delete loop keeps the containers whose id it does not scan. -/
theorem change_access_level_loop_keeps (container_id : Int) (type value : Option String)
    (c : sipe_container) :
    ∀ (ids : List Nat) (st : List sipe_container × List container_xml),
      c.id ∉ ids → c ∈ st.1 →
      c ∈ (change_access_level_loop container_id type value ids st).1 := by
  intro ids
  induction ids with
  | nil => intro st _ h; exact h
  | cons id rest ih =>
    intro st hid h
    obtain ⟨store, xmls⟩ := st
    simp only [List.mem_cons, not_or] at hid
    simp only [change_access_level_loop]
    cases hc : sipe_find_container store id with
    | none => exact ih (store, xmls) hid.2 h
    | some c0 =>
      simp only []
      cases hm : sipe_find_container_member c0 type value with
      | none => exact ih (store, xmls) hid.2 h
      | some m =>
        simp only []
        split
        · exact ih _ hid.2 (remove_container_member_keeps type value id c hid.1 store h)
        · exact ih (store, xmls) hid.2 h

/-- C23 (as amended): called with `container_id = -1` on a store in which no container lists
the member more than once, `sipe_ocs2007_change_access_level` removes the member from the
container of every one of the five levels that holds it, so that no level holds it
afterwards; the request holds one `remove` element for each of these levels, in the order of
the table, and no `add` element, and nothing is sent when no level holds the member.
Containers with other ids are not scanned and stay as they are. -/
theorem change_access_level_remove_only (sip_domain : Option String)
    (store : List sipe_container) (type value : Option String)
    (h : ∀ c ∈ store, holds_at_most_once type value c) :
    (sipe_ocs2007_change_access_level sip_domain store (-1) type value).2
      = set_container_members_request
          ((containers.filter (fun id => level_holds store type value id)).map
            (remove_element store type value)) ∧
    (∀ id ∈ containers,
      level_holds (sipe_ocs2007_change_access_level sip_domain store (-1) type value).1
        type value id = false) ∧
    (∀ c ∈ store, c.id ∉ containers →
      c ∈ (sipe_ocs2007_change_access_level sip_domain store (-1) type value).1) := by
  have hel := change_access_level_loop_elements (-1) type value containers
    containers_nodup store []
  have hadd : ∀ s, change_access_level_add sip_domain s (-1) type value = [] := by
    intro s
    unfold change_access_level_add
    simp
  refine ⟨?_, ?_, ?_⟩
  · simp only [sipe_ocs2007_change_access_level, hel, hadd, List.nil_append, List.append_nil]
    congr 2
    apply List.filter_congr
    intro id _
    simp
  · intro id hid
    simp only [sipe_ocs2007_change_access_level]
    exact (change_access_level_loop_clears (-1) type value containers (store, []) h).2 id
      (Or.inl (by decide)) (Or.inl hid)
  · intro c hc hid
    simp only [sipe_ocs2007_change_access_level]
    exact change_access_level_loop_keeps (-1) type value c containers (store, []) hid hc

/-- Witness of `change_access_level_remove_only`: a user held by the Personal and the Company
container is removed from both with one request. -/
theorem change_access_level_remove_only_witness :
    (sipe_ocs2007_change_access_level (some "example.org")
        [⟨200, 5, [⟨some "user", some "bob@example.com"⟩]⟩,
         ⟨400, 3, [⟨some "user", some "bob@example.com"⟩]⟩]
        (-1) (some "user") (some "bob@example.com")).2
      = some [⟨400, 3, "remove", some "user", some "bob@example.com"⟩,
              ⟨200, 5, "remove", some "user", some "bob@example.com"⟩] :=
  (change_access_level_remove_only (some "example.org")
    [⟨200, 5, [⟨some "user", some "bob@example.com"⟩]⟩,
     ⟨400, 3, [⟨some "user", some "bob@example.com"⟩]⟩]
    (some "user") (some "bob@example.com") (by decide)).1.trans (by decide)

/-- C23 (counterexample): container 2, which is none of the five levels, holds the user; the
call with `container_id = -1` sends nothing and container 2 still holds the user. -/
theorem change_access_level_remove_skips_container :
    sipe_ocs2007_change_access_level (some "example.org")
        [⟨2, 1, [⟨some "user", some "bob@example.com"⟩]⟩]
        (-1) (some "user") (some "bob@example.com")
      = ([⟨2, 1, [⟨some "user", some "bob@example.com"⟩]⟩], none) ∧
    container_holds (some "user") (some "bob@example.com")
        ⟨2, 1, [⟨some "user", some "bob@example.com"⟩]⟩ = true := by
  decide


/-! ## The device publication and the calendar data fragments -/

/-- C25: the device builder is unconditional. For every cache
`sipe_publish_get_category_device` returns the one device publication, for container 2 with
the time zone `00:00:00+01:00`, also when the cache holds the very same entry; the document
of `send_publish_category_initial` therefore starts with it, and what follows is the pair of
the machine state builder, or nothing when that builder is suppressed. -/
theorem device_builder_unconditional (ext : Externals) (rext : RoamingExternals)
    (cache : PublicationCache) (status : Option String) :
    (∃ dev, sipe_publish_get_category_device ext cache = [dev] ∧
      dev.categoryName = "device" ∧ dev.container = 2 ∧
      dev.inst = ext.sipe_get_pub_instance PubKey.SIPE_PUB_DEVICE ∧
      dev.version = version_or_zero (lookup_publication cache "device"
        (publication_key "device" (ext.sipe_get_pub_instance PubKey.SIPE_PUB_DEVICE) 2)) ∧
      dev.body = PublicationBody.device ext.uuid ext.self_uri "00:00:00+01:00" ext.host_name ∧
      ∃ rest, (send_publish_category_initial ext rext cache status).2 = dev :: rest ∧
        (sipe_publish_get_category_state_machine ext cache
            (rext.sipe_set_initial_status status) = none → rest = []) ∧
        (∀ pair, sipe_publish_get_category_state_machine ext cache
            (rext.sipe_set_initial_status status) = some pair → rest = pair)) ∧
    (send_publish_category_initial ext rext cache status).1
      = rext.sipe_set_initial_status status := by
  refine ⟨⟨_, rfl, rfl, rfl, rfl, rfl, rfl,
    fragment_or_empty (sipe_publish_get_category_state_machine ext cache
      (rext.sipe_set_initial_status status)), rfl, ?_, ?_⟩, rfl⟩
  · intro h
    rw [h]; rfl
  · intro pair h
    rw [h]; rfl

/-- C30 (as amended): whenever both builders emit, the working hours fragment and the
free/busy fragment list the containers 1, 100, 200, 300, 400 and 32000 in this order; both
leave 100 and 32000 empty and both fill 200, 300 and 400, but container 1 is filled by the
working hours fragment and left empty by the free/busy fragment. -/
theorem calendar_fragments_container_pattern (ext : Externals) (cache : PublicationCache)
    (cal : Option sipe_calendar) (wh fb : List publication_xml)
    (hwh : sipe_publish_get_category_cal_working_hours cache cal = some wh)
    (hfb : sipe_publish_get_category_cal_free_busy ext cache cal = some fb) :
    wh.map (fun e => e.container) = [1, 100, 200, 300, 400, 32000] ∧
    fb.map (fun e => e.container) = [1, 100, 200, 300, 400, 32000] ∧
    wh.map is_calendar_data_empty = [false, true, false, false, false, true] ∧
    fb.map is_calendar_data_empty = [true, true, false, false, false, true] := by
  cases cal with
  | none => simp [sipe_publish_get_category_cal_working_hours] at hwh
  | some c =>
    unfold sipe_publish_get_category_cal_working_hours at hwh
    unfold sipe_publish_get_category_cal_free_busy at hfb
    simp only [] at hwh hfb
    split at hwh
    · cases hwh
    · split at hwh
      · cases hwh
      · split at hfb
        · cases hfb
        · simp only [Option.some.injEq] at hwh hfb
          subst hwh
          subst hfb
          simp [working_hours_publication, free_busy_publication, is_calendar_data_empty]

/-- Witness of `calendar_fragments_container_pattern`: a calendar with working hours and
free/busy data and an empty cache. -/
theorem calendar_fragments_container_pattern_witness :
    ∃ wh fb,
      sipe_publish_get_category_cal_working_hours []
        (some ⟨some "me@example.com", some "<WorkingHours/>", 1000, some "AAAA", none, 0, 0⟩)
        = some wh ∧
      sipe_publish_get_category_cal_free_busy sample_externals []
        (some ⟨some "me@example.com", some "<WorkingHours/>", 1000, some "AAAA", none, 0, 0⟩)
        = some fb ∧
      wh.map (fun e => e.container) = [1, 100, 200, 300, 400, 32000] ∧
      fb.map (fun e => e.container) = [1, 100, 200, 300, 400, 32000] ∧
      wh.map is_calendar_data_empty = [false, true, false, false, false, true] ∧
      fb.map is_calendar_data_empty = [true, true, false, false, false, true] :=
  ⟨_, _, rfl, rfl,
    calendar_fragments_container_pattern sample_externals []
      (some ⟨some "me@example.com", some "<WorkingHours/>", 1000, some "AAAA", none, 0, 0⟩)
      _ _ rfl rfl⟩

/-- C30 (counterexample): both builders emit, and the containers left empty differ: the
working hours fragment leaves 100 and 32000 empty, the free/busy fragment 1, 100 and
32000. -/
theorem calendar_fragments_differ_at_container_1 :
    (((sipe_publish_get_category_cal_working_hours []
        (some ⟨some "me@example.com", some "<WorkingHours/>", 1000, some "AAAA", none, 0, 0⟩)).getD
          []).filter is_calendar_data_empty).map (fun e => e.container) = [100, 32000] ∧
    (((sipe_publish_get_category_cal_free_busy sample_externals []
        (some ⟨some "me@example.com", some "<WorkingHours/>", 1000, some "AAAA", none, 0, 0⟩)).getD
          []).filter is_calendar_data_empty).map (fun e => e.container) = [1, 100, 32000] := by
  decide


/-! ## Ingestion: clients, user state publications and the initial publish -/

theorem ingest_note_frame (ext : Externals) (node : xml_category) (publish_time : Int)
    (sip : sipe_account_data) (loc : roaming_locals) :
    (ingest_note ext node publish_time sip loc).1.user_state_publications
        = sip.user_state_publications ∧
      (ingest_note ext node publish_time sip loc).1.initial_state_published
        = sip.initial_state_published ∧
      (ingest_note ext node publish_time sip loc).2.devices = loc.devices := by
  unfold ingest_note
  simp only []
  repeat' split
  all_goals exact ⟨rfl, rfl, rfl⟩

theorem ingest_our_publication_frame (ext : Externals) (rext : RoamingExternals)
    (node : xml_category) (key : String) (publish_time : Int)
    (cat_publications : Option (GHashTable sipe_publication))
    (sip : sipe_account_data) (loc : roaming_locals) :
    (ingest_our_publication ext rext node key publish_time cat_publications sip
        loc).1.user_state_publications = sip.user_state_publications ∧
      (ingest_our_publication ext rext node key publish_time cat_publications sip
        loc).1.initial_state_published = sip.initial_state_published ∧
      (ingest_our_publication ext rext node key publish_time cat_publications sip
        loc).2.devices = loc.devices := by
  unfold ingest_our_publication
  split
  · exact ingest_note_frame ext node publish_time sip loc
  · exact ⟨rfl, rfl, rfl⟩

theorem ingest_aggregate_state_devices (node : xml_category) (loc : roaming_locals) :
    (ingest_aggregate_state node loc).devices = loc.devices := by
  unfold ingest_aggregate_state
  repeat' split
  all_goals rfl

theorem ingest_user_properties_frame (node : xml_category) (sip : sipe_account_data)
    (loc : roaming_locals) :
    (ingest_user_properties node sip loc).1.user_state_publications
        = sip.user_state_publications ∧
      (ingest_user_properties node sip loc).1.initial_state_published
        = sip.initial_state_published ∧
      (ingest_user_properties node sip loc).2.devices = loc.devices ∧
      (ingest_user_properties node sip loc).2.effects.filter is_initial_publish_step
        = loc.effects.filter is_initial_publish_step := by
  unfold ingest_user_properties
  repeat' split
  all_goals first
    | exact ⟨rfl, rfl, rfl, rfl⟩
    | exact ⟨rfl, rfl, rfl,
        by simp [List.filter_append, List.filter_cons, is_initial_publish_step]⟩

theorem capture_user_state_frame (node : xml_category) (key : String)
    (sip : sipe_account_data) :
    (capture_user_state node key sip).initial_state_published
      = sip.initial_state_published := by
  unfold capture_user_state
  simp only []
  repeat' split
  all_goals rfl

/-- The table of user state publications after a normal entry. -/
theorem capture_user_state_table (node : xml_category) (sip : sipe_account_data)
    (hn : is_normal_entry node = true) :
    (capture_user_state node (category_key node) sip).user_state_publications
      = if is_user_state_entry node = true then
          some (g_hash_table_insert (sip.user_state_publications.getD []) (category_key node)
            (user_state_record node))
        else sip.user_state_publications := by
  unfold capture_user_state is_user_state_entry
  simp only [hn, Bool.true_and]
  by_cases h1 : (sipe_strequal (some node.name) (some "state") &&
      (decide (category_container node = 2) || decide (category_container node = 3))) = true
  · simp only [h1, Bool.true_and, if_true]
    cases hs : node.state with
    | none => simp
    | some xn_state =>
      simp only []
      by_cases h2 : sipe_strequal xn_state.type (some "userState") = true
      · simp only [h2, if_true]
        rfl
      · simp only [h2, if_false]
        simp
  · simp only [h1, if_false]
    simp only [Bool.not_eq_true] at h1
    simp [h1]

/-- What one category element does to the clients counted, the user state publications, the
flag of the initial publish and the calls of the initial publish sequence. -/
theorem process_category_frame_fields (ext : Externals) (rext : RoamingExternals)
    (node : xml_category) (sip : sipe_account_data) (loc : roaming_locals) :
    (process_category ext rext node sip loc).2.devices
        = (if (is_normal_entry node && sipe_strequal (some node.name) (some "device")) = true
           then g_hash_table_insert loc.devices (toString (category_instance node)) ()
           else loc.devices) ∧
      (process_category ext rext node sip loc).1.user_state_publications
        = (if is_user_state_entry node = true then
             some (g_hash_table_insert (sip.user_state_publications.getD [])
               (category_key node) (user_state_record node))
           else sip.user_state_publications) ∧
      (process_category ext rext node sip loc).1.initial_state_published
        = sip.initial_state_published ∧
      (process_category ext rext node sip loc).2.effects.filter is_initial_publish_step
        = loc.effects.filter is_initial_publish_step := by
  unfold process_category
  simp only []
  by_cases h1 : category_container node = GUINT_NONE
  · simp only [h1, if_true]
    simp [is_normal_entry, is_user_state_entry, h1]
  · simp only [h1, if_false]
    by_cases h2 : category_instance node = GUINT_NONE
    · simp only [h2, if_true]
      have hn : is_normal_entry node = false := by simp [is_normal_entry, h2]
      have hu : is_user_state_entry node = false := by simp [is_user_state_entry, hn]
      simp only [hn, hu, Bool.false_and, Bool.false_eq_true, if_false]
      repeat' split
      all_goals exact ⟨rfl, rfl, rfl, rfl⟩
    · simp only [h2, if_false]
      have hn : is_normal_entry node = true := by simp [is_normal_entry, h1, h2]
      refine ⟨?_, ?_, ?_, ?_⟩
      · rw [(ingest_user_properties_frame _ _ _).2.2.1, ingest_aggregate_state_devices,
          (ingest_our_publication_frame _ _ _ _ _ _ _ _).2.2]
        simp only [hn, Bool.true_and]
        split <;> rfl
      · rw [(ingest_user_properties_frame _ _ _).1,
          (ingest_our_publication_frame _ _ _ _ _ _ _ _).1]
        exact capture_user_state_table node sip hn
      · rw [(ingest_user_properties_frame _ _ _).2.1,
          (ingest_our_publication_frame _ _ _ _ _ _ _ _).2.1]
        exact capture_user_state_frame _ _ _
      · rw [(ingest_user_properties_frame _ _ _).2.2.2, ingest_aggregate_state_effects,
          (ingest_our_publication_acl _ _ _ _ _ _ _ _).2.2]
        split <;> rfl

theorem keys_insert {β : Type} (k : String) (v : β) :
    ∀ (t : GHashTable β),
      (∀ x, x ∈ (g_hash_table_insert t k v).map Prod.fst ↔ x = k ∨ x ∈ t.map Prod.fst) ∧
      ((t.map Prod.fst).Nodup → ((g_hash_table_insert t k v).map Prod.fst).Nodup) := by
  intro t
  induction t with
  | nil => exact ⟨fun x => by simp [g_hash_table_insert], fun _ => by simp [g_hash_table_insert]⟩
  | cons hd tl ih =>
    obtain ⟨k1, v1⟩ := hd
    by_cases hk : k1 = k
    · subst hk
      refine ⟨fun x => ?_, fun hn => ?_⟩
      · simp [g_hash_table_insert]
      · simpa [g_hash_table_insert] using hn
    · refine ⟨fun x => ?_, fun hn => ?_⟩
      · simp only [g_hash_table_insert, hk, if_false, List.map_cons, List.mem_cons, ih.1 x]
        tauto
      · simp only [g_hash_table_insert, hk, if_false, List.map_cons, List.nodup_cons] at hn ⊢
        refine ⟨?_, ih.2 hn.2⟩
        rw [ih.1 k1]
        rintro (e | e)
        · exact hk e
        · exact hn.1 e

/-- The clients counted by the loop over the category elements: the keys of the table are
distinct and are the instances of the normal `device` entries, written as text. -/
theorem process_categories_devices (ext : Externals) (rext : RoamingExternals) :
    ∀ (nodes : List xml_category) (st : sipe_account_data × roaming_locals),
      (st.2.devices.map Prod.fst).Nodup →
      ((process_categories ext rext nodes st).2.devices.map Prod.fst).Nodup ∧
      ∀ x, x ∈ (process_categories ext rext nodes st).2.devices.map Prod.fst ↔
        x ∈ st.2.devices.map Prod.fst ∨ x ∈ (device_instances nodes).map toString := by
  intro nodes
  induction nodes with
  | nil => intro st hn; exact ⟨hn, fun x => by simp [process_categories, device_instances]⟩
  | cons node rest ih =>
    intro st hn
    simp only [process_categories]
    have hd := (process_category_frame_fields ext rext node st.1 st.2).1
    by_cases hdev : (is_normal_entry node && sipe_strequal (some node.name) (some "device")) = true
    · simp only [hdev, if_true] at hd
      have hk := keys_insert (toString (category_instance node)) () st.2.devices
      obtain ⟨h1, h2⟩ := ih (process_category ext rext node st.1 st.2)
        (by rw [hd]; exact hk.2 hn)
      refine ⟨h1, fun x => ?_⟩
      rw [h2 x, hd, hk.1 x]
      simp only [device_instances, List.filterMap_cons, hdev, if_true, List.map_cons,
        List.mem_cons]
      tauto
    · simp only [hdev, if_false] at hd
      obtain ⟨h1, h2⟩ := ih (process_category ext rext node st.1 st.2) (by rw [hd]; exact hn)
      refine ⟨h1, fun x => ?_⟩
      rw [h2 x, hd]
      simp only [device_instances, List.filterMap_cons, hdev, if_false]
      rfl

/-- The number of clients counted is the number of distinct instances of the normal `device`
entries. -/
theorem process_categories_devices_length (ext : Externals) (rext : RoamingExternals)
    (nodes : List xml_category) (st : sipe_account_data × roaming_locals)
    (h0 : st.2.devices = []) :
    (process_categories ext rext nodes st).2.devices.length
      = (device_instances nodes).dedup.length := by
  obtain ⟨h1, h2⟩ := process_categories_devices ext rext nodes st (by rw [h0]; simp)
  have hlen : (process_categories ext rext nodes st).2.devices.length
      = ((process_categories ext rext nodes st).2.devices.map Prod.fst).toFinset.card := by
    rw [List.toFinset_card_of_nodup h1, List.length_map]
  have hset : ((process_categories ext rext nodes st).2.devices.map Prod.fst).toFinset
      = (device_instances nodes).toFinset.image toString := by
    ext x
    simp only [List.mem_toFinset, Finset.mem_image]
    rw [h2 x, h0]
    simp only [List.map_nil, List.not_mem_nil, false_or, List.mem_map]
  rw [hlen, hset, Finset.card_image_of_injective _ (fun a b e => repr_injective a b e),
    List.card_toFinset]

theorem process_categories_flags (ext : Externals) (rext : RoamingExternals) :
    ∀ (nodes : List xml_category) (st : sipe_account_data × roaming_locals),
      (process_categories ext rext nodes st).1.initial_state_published
          = st.1.initial_state_published ∧
        (process_categories ext rext nodes st).2.effects.filter is_initial_publish_step
          = st.2.effects.filter is_initial_publish_step := by
  intro nodes
  induction nodes with
  | nil => intro st; exact ⟨rfl, rfl⟩
  | cons node rest ih =>
    intro st
    simp only [process_categories]
    obtain ⟨a1, a2⟩ := ih (process_category ext rext node st.1 st.2)
    obtain ⟨_, _, b1, b2⟩ := process_category_frame_fields ext rext node st.1 st.2
    exact ⟨a1.trans b1, a2.trans b2⟩

theorem find_append_singleton {α : Type} (p : α → Bool) (l : List α) (a : α) :
    (l ++ [a]).find? p = match l.find? p with
      | some x => some x
      | none => if p a = true then some a else none := by
  rw [List.find?_append]
  cases l.find? p with
  | some x => rfl
  | none =>
    simp only [Option.none_or, List.find?_cons, List.find?_nil]
    cases p a <;> rfl

/-- The table of user state publications after the loop, key by key: the record of the last
user state entry of the snapshot with the key, and what was recorded before when there is no
such entry. -/
theorem process_categories_user_state (ext : Externals) (rext : RoamingExternals) (k : String) :
    ∀ (nodes : List xml_category) (st : sipe_account_data × roaming_locals),
      g_hash_table_lookup ((process_categories ext rext nodes st).1.user_state_publications.getD [])
          k
        = match nodes.reverse.find?
            (fun n => is_user_state_entry n && decide (category_key n = k)) with
          | some n => some (user_state_record n)
          | none => g_hash_table_lookup (st.1.user_state_publications.getD []) k := by
  intro nodes
  induction nodes with
  | nil => intro st; rfl
  | cons node rest ih =>
    intro st
    simp only [process_categories]
    rw [ih, List.reverse_cons, find_append_singleton]
    cases hf : rest.reverse.find?
        (fun n => is_user_state_entry n && decide (category_key n = k)) with
    | some n => rfl
    | none =>
      simp only []
      rw [(process_category_frame_fields ext rext node st.1 st.2).2.1]
      by_cases hu : is_user_state_entry node = true
      · simp only [hu, if_true, Option.getD_some, Bool.true_and, decide_eq_true_eq]
        by_cases hk : category_key node = k
        · simp only [hk, if_true]
          rw [← hk, lookup_insert_self]
        · simp only [hk, if_false]
          rw [lookup_insert_ne _ _ _ _ hk]
      · simp only [hu, if_false, Bool.false_and, Bool.false_eq_true]

theorem process_categories_user_state_keys (ext : Externals) (rext : RoamingExternals) :
    ∀ (nodes : List xml_category) (st : sipe_account_data × roaming_locals),
      ((st.1.user_state_publications.getD []).map Prod.fst).Nodup →
      (((process_categories ext rext nodes st).1.user_state_publications.getD []).map
        Prod.fst).Nodup := by
  intro nodes
  induction nodes with
  | nil => intro st h; exact h
  | cons node rest ih =>
    intro st h
    simp only [process_categories]
    apply ih
    rw [(process_category_frame_fields ext rext node st.1 st.2).2.1]
    split
    · exact (keys_insert _ _ _).2 h
    · exact h

theorem refresh_blocked_status_no_publish (sip_domain : Option String)
    (store : List sipe_container) (buddies : List (String × Bool)) :
    (sipe_refresh_blocked_status sip_domain store buddies).filter is_initial_publish_step
      = [] := by
  rw [List.filter_eq_nil_iff]
  intro a ha
  unfold sipe_refresh_blocked_status at ha
  obtain ⟨b, _, hb⟩ := List.mem_filterMap.mp ha
  simp only [] at hb
  split at hb
  · simp only [Option.some.injEq] at hb
    rw [← hb]
    simp [is_initial_publish_step]
  · cases hb

theorem process_subscribers_no_publish (rext : RoamingExternals) :
    ∀ (nodes : List xml_subscriber),
      (process_subscribers rext nodes).filter is_initial_publish_step = [] := by
  intro nodes
  induction nodes with
  | nil => rfl
  | cons node rest ih =>
    unfold process_subscribers
    cases hu : node.user with
    | none => simpa using ih
    | some user =>
      simp only []
      repeat' split
      all_goals simp [List.filter_cons, List.filter_append, is_initial_publish_step, ih]

theorem filter_publish_status_and_note (b : Bool) (status : Option String) :
    List.filter is_initial_publish_step
        (if b = true then [Effect.status_and_note status] else []) = [] := by
  cases b <;> simp [List.filter_cons, is_initial_publish_step]

theorem filter_publish_request (o : Option (List container_xml)) :
    List.filter is_initial_publish_step
        (match o with
         | some container_xmls => [Effect.set_container_members container_xmls]
         | none => []) = [] := by
  cases o <;> simp [List.filter_cons, is_initial_publish_step]

/-- The multiple-client flag, the user state publications, the flag of the initial publish
and the calls of the initial publish sequence after one ingestion, in terms of the state
left by the loop over the category elements. -/
theorem process_roaming_self_fields (ext : Externals) (rext : RoamingExternals)
    (sip_domain : Option String) (sip : sipe_account_data) (xml : roaming_self_xml) :
    (sipe_ocs2007_process_roaming_self ext rext sip_domain sip (some xml)).1.MPOP
      = decide ((process_categories ext rext xml.categories
          ({ sip with our_publications :=
               drop_categories sip.our_publications (collect_category_names xml.categories []) },
           { devices := [], aggreg_avail := 0, do_update_status := false,
             has_note_cleaned := false, effects := [] })).2.devices.length > 1) ∧
    (sipe_ocs2007_process_roaming_self ext rext sip_domain sip
        (some xml)).1.user_state_publications
      = (process_categories ext rext xml.categories
          ({ sip with our_publications :=
               drop_categories sip.our_publications (collect_category_names xml.categories []) },
           { devices := [], aggreg_avail := 0, do_update_status := false,
             has_note_cleaned := false, effects := [] })).1.user_state_publications ∧
    (sipe_ocs2007_process_roaming_self ext rext sip_domain sip
        (some xml)).1.initial_state_published = true ∧
    (sipe_ocs2007_process_roaming_self ext rext sip_domain sip (some xml)).2.filter
        is_initial_publish_step
      = (if sip.initial_state_published = true then []
         else
           [Effect.presence_publish
              (send_publish_category_initial ext rext
                (sipe_ocs2007_process_roaming_self ext rext sip_domain sip
                  (some xml)).1.our_publications
                (process_categories ext rext xml.categories
          ({ sip with our_publications :=
               drop_categories sip.our_publications (collect_category_names xml.categories []) },
           { devices := [], aggreg_avail := 0, do_update_status := false,
             has_note_cleaned := false, effects := [] })).1.status).2,
            Effect.groupchat_init, Effect.cal_delayed_calendar_update]) := by
  rw [process_roaming_self_cache]
  obtain ⟨a1, a3⟩ := process_categories_flags ext rext xml.categories
    ({ sip with our_publications :=
         drop_categories sip.our_publications (collect_category_names xml.categories []) },
     { devices := [], aggreg_avail := 0, do_update_status := false,
       has_note_cleaned := false, effects := [] })
  simp only [List.filter_nil] at a1 a3
  unfold sipe_ocs2007_process_roaming_self
  simp only []
  generalize process_categories ext rext xml.categories
    ({ sip with our_publications :=
         drop_categories sip.our_publications (collect_category_names xml.categories []) },
     { devices := [], aggreg_avail := 0, do_update_status := false,
       has_note_cleaned := false, effects := [] }) = st at a1 a3 ⊢
  rw [← a1]
  have hq1 := fun store => refresh_blocked_status_no_publish sip_domain store rext.buddies
  have hq2 := process_subscribers_no_publish rext xml.subscribers
  by_cases hc : (!st.1.access_level_set && xml.containers.isSome) = true
  · simp only [hc, if_true]
    by_cases hp : st.1.initial_state_published = true
    · simp only [hp, Bool.not_true, if_false, Bool.false_eq_true, if_true]
      refine ⟨?_, ?_, ?_, ?_⟩
      · repeat' split
        all_goals rfl
      · repeat' split
        all_goals rfl
      · repeat' split
        all_goals rfl
      · simp only [List.filter_append, a3, hq1, hq2, List.nil_append, List.append_nil,
          filter_publish_status_and_note]
        exact filter_publish_request _
    · simp only [Bool.not_eq_true] at hp
      simp only [hp, Bool.not_false, if_true, Bool.false_eq_true, if_false]
      refine ⟨trivial, trivial, trivial, ?_⟩
      simp only [List.filter_append, a3, hq1, hq2, List.nil_append, List.append_nil]
      split <;> simp [List.filter_cons, is_initial_publish_step]
  · simp only [hc, if_false, Bool.false_eq_true]
    have hreq : set_container_members_request [] = none := rfl
    by_cases hp : st.1.initial_state_published = true
    · simp only [hp, Bool.not_true, if_false, Bool.false_eq_true, if_true]
      refine ⟨?_, ?_, ?_, ?_⟩
      · repeat' split
        all_goals rfl
      · repeat' split
        all_goals rfl
      · repeat' split
        all_goals rfl
      · simp only [List.filter_append, a3, hq1, hq2, List.nil_append, List.append_nil,
          filter_publish_status_and_note, hreq, List.filter_nil]
    · simp only [Bool.not_eq_true] at hp
      simp only [hp, Bool.not_false, if_true, Bool.false_eq_true, if_false]
      refine ⟨trivial, trivial, trivial, ?_⟩
      simp only [List.filter_append, a3, hq1, hq2, List.nil_append, List.append_nil, hreq,
        List.filter_nil]
      simp [List.filter_cons, is_initial_publish_step]

theorem process_categories_append (ext : Externals) (rext : RoamingExternals) :
    ∀ (pre : List xml_category) (node : xml_category)
      (st : sipe_account_data × roaming_locals),
      process_categories ext rext (pre ++ [node]) st
        = process_category ext rext node (process_categories ext rext pre st).1
            (process_categories ext rext pre st).2 := by
  intro pre
  induction pre with
  | nil => intro node st; rfl
  | cons hd rest ih =>
    intro node st
    simp only [List.cons_append, process_categories]
    exact ih node _

/-- C26 (as amended): after `sipe_ocs2007_process_roaming_self` on a snapshot, the flag
`MPOP` is set exactly when the normal entries of category `device` (those that name both a
container and an instance) carry more than one distinct instance, whatever the flag was
before. -/
theorem roaming_self_sets_mpop (ext : Externals) (rext : RoamingExternals)
    (sip_domain : Option String) (sip : sipe_account_data) (xml : roaming_self_xml) :
    (sipe_ocs2007_process_roaming_self ext rext sip_domain sip (some xml)).1.MPOP
      = decide (1 < (device_instances xml.categories).dedup.length) := by
  rw [(process_roaming_self_fields ext rext sip_domain sip xml).1,
    process_categories_devices_length ext rext xml.categories _ rfl]

/-- C26 (counterexample): the snapshot holds a `device` entry of container 2 with instance
1 and a `device` entry with instance 2 that names no container. The device entries carry two
distinct instance values, but the second entry is taken for a clear and is skipped before
the instances are counted, so a flag that was set is cleared. -/
theorem roaming_self_mpop_skips_entry_without_container :
    1 < (device_instances_as_stated
          [plain_category "device" (some "2") (some "1") (some "1"),
           plain_category "device" none (some "2") none]).dedup.length ∧
    (sipe_ocs2007_process_roaming_self sample_externals sample_roaming_externals
        (some "example.org") { fresh_session with MPOP := true }
        (some { categories := [plain_category "device" (some "2") (some "1") (some "1"),
                               plain_category "device" none (some "2") none],
                containers := none, subscribers := [] })).1.MPOP = false := by
  decide

theorem capture_user_state_status (node : xml_category) (key : String)
    (sip : sipe_account_data) :
    (capture_user_state node key sip).status = sip.status := by
  unfold capture_user_state
  simp only []
  repeat' split
  all_goals rfl

theorem ingest_note_status (ext : Externals) (node : xml_category) (publish_time : Int)
    (sip : sipe_account_data) (loc : roaming_locals) :
    (ingest_note ext node publish_time sip loc).1.status = sip.status := by
  unfold ingest_note
  simp only []
  repeat' split
  all_goals rfl

theorem ingest_user_properties_status (node : xml_category) (sip : sipe_account_data)
    (loc : roaming_locals) :
    (ingest_user_properties node sip loc).1.status = sip.status := by
  unfold ingest_user_properties
  repeat' split
  all_goals rfl

theorem process_category_status (ext : Externals) (rext : RoamingExternals)
    (node : xml_category) (sip : sipe_account_data) (loc : roaming_locals) :
    (process_category ext rext node sip loc).1.status = sip.status := by
  unfold process_category
  simp only []
  by_cases h1 : category_container node = GUINT_NONE
  · simp only [h1, if_true]
  · simp only [h1, if_false]
    by_cases h2 : category_instance node = GUINT_NONE
    · simp only [h2, if_true]
      split <;> rfl
    · simp only [h2, if_false, ingest_user_properties_status]
      unfold ingest_our_publication
      split
      · simp only [ingest_note_status, capture_user_state_status]
      · exact capture_user_state_status _ _ _

theorem process_categories_status (ext : Externals) (rext : RoamingExternals) :
    ∀ (nodes : List xml_category) (st : sipe_account_data × roaming_locals),
      (process_categories ext rext nodes st).1.status = st.1.status := by
  intro nodes
  induction nodes with
  | nil => intro st; rfl
  | cons node rest ih =>
    intro st
    simp only [process_categories]
    rw [ih, process_category_status]

theorem filter_presence_publish (l : List Effect) :
    l.filter is_presence_publish
      = (l.filter is_initial_publish_step).filter is_presence_publish := by
  rw [List.filter_filter]
  apply List.filter_congr
  intro e _
  cases e <;> rfl

/-- The publish requests of one ingestion: one when the flag of the initial publish was not
set and the body parses, none otherwise; the flag is set after a body that parses. -/
theorem process_roaming_self_publish_count (ext : Externals) (rext : RoamingExternals)
    (sip_domain : Option String) (sip : sipe_account_data) (body : Option roaming_self_xml) :
    ((sipe_ocs2007_process_roaming_self ext rext sip_domain sip body).2.filter
        is_presence_publish).length
      = (if sip.initial_state_published = false ∧ body.isSome = true then 1 else 0) ∧
    (sipe_ocs2007_process_roaming_self ext rext sip_domain sip body).1.initial_state_published
      = (sip.initial_state_published || body.isSome) := by
  cases body with
  | none =>
    refine ⟨?_, ?_⟩
    · simp [sipe_ocs2007_process_roaming_self]
    · simp [sipe_ocs2007_process_roaming_self]
  | some xml =>
    obtain ⟨_, _, h3, h4⟩ := process_roaming_self_fields ext rext sip_domain sip xml
    rw [filter_presence_publish, h4, h3]
    cases hp : sip.initial_state_published
    · simp [List.filter_cons, is_presence_publish]
    · simp

theorem process_roaming_self_run_publish_count (ext : Externals) (rext : RoamingExternals)
    (sip_domain : Option String) :
    ∀ (bodies : List (Option roaming_self_xml)) (st : sipe_account_data × List Effect),
      ((process_roaming_self_run ext rext sip_domain bodies st).2.filter
          is_presence_publish).length
        = (st.2.filter is_presence_publish).length +
          (if st.1.initial_state_published = false ∧ bodies.any Option.isSome = true then 1
           else 0) := by
  intro bodies
  induction bodies with
  | nil => intro st; simp [process_roaming_self_run]
  | cons body rest ih =>
    intro st
    obtain ⟨h1, h2⟩ := process_roaming_self_publish_count ext rext sip_domain st.1 body
    simp only [process_roaming_self_run]
    rw [ih, List.filter_append, List.length_append, h1]
    simp only [h2, List.any_cons]
    cases body <;> cases hp : st.1.initial_state_published <;>
      simp [Nat.add_assoc]

/-- C27: the initial publish of the ingestion. An ingestion that parses its body leaves
`initial_state_published` set; it runs the initial publish sequence (the publish request of
`send_publish_category_initial` for the cache and the status of the session, then
`sipe_groupchat_init` and the delayed calendar update) exactly when the flag was not set
before. A body that does not parse changes nothing. Over any run of ingestions of one
session the number of publish requests is therefore 1 when the flag is not set at the start
and some body parses, and 0 otherwise. -/
theorem roaming_self_initial_publish_once (ext : Externals) (rext : RoamingExternals)
    (sip_domain : Option String) (sip : sipe_account_data) :
    (∀ xml : roaming_self_xml,
      (sipe_ocs2007_process_roaming_self ext rext sip_domain sip
        (some xml)).1.initial_state_published = true ∧
      (sipe_ocs2007_process_roaming_self ext rext sip_domain sip (some xml)).2.filter
          is_initial_publish_step
        = (if sip.initial_state_published = true then []
           else
             [Effect.presence_publish
                (send_publish_category_initial ext rext
                  (sipe_ocs2007_process_roaming_self ext rext sip_domain sip
                    (some xml)).1.our_publications sip.status).2,
              Effect.groupchat_init, Effect.cal_delayed_calendar_update])) ∧
    sipe_ocs2007_process_roaming_self ext rext sip_domain sip none = (sip, []) ∧
    (∀ bodies : List (Option roaming_self_xml),
      ((process_roaming_self_run ext rext sip_domain bodies (sip, [])).2.filter
          is_presence_publish).length
        = (if sip.initial_state_published = false ∧ bodies.any Option.isSome = true then 1
           else 0)) := by
  refine ⟨?_, rfl, ?_⟩
  · intro xml
    obtain ⟨_, _, h3, h4⟩ := process_roaming_self_fields ext rext sip_domain sip xml
    refine ⟨h3, ?_⟩
    rw [h4, process_categories_status]
  · intro bodies
    rw [process_roaming_self_run_publish_count]
    simp

/-- A single-container clear (a category element that names a container and no instance),
met after any earlier elements of the snapshot: the sub-table of its category is traversed
with the removing callback, which takes out the first entry of the container and nothing
else; nothing is inserted, the entries of other containers stay and the sub-tables of the
other categories are left as they are. -/
theorem container_clear_sub_table (ext : Externals) (rext : RoamingExternals)
    (pre : List xml_category) (node : xml_category)
    (st : sipe_account_data × roaming_locals)
    (hclear : is_container_clear node = true) :
    g_hash_table_lookup
        (process_categories ext rext (pre ++ [node]) st).1.our_publications node.name
      = (g_hash_table_lookup (process_categories ext rext pre st).1.our_publications
          node.name).map (remove_container_foreach (category_container node)) ∧
    (∀ k p, p.container ≠ category_container node →
      lookup_publication (process_categories ext rext pre st).1.our_publications node.name k
        = some p →
      lookup_publication (process_categories ext rext (pre ++ [node]) st).1.our_publications
        node.name k = some p) ∧
    (∀ c, c ≠ node.name →
      g_hash_table_lookup (process_categories ext rext (pre ++ [node]) st).1.our_publications c
        = g_hash_table_lookup (process_categories ext rext pre st).1.our_publications c) := by
  simp only [is_container_clear, Bool.and_eq_true, decide_eq_true_eq] at hclear
  have hmain : g_hash_table_lookup
        (process_categories ext rext (pre ++ [node]) st).1.our_publications node.name
      = (g_hash_table_lookup (process_categories ext rext pre st).1.our_publications
          node.name).map (remove_container_foreach (category_container node)) := by
    rw [process_categories_append, process_category_cache]
    simp only [hclear.1, hclear.2, if_true, if_false]
    unfold sipe_remove_category_container_publications
    cases hl : g_hash_table_lookup (process_categories ext rext pre st).1.our_publications
        node.name with
    | none => simp only [hl, Option.map_none']
    | some t => simp only [lookup_insert_self, Option.map_some']
  refine ⟨hmain, ?_, ?_⟩
  · intro k p hp hlook
    unfold lookup_publication at hlook ⊢
    rw [hmain]
    cases hl : g_hash_table_lookup (process_categories ext rext pre st).1.our_publications
        node.name with
    | none => rw [hl] at hlook; cases hlook
    | some t0 =>
      rw [hl] at hlook
      simp only [Option.map_some']
      exact remove_container_foreach_keeps _ k p hp t0 hlook
  · intro c hc
    rw [process_categories_append]
    exact process_category_other ext rext node _ _ c (fun e => hc e.symm)

/-- C28 (evaluation at the failing input): the snapshot returns the machine state and the
calendar state of container 2 (both keys of the engine) and then clears container 2 of
category `state` with an element that names the container and no instance. After
`sipe_ocs2007_process_roaming_self` the sub-table of `state` still holds an entry of
container 2: the traversal ended at the first removal. -/
theorem container_clear_leaves_later_entry :
    is_container_clear (plain_category "state" (some "2") none none) = true ∧
    ((g_hash_table_lookup
        (sipe_ocs2007_process_roaming_self sample_externals sample_roaming_externals
          (some "example.org") fresh_session
          (some { categories := [plain_category "state" (some "2") (some "12") (some "5"),
                                 plain_category "state" (some "2") (some "14") (some "6"),
                                 plain_category "state" (some "2") none none],
                  containers := none, subscribers := [] })).1.our_publications
        "state").getD []).map (fun kv => (kv.1, kv.2.container))
      = [("<state><14><2>", 2)] := by
  decide

/-- C29: `sipe_ocs2007_reset_status` sends nothing when no user state publication is
recorded, and otherwise one request with one clearing publication for each recorded
publication, with its category, instance, container and version. After an ingestion the
table of recorded publications holds, key by key, the record of the last normal `state`
entry of container 2 or 3 with state type `userState` and that key, and what was recorded
before when the snapshot has no such entry; its keys stay distinct. -/
theorem reset_status_clears_recorded (ext : Externals) (rext : RoamingExternals)
    (sip_domain : Option String) (sip : sipe_account_data) (xml : roaming_self_xml) :
    (∀ s : sipe_account_data,
      (sipe_ocs2007_reset_status s = none ↔ s.user_state_publications.getD [] = []) ∧
      ∀ doc, sipe_ocs2007_reset_status s = some doc →
        doc = (s.user_state_publications.getD []).map (fun kv =>
          { categoryName := kv.2.category, inst := kv.2.inst, container := kv.2.container,
            version := kv.2.version, expireType := "static", body := PublicationBody.clear })) ∧
    (∀ k : String,
      g_hash_table_lookup
          ((sipe_ocs2007_process_roaming_self ext rext sip_domain sip
            (some xml)).1.user_state_publications.getD []) k
        = match xml.categories.reverse.find?
            (fun n => is_user_state_entry n && decide (category_key n = k)) with
          | some n => some (user_state_record n)
          | none => g_hash_table_lookup (sip.user_state_publications.getD []) k) ∧
    (((sip.user_state_publications.getD []).map Prod.fst).Nodup →
      (((sipe_ocs2007_process_roaming_self ext rext sip_domain sip
        (some xml)).1.user_state_publications.getD []).map Prod.fst).Nodup) := by
  refine ⟨?_, ?_, ?_⟩
  · intro s
    unfold sipe_ocs2007_reset_status
    cases hs : s.user_state_publications with
    | none => simp
    | some t =>
      cases t with
      | nil => simp
      | cons hd tl =>
        simp only [List.length_cons, Nat.add_one_ne_zero, if_false, Option.getD_some]
        refine ⟨by simp, ?_⟩
        intro doc hdoc
        simp only [Option.some.injEq] at hdoc
        rw [← hdoc]
        rfl
  · intro k
    rw [(process_roaming_self_fields ext rext sip_domain sip xml).2.1,
      process_categories_user_state]
  · intro hn
    rw [(process_roaming_self_fields ext rext sip_domain sip xml).2.1]
    exact process_categories_user_state_keys ext rext xml.categories _ hn


/-! ## The next publication time, keys and domains -/

/-- C31: for a time `t` with `0 ≤ t` and `t + 300 < 2^31`, `schedule_publish_update`
computes `next_start = (t / 300 + 1) * 300`, a multiple of 300 with
`t < next_start ≤ t + 300`: the next five minute boundary strictly after `t`, which is
`t + 300` when `t` is on a boundary. -/
theorem next_start_is_next_boundary (t : Int) (h0 : 0 ≤ t) (h1 : t + 300 < 2147483648) :
    next_start t = (t / 300 + 1) * 300 ∧ next_start t % 300 = 0 ∧
      t < next_start t ∧ next_start t ≤ t + 300 ∧
      (t % 300 = 0 → next_start t = t + 300) := by
  have hq : Int.tdiv t 300 = t / 300 := Int.tdiv_eq_ediv h0 (by decide)
  have hq0 : 0 ≤ t / 300 := Int.ediv_nonneg h0 (by decide)
  have hqle : t / 300 * 300 ≤ t := Int.ediv_mul_le t (by decide)
  have hqlt : t < (t / 300 + 1) * 300 := Int.lt_ediv_add_one_mul_self t (by decide)
  have hval : next_start t = (t / 300 + 1) * 300 := by
    unfold next_start
    have e1 : long_to_int t = t := by unfold long_to_int; omega
    have e2 : long_to_int (5 * 60) = 300 := by decide
    simp only [e1, e2, hq]
    have e3 : long_to_int (t / 300 + 1) = t / 300 + 1 := by unfold long_to_int; omega
    have e4 : to_time_t (t / 300 + 1) = t / 300 + 1 := by unfold to_time_t; omega
    have e5 : to_time_t 300 = 300 := by decide
    rw [e3, e4, e5]
    unfold to_time_t
    omega
  refine ⟨hval, ?_, ?_, ?_, ?_⟩
  · rw [hval]; omega
  · rw [hval]; exact hqlt
  · rw [hval]; omega
  · intro hm
    rw [hval]
    omega

/-- Witness of `next_start_is_next_boundary`: 1000 seconds give 1200, and the boundary 1200
gives 1500. -/
theorem next_start_is_next_boundary_witness :
    next_start 1000 = 1200 ∧ next_start 1200 = 1500 :=
  ⟨(next_start_is_next_boundary 1000 (by decide) (by decide)).1.trans (by decide),
   (next_start_is_next_boundary 1200 (by decide) (by decide)).2.2.2.2 (by decide)⟩

theorem key_of_strings_reverse (category inst container : String) :
    (key_of_strings category inst container).data.reverse
      = '>' :: (container.data.reverse ++ '<' :: '>' :: (inst.data.reverse ++ '<' :: '>' ::
          (category.data.reverse ++ ['<']))) := by
  rw [key_of_strings_data]
  simp [List.reverse_cons, List.reverse_append]

theorem repr_digits_reverse (n : Nat) :
    ∀ c ∈ (toString n).data.reverse, 48 ≤ c.toNat ∧ c.toNat ≤ 57 :=
  fun c hc => repr_digits n c (List.mem_reverse.mp hc)

/-- C32: the key text `<category><instance><container>` determines the category, the instance
and the container: two different triples never give the same key, so a key names at most one
entry of the cache. -/
theorem publication_key_determines_triple (category1 category2 : String)
    (inst1 container1 inst2 container2 : Nat) :
    publication_key category1 inst1 container1 = publication_key category2 inst2 container2 ↔
      category1 = category2 ∧ inst1 = inst2 ∧ container1 = container2 := by
  constructor
  · intro h
    have hd := congrArg (fun s => s.data.reverse) h
    simp only [publication_key, key_of_strings_reverse, List.cons.injEq, true_and] at hd
    have hlt : ¬ (48 ≤ ('<' : Char).toNat ∧ ('<' : Char).toNat ≤ 57) := by decide
    obtain ⟨e1, r1⟩ := digit_run_unique '<' hlt _ _ _ _ (repr_digits_reverse container1)
      (repr_digits_reverse container2) hd
    simp only [List.cons.injEq, true_and] at r1
    obtain ⟨e2, r2⟩ := digit_run_unique '<' hlt _ _ _ _ (repr_digits_reverse inst1)
      (repr_digits_reverse inst2) r1
    simp only [List.cons.injEq, true_and, List.append_cancel_right_eq] at r2
    refine ⟨String.ext (List.reverse_injective r2), ?_, ?_⟩
    · exact repr_injective _ _ (String.ext (List.reverse_injective e2))
    · exact repr_injective _ _ (String.ext (List.reverse_injective e1))
  · rintro ⟨e1, e2, e3⟩
    rw [e1, e2, e3]

/-- C33: `sipe_get_domain` returns the text after the first `@` of the address when that
text is not empty, and nothing when the address is missing, has no `@`, or ends with its
first `@`. -/
theorem get_domain_after_first_at :
    sipe_get_domain none = none ∧
    (∀ s : String, '@' ∉ s.data → sipe_get_domain (some s) = none) ∧
    (∀ name domain : String, '@' ∉ name.data →
      sipe_get_domain (some (name ++ "@" ++ domain))
        = if domain = "" then none else some domain) ∧
    sipe_get_domain (some "first.last@hq.company.com") = some "hq.company.com" ∧
    sipe_get_domain (some "first.last@") = none ∧
    sipe_get_domain (some "a@b@c") = some "b@c" := by
  refine ⟨rfl, ?_, ?_, by decide, by decide, by decide⟩
  · intro s hs
    have hdrop : s.data.dropWhile (fun c => c != '@') = [] := by
      rw [List.dropWhile_eq_nil_iff]
      intro c hc
      have : c ≠ '@' := fun e => hs (e ▸ hc)
      simpa using this
    simp only [sipe_get_domain, hdrop]
  · intro name domain hn
    have hdrop : ∀ (l : List Char), '@' ∉ l →
        (l ++ '@' :: domain.data).dropWhile (fun c => c != '@') = '@' :: domain.data := by
      intro l
      induction l with
      | nil => intro _; simp [List.dropWhile]
      | cons c l ih =>
        intro hl
        simp only [List.mem_cons, not_or] at hl
        have hc : (c != '@') = true := by
          simp only [bne_iff_ne, ne_eq]
          exact fun e => hl.1 e.symm
        simp only [List.cons_append, List.dropWhile_cons, hc, if_true]
        exact ih hl.2
    have hdata : (name ++ "@" ++ domain).data = name.data ++ '@' :: domain.data := by
      simp [String.data_append]
    simp only [sipe_get_domain, hdata, hdrop name.data hn]
    by_cases hd : domain = ""
    · subst hd
      simp
    · have hne : domain.data ≠ [] := by
        intro e
        apply hd
        exact String.ext (by simpa using e)
      simp [hne, hd]

/-- C34 (as amended): `sipe_find_member_access_level` returns the first of the levels 32000,
400, 300, 200, 100, in this order, whose container holds the member as it is looked up (for
type `user` the value with a leading `sip:` removed, for every other type the value itself),
and `-1` when none holds it; so Blocked wins over every other level for the member as looked
up, and the result is `-1` or one of the five ids. -/
theorem find_member_access_level_first_holder (store : List sipe_container) (type : String)
    (value : Option String) :
    sipe_find_member_access_level store (some type) value
      = (match containers.find? (fun id => level_holds store (some type)
            (if type = "user" then sipe_get_no_sip_uri value else value) id) with
         | some id => (id : Int)
         | none => -1) ∧
    (level_holds store (some type)
        (if type = "user" then sipe_get_no_sip_uri value else value) 32000 = true →
      sipe_find_member_access_level store (some type) value = 32000) ∧
    (sipe_find_member_access_level store (some type) value = -1 ∨
      sipe_find_member_access_level store (some type) value = 32000 ∨
      sipe_find_member_access_level store (some type) value = 400 ∨
      sipe_find_member_access_level store (some type) value = 300 ∨
      sipe_find_member_access_level store (some type) value = 200 ∨
      sipe_find_member_access_level store (some type) value = 100) ∧
    sipe_find_member_access_level store none value = -1 := by
  have hval : sipe_find_member_access_level store (some type) value
      = (match containers.find? (fun id => level_holds store (some type)
            (if type = "user" then sipe_get_no_sip_uri value else value) id) with
         | some id => (id : Int)
         | none => -1) := by
    by_cases hu : type = "user"
    · subst hu
      simp only [if_true]
      rw [find_member_access_level_user, first_success_singleton, lookup_level_eq_find]
    · simp only [hu, if_false]
      rw [find_member_access_level_other store type value hu, first_success_singleton,
        lookup_level_eq_find]
  refine ⟨hval, ?_, ?_, rfl⟩
  · intro h
    rw [hval]
    simp only [containers, List.find?_cons, h]
    rfl
  · rw [hval]
    cases hf : containers.find? (fun id => level_holds store (some type)
        (if type = "user" then sipe_get_no_sip_uri value else value) id) with
    | none => exact Or.inl rfl
    | some id =>
      have hmem := List.mem_of_find?_eq_some hf
      simp only [containers, List.mem_cons, List.mem_singleton, List.not_mem_nil, or_false]
        at hmem
      simp only []
      rcases hmem with e | e | e | e | e
      all_goals subst e
      · exact Or.inr (Or.inl rfl)
      · exact Or.inr (Or.inr (Or.inl rfl))
      · exact Or.inr (Or.inr (Or.inr (Or.inl rfl)))
      · exact Or.inr (Or.inr (Or.inr (Or.inr (Or.inl rfl))))
      · exact Or.inr (Or.inr (Or.inr (Or.inr (Or.inr rfl))))

/-- C34 (counterexample): the containers 32000, 400 and 200 hold the member of type `user`
with the value `sip:bob@x.example`, yet for this type and value the function returns `-1`
and not 32000: it looks up `bob@x.example`, which no container holds. -/
theorem find_member_access_level_misses_sip_member :
    level_holds
        [⟨32000, 1, [⟨some "user", some "sip:bob@x.example"⟩]⟩,
         ⟨400, 1, [⟨some "user", some "sip:bob@x.example"⟩]⟩,
         ⟨200, 1, [⟨some "user", some "sip:bob@x.example"⟩]⟩]
        (some "user") (some "sip:bob@x.example") 32000 = true ∧
    level_holds
        [⟨32000, 1, [⟨some "user", some "sip:bob@x.example"⟩]⟩,
         ⟨400, 1, [⟨some "user", some "sip:bob@x.example"⟩]⟩,
         ⟨200, 1, [⟨some "user", some "sip:bob@x.example"⟩]⟩]
        (some "user") (some "sip:bob@x.example") 400 = true ∧
    level_holds
        [⟨32000, 1, [⟨some "user", some "sip:bob@x.example"⟩]⟩,
         ⟨400, 1, [⟨some "user", some "sip:bob@x.example"⟩]⟩,
         ⟨200, 1, [⟨some "user", some "sip:bob@x.example"⟩]⟩]
        (some "user") (some "sip:bob@x.example") 200 = true ∧
    sipe_find_member_access_level
        [⟨32000, 1, [⟨some "user", some "sip:bob@x.example"⟩]⟩,
         ⟨400, 1, [⟨some "user", some "sip:bob@x.example"⟩]⟩,
         ⟨200, 1, [⟨some "user", some "sip:bob@x.example"⟩]⟩]
        (some "user") (some "sip:bob@x.example") = -1 := by
  decide

/-! ## Invariants of the container store and the clearing entries -/

theorem remove_container_member_ids (type value : Option String) (id : Nat) :
    ∀ (store : List sipe_container),
      (remove_container_member type value id store).map (fun c => c.id)
        = store.map (fun c => c.id) := by
  intro store
  induction store with
  | nil => rfl
  | cons c rest ih =>
    simp only [remove_container_member]
    split
    · rfl
    · simp only [List.map_cons, ih]

theorem change_access_level_loop_ids (container_id : Int) (type value : Option String) :
    ∀ (ids : List Nat) (st : List sipe_container × List container_xml),
      (change_access_level_loop container_id type value ids st).1.map (fun c => c.id)
        = st.1.map (fun c => c.id) := by
  intro ids
  induction ids with
  | nil => intro st; rfl
  | cons id rest ih =>
    intro st
    obtain ⟨store, xmls⟩ := st
    simp only [change_access_level_loop]
    cases hc : sipe_find_container store id with
    | none => exact ih (store, xmls)
    | some c =>
      simp only []
      cases hm : sipe_find_container_member c type value with
      | none => exact ih (store, xmls)
      | some m =>
        simp only []
        split
        · rw [ih]
          exact remove_container_member_ids type value id store
        · exact ih (store, xmls)

/-- C36: the ids of the containers stay distinct. When no two containers of the store share
an id, the same holds after `sipe_ocs2007_process_roaming_self` for every body, also one
that repeats a container id, and after `sipe_ocs2007_change_access_level` for all
arguments. -/
theorem container_ids_stay_unique (ext : Externals) (rext : RoamingExternals)
    (sip_domain : Option String) (sip : sipe_account_data)
    (h : (sip.containers.map (fun c => c.id)).Nodup) :
    (∀ body : Option roaming_self_xml,
      ((sipe_ocs2007_process_roaming_self ext rext sip_domain sip body).1.containers.map
        (fun c => c.id)).Nodup) ∧
    (∀ (container_id : Int) (type value : Option String),
      ((sipe_ocs2007_change_access_level sip_domain sip.containers container_id type
        value).1.map (fun c => c.id)).Nodup) := by
  constructor
  · intro body
    cases body with
    | none => exact h
    | some xml =>
      rw [(process_roaming_self_acl ext rext sip_domain sip xml).2.2]
      exact (process_containers_rebuilds (xml.containers.getD []) sip.containers h).1
  · intro container_id type value
    simp only [sipe_ocs2007_change_access_level]
    rw [change_access_level_loop_ids]
    exact h

/-- Witness of `container_ids_stay_unique`: the store holds container 200 and the snapshot
names container 200 twice and container 100 once; the store afterwards holds 200 and 100
once each. -/
theorem container_ids_stay_unique_witness :
    (sipe_ocs2007_process_roaming_self sample_externals sample_roaming_externals
        (some "example.org")
        { fresh_session with containers := [ { id := 200, version := 1, members := [] } ] }
        (some { categories := [],
                containers := some [ { id := some "200", version := some "7", members := [] },
                                     { id := some "100", version := some "2", members := [] },
                                     { id := some "200", version := some "8", members := [] } ],
                subscribers := [] })).1.containers.map (fun c => c.id) = [100, 200] ∧
    ((sipe_ocs2007_process_roaming_self sample_externals sample_roaming_externals
        (some "example.org")
        { fresh_session with containers := [ { id := 200, version := 1, members := [] } ] }
        (some { categories := [],
                containers := some [ { id := some "200", version := some "7", members := [] },
                                     { id := some "100", version := some "2", members := [] },
                                     { id := some "200", version := some "8", members := [] } ],
                subscribers := [] })).1.containers.map (fun c => c.id)).Nodup :=
  ⟨by decide,
   (container_ids_stay_unique sample_externals sample_roaming_externals (some "example.org")
      { fresh_session with containers := [ { id := 200, version := 1, members := [] } ] }
      (by decide)).1 _⟩

/-- C37: clearing of the note by clearing entries. A category element without a container
sets the note of the session to nothing and asks for a status update, whatever its category
is, and changes nothing else, the cache included; an element with a container and no
instance sets the note to nothing exactly when the container is 200, again whatever its
category is. -/
theorem clearing_entries_clear_note (ext : Externals) (rext : RoamingExternals)
    (node : xml_category) (sip : sipe_account_data) (loc : roaming_locals) :
    (category_container node = GUINT_NONE →
      process_category ext rext node sip loc
        = ({ sip with note := none }, { loc with do_update_status := true })) ∧
    (is_container_clear node = true →
      (process_category ext rext node sip loc).1.note
        = (if category_container node = 200 then none else sip.note)) := by
  constructor
  · intro h
    unfold process_category
    simp only [h, if_true]
  · intro h
    simp only [is_container_clear, Bool.and_eq_true, decide_eq_true_eq] at h
    unfold process_category
    simp only [h.1, h.2, if_true, if_false]
    split <;> rfl

/-- Witness of `clearing_entries_clear_note`: a `state` element without a container clears
the note `hello` of the session. -/
theorem clearing_entries_clear_note_witness :
    (process_category sample_externals sample_roaming_externals
        (plain_category "state" none none none)
        { fresh_session with note := some "hello" }
        { devices := [], aggreg_avail := 0, do_update_status := false,
          has_note_cleaned := false, effects := [] }).1.note = none :=
  congrArg (fun st => st.1.note)
    ((clearing_entries_clear_note sample_externals sample_roaming_externals
      (plain_category "state" none none none)
      { fresh_session with note := some "hello" }
      { devices := [], aggreg_avail := 0, do_update_status := false,
        has_note_cleaned := false, effects := [] }).1 (by decide))

/-- C39: `sipe_ocs2007_change_access_level_for_domain` moves Blocked first. For an index
from 0 to 4 the table access is in bounds; the indices 0, 1, 2, 3 select the levels 400, 300,
200, 100 and the index 4 selects 32000, and the function requests that level for the member
`("domain", domain)`. -/
theorem change_access_level_for_domain_level (sip_domain : Option String)
    (store : List sipe_container) (domain : Option String) (index : Nat) (h : index ≤ 4) :
    (if index = 4 then 0 else to_guint ((index : Int) + 1)) < containers.length ∧
    sipe_ocs2007_change_access_level_for_domain sip_domain store domain index
      = some (sipe_ocs2007_change_access_level sip_domain store
          (([400, 300, 200, 100, 32000] : List Int).getD index 0) (some "domain") domain) := by
  interval_cases index
  all_goals exact ⟨by decide, rfl⟩

/-- Witness of `change_access_level_for_domain_level`: the index 4 asks for the Blocked
level. -/
theorem change_access_level_for_domain_level_witness :
    sipe_ocs2007_change_access_level_for_domain (some "example.org") [⟨32000, 1, []⟩]
        (some "spam.example") 4
      = some ([⟨32000, 1, []⟩], some [⟨32000, 1, "add", some "domain", some "spam.example"⟩]) :=
  (change_access_level_for_domain_level (some "example.org") [⟨32000, 1, []⟩]
    (some "spam.example") 4 (by decide)).2.trans (by decide)


/-! ## The keys of the publications the builders write -/

theorem our_key_device (ext : Externals) :
    sipe_is_our_publication ext
      (publication_key "device" (ext.sipe_get_pub_instance PubKey.SIPE_PUB_DEVICE) 2) = true := by
  simp [sipe_is_our_publication, our_publication_keys, sipe_strequal]

theorem state_builder_keys (ext : Externals) (cache : PublicationCache)
    (status : Option String) (is_user_state : Bool) (frag : List publication_xml)
    (h : sipe_publish_get_category_state ext cache status is_user_state = some frag) :
    ∀ e ∈ frag, sipe_is_our_publication ext (emitted_key e) = true := by
  unfold sipe_publish_get_category_state at h
  simp only [] at h
  cases is_user_state
  all_goals
    simp only [Bool.false_eq_true, if_false, if_true] at h
    split at h
    · cases h
    · simp only [Option.some.injEq] at h
      subst h
      intro e he
      simp only [List.mem_cons, List.mem_singleton, List.not_mem_nil, or_false] at he
      rcases he with e1 | e1 <;> subst e1 <;>
        simp [emitted_key, sipe_is_our_publication, our_publication_keys, sipe_strequal]

theorem state_calendar_builder_keys (ext : Externals) (cache : PublicationCache)
    (event : Option sipe_cal_event) (uri : Option String) (cal_satus : Int)
    (frag : List publication_xml)
    (h : sipe_publish_get_category_state_calendar ext cache event uri cal_satus = some frag) :
    ∀ e ∈ frag, sipe_is_our_publication ext (emitted_key e) = true := by
  unfold sipe_publish_get_category_state_calendar at h
  simp only [] at h
  by_cases hoof : cal_satus = SIPE_CAL_OOF
  all_goals
    simp only [hoof, if_true, if_false] at h
    repeat' split at h
    all_goals first
      | cases h; done
      | (simp only [Option.some.injEq] at h
         subst h
         intro e he
         simp only [List.mem_cons, List.mem_singleton, List.not_mem_nil, or_false] at he
         rcases he with e1 | e1 <;> subst e1 <;>
           simp [emitted_key, sipe_is_our_publication, our_publication_keys, sipe_strequal])

theorem note_builder_keys (ext : Externals) (cache : PublicationCache)
    (note note_type : Option String) (note_start note_end : Int) (frag : List publication_xml)
    (h : sipe_publish_get_category_note ext cache note note_type note_start note_end
      = some frag) :
    ∀ e ∈ frag, sipe_is_our_publication ext (emitted_key e) = true := by
  unfold sipe_publish_get_category_note at h
  simp only [] at h
  by_cases hoof : sipe_strequal (some "OOF") note_type = true
  all_goals
    simp only [hoof, if_true, if_false] at h
    repeat' split at h
    all_goals first
      | cases h; done
      | (simp only [Option.some.injEq] at h
         subst h
         intro e he
         simp only [List.mem_cons, List.mem_singleton, List.not_mem_nil, or_false] at he
         rcases he with e1 | e1 | e1 <;> subst e1 <;>
           simp [emitted_key, sipe_is_our_publication, our_publication_keys, sipe_strequal])

theorem working_hours_builder_keys (ext : Externals) (cache : PublicationCache)
    (cal : Option sipe_calendar) (frag : List publication_xml)
    (h : sipe_publish_get_category_cal_working_hours cache cal = some frag) :
    ∀ e ∈ frag, sipe_is_our_publication ext (emitted_key e) = true := by
  unfold sipe_publish_get_category_cal_working_hours at h
  simp only [] at h
  repeat' split at h
  all_goals first
    | cases h; done
    | (simp only [Option.some.injEq] at h
       subst h
       intro e he
       simp only [List.mem_cons, List.mem_singleton, List.not_mem_nil, or_false] at he
       rcases he with e1 | e1 | e1 | e1 | e1 | e1 <;> subst e1 <;>
         simp [emitted_key, working_hours_publication, sipe_is_our_publication,
           our_publication_keys, sipe_strequal])

theorem free_busy_builder_keys (ext : Externals) (cache : PublicationCache)
    (cal : Option sipe_calendar) (frag : List publication_xml)
    (h : sipe_publish_get_category_cal_free_busy ext cache cal = some frag) :
    ∀ e ∈ frag, sipe_is_our_publication ext (emitted_key e) = true := by
  unfold sipe_publish_get_category_cal_free_busy at h
  simp only [] at h
  repeat' split at h
  all_goals first
    | cases h; done
    | (simp only [Option.some.injEq] at h
       subst h
       intro e he
       simp only [List.mem_cons, List.mem_singleton, List.not_mem_nil, or_false] at he
       rcases he with e1 | e1 | e1 | e1 | e1 | e1 <;> subst e1 <;>
         simp [emitted_key, free_busy_publication, sipe_is_our_publication,
           our_publication_keys, sipe_strequal])

/-- C35: every publication that a category builder writes has a key that
`sipe_is_our_publication` accepts: the device publication, the machine, user, calendar and
out-of-office calendar state pairs, the personal and the out-of-office note, the working
hours and the free/busy fragment. A normal category element with which the server returns
such a publication is therefore cached under that key with the version of the element. -/
theorem emitted_keys_are_ours (ext : Externals) (rext : RoamingExternals)
    (cache : PublicationCache) :
    (∀ e ∈ sipe_publish_get_category_device ext cache,
      sipe_is_our_publication ext (emitted_key e) = true) ∧
    (∀ (status : Option String) (is_user_state : Bool) (frag : List publication_xml),
      sipe_publish_get_category_state ext cache status is_user_state = some frag →
      ∀ e ∈ frag, sipe_is_our_publication ext (emitted_key e) = true) ∧
    (∀ (event : Option sipe_cal_event) (uri : Option String) (cal_satus : Int)
      (frag : List publication_xml),
      sipe_publish_get_category_state_calendar ext cache event uri cal_satus = some frag →
      ∀ e ∈ frag, sipe_is_our_publication ext (emitted_key e) = true) ∧
    (∀ (note note_type : Option String) (note_start note_end : Int)
      (frag : List publication_xml),
      sipe_publish_get_category_note ext cache note note_type note_start note_end = some frag →
      ∀ e ∈ frag, sipe_is_our_publication ext (emitted_key e) = true) ∧
    (∀ (cal : Option sipe_calendar) (frag : List publication_xml),
      sipe_publish_get_category_cal_working_hours cache cal = some frag →
      ∀ e ∈ frag, sipe_is_our_publication ext (emitted_key e) = true) ∧
    (∀ (cal : Option sipe_calendar) (frag : List publication_xml),
      sipe_publish_get_category_cal_free_busy ext cache cal = some frag →
      ∀ e ∈ frag, sipe_is_our_publication ext (emitted_key e) = true) ∧
    (∀ (e : publication_xml) (node : xml_category) (sip : sipe_account_data)
      (loc : roaming_locals),
      sipe_is_our_publication ext (emitted_key e) = true →
      is_normal_entry node = true → node.name = e.categoryName →
      category_instance node = e.inst → category_container node = e.container →
      ∃ p, lookup_publication (process_category ext rext node sip loc).1.our_publications
          e.categoryName (emitted_key e) = some p ∧
        p.version = category_version node) := by
  refine ⟨?_, ?_, ?_, ?_, ?_, ?_, ?_⟩
  · intro e he
    simp only [sipe_publish_get_category_device, List.mem_singleton] at he
    subst he
    exact our_key_device ext
  · exact fun status is_user_state frag h =>
      state_builder_keys ext cache status is_user_state frag h
  · exact fun event uri cal_satus frag h =>
      state_calendar_builder_keys ext cache event uri cal_satus frag h
  · exact fun note note_type note_start note_end frag h =>
      note_builder_keys ext cache note note_type note_start note_end frag h
  · exact fun cal frag h => working_hours_builder_keys ext cache cal frag h
  · exact fun cal frag h => free_busy_builder_keys ext cache cal frag h
  · intro e node sip loc hours hn h1 h2 h3
    simp only [is_normal_entry, Bool.and_eq_true, decide_eq_true_eq] at hn
    refine ⟨publication_of_category ext rext node, ?_, rfl⟩
    have hk : emitted_key e
        = publication_key node.name (category_instance node) (category_container node) := by
      simp only [emitted_key, h1, h2, h3]
    rw [hk, ← h1]
    exact process_category_hit ext rext node sip loc hn.1 hn.2 (by rw [← hk]; exact hours)


/-! ## The domains with an access level -/

theorem strcasecmp_some (a b : String) :
    g_ascii_strcasecmp (some a) (some b)
      = compare (String.mk (ascii_lower a)) (String.mk (ascii_lower b)) := rfl

theorem strcasecmp_self (a : String) : g_ascii_strcasecmp (some a) (some a) = Ordering.eq := by
  rw [strcasecmp_some]
  exact compare_eq_iff_eq.mpr rfl

theorem strcasecmp_eq_symm (a b : String)
    (h : g_ascii_strcasecmp (some a) (some b) = Ordering.eq) :
    g_ascii_strcasecmp (some b) (some a) = Ordering.eq := by
  rw [strcasecmp_some] at h ⊢
  exact compare_eq_iff_eq.mpr (compare_eq_iff_eq.mp h).symm

theorem strcasecmp_gt_lt (a b : String)
    (h : g_ascii_strcasecmp (some a) (some b) = Ordering.gt) :
    g_ascii_strcasecmp (some b) (some a) = Ordering.lt := by
  rw [strcasecmp_some] at h ⊢
  exact compare_lt_iff_lt.mpr (compare_gt_iff_gt.mp h)

theorem strcasecmp_lt_trans (a b c : String)
    (h1 : g_ascii_strcasecmp (some a) (some b) = Ordering.lt)
    (h2 : g_ascii_strcasecmp (some b) (some c) = Ordering.lt) :
    g_ascii_strcasecmp (some a) (some c) = Ordering.lt := by
  rw [strcasecmp_some] at h1 h2 ⊢
  exact compare_lt_iff_lt.mpr (lt_trans (compare_lt_iff_lt.mp h1) (compare_lt_iff_lt.mp h2))

/-- Insertion of a text that equals none of a strictly ascending list keeps the list strictly
ascending. -/
theorem insert_sorted_ascending (d : String) :
    ∀ (l : List (Option String)), (∀ x ∈ l, x.isSome = true) →
      l.Pairwise (fun a b => g_ascii_strcasecmp a b = Ordering.lt) →
      (∀ x ∈ l, g_ascii_strcasecmp x (some d) ≠ Ordering.eq) →
      (g_slist_insert_sorted g_ascii_strcasecmp (some d) l).Pairwise
        (fun a b => g_ascii_strcasecmp a b = Ordering.lt) := by
  intro l
  induction l with
  | nil => intro _ _ _; simp [g_slist_insert_sorted]
  | cons y rest ih =>
    intro hs hp hne
    have hy := hs y (by simp)
    obtain ⟨w, hw⟩ := Option.isSome_iff_exists.mp hy
    subst hw
    rw [List.pairwise_cons] at hp
    unfold g_slist_insert_sorted
    by_cases hgt : g_ascii_strcasecmp (some d) (some w) = Ordering.gt
    · simp only [hgt, if_true]
      rw [List.pairwise_cons]
      refine ⟨?_, ih (fun x hx => hs x (by simp [hx])) hp.2
        (fun x hx => hne x (by simp [hx]))⟩
      intro z hz
      rcases (mem_insert_sorted _ _ _ _).mp hz with e | e
      · rw [e]; exact strcasecmp_gt_lt d w hgt
      · exact hp.1 z e
    · simp only [hgt, if_false]
      have hlt : g_ascii_strcasecmp (some d) (some w) = Ordering.lt := by
        have hneq : g_ascii_strcasecmp (some d) (some w) ≠ Ordering.eq :=
          fun e => hne (some w) (by simp) (strcasecmp_eq_symm d w e)
        cases hc : g_ascii_strcasecmp (some d) (some w) with
        | lt => rfl
        | eq => exact absurd hc hneq
        | gt => exact absurd hc hgt
      rw [List.pairwise_cons]
      refine ⟨?_, List.pairwise_cons.mpr hp⟩
      intro z hz
      rcases List.mem_cons.mp hz with e | e
      · rw [e]; exact hlt
      · obtain ⟨u, hu⟩ := Option.isSome_iff_exists.mp (hs z (by simp [e]))
        subst hu
        exact strcasecmp_lt_trans d w u hlt (hp.1 _ e)

/-- The list of domains while the members are read: it stays a strictly ascending list of
texts, keeps what it held, holds only values of `domain` members, and holds for each
`domain` member a text equal to its value ignoring case. -/
theorem access_domains_of_members_spec :
    ∀ (ms : List sipe_container_member) (res : List (Option String)),
      (∀ m ∈ ms, sipe_strcase_equal m.type (some "domain") = true → m.value.isSome = true) →
      (∀ x ∈ res, x.isSome = true) →
      res.Pairwise (fun a b => g_ascii_strcasecmp a b = Ordering.lt) →
      (∀ x ∈ access_domains_of_members ms res, x.isSome = true) ∧
      (access_domains_of_members ms res).Pairwise
        (fun a b => g_ascii_strcasecmp a b = Ordering.lt) ∧
      (∀ x ∈ res, x ∈ access_domains_of_members ms res) ∧
      (∀ x ∈ access_domains_of_members ms res, x ∈ res ∨
        ∃ m ∈ ms, sipe_strcase_equal m.type (some "domain") = true ∧ x = m.value) ∧
      (∀ m ∈ ms, sipe_strcase_equal m.type (some "domain") = true →
        ∃ x ∈ access_domains_of_members ms res,
          g_ascii_strcasecmp x m.value = Ordering.eq) := by
  intro ms
  induction ms with
  | nil =>
    intro res _ hs hp
    exact ⟨hs, hp, fun x hx => hx, fun x hx => Or.inl hx, fun m hm => by simp at hm⟩
  | cons m rest ih =>
    intro res hv hs hp
    simp only [access_domains_of_members]
    have hvr : ∀ m2 ∈ rest, sipe_strcase_equal m2.type (some "domain") = true →
        m2.value.isSome = true := fun m2 h2 => hv m2 (by simp [h2])
    by_cases hd : sipe_strcase_equal m.type (some "domain") = true
    · simp only [hd, if_true]
      obtain ⟨v, hval⟩ := Option.isSome_iff_exists.mp (hv m (by simp) hd)
      have hstep : (∀ x ∈ slist_insert_unique_sorted g_ascii_strcasecmp res m.value,
            x.isSome = true) ∧
          (slist_insert_unique_sorted g_ascii_strcasecmp res m.value).Pairwise
            (fun a b => g_ascii_strcasecmp a b = Ordering.lt) ∧
          (∀ x ∈ res, x ∈ slist_insert_unique_sorted g_ascii_strcasecmp res m.value) ∧
          (∀ x ∈ slist_insert_unique_sorted g_ascii_strcasecmp res m.value,
            x ∈ res ∨ x = m.value) ∧
          (∃ x ∈ slist_insert_unique_sorted g_ascii_strcasecmp res m.value,
            g_ascii_strcasecmp x m.value = Ordering.eq) := by
        unfold slist_insert_unique_sorted
        by_cases hany : res.any (fun x => g_ascii_strcasecmp x m.value = Ordering.eq) = true
        · simp only [hany, if_true]
          obtain ⟨x, hx, he⟩ := List.any_eq_true.mp hany
          exact ⟨hs, hp, fun x hx => hx, fun x hx => Or.inl hx, x, hx, by simpa using he⟩
        · simp only [hany, if_false]
          have hnone : ∀ x ∈ res, g_ascii_strcasecmp x (some v) ≠ Ordering.eq := by
            intro x hx e
            apply hany
            rw [List.any_eq_true]
            exact ⟨x, hx, by rw [hval]; simpa using e⟩
          refine ⟨?_, ?_, ?_, ?_, ?_⟩
          · intro x hx
            rcases (mem_insert_sorted _ _ _ _).mp hx with e | e
            · rw [e, hval]; rfl
            · exact hs x e
          · rw [hval]
            exact insert_sorted_ascending v res hs hp hnone
          · exact fun x hx => (mem_insert_sorted _ _ _ _).mpr (Or.inr hx)
          · intro x hx
            rcases (mem_insert_sorted _ _ _ _).mp hx with e | e
            · exact Or.inr e
            · exact Or.inl e
          · refine ⟨m.value, (mem_insert_sorted _ _ _ _).mpr (Or.inl rfl), ?_⟩
            rw [hval]
            exact strcasecmp_self v
      obtain ⟨s1, s2, s3, s4, x0, hx0, hx0e⟩ := hstep
      obtain ⟨r1, r2, r3, r4, r5⟩ := ih _ hvr s1 s2
      refine ⟨r1, r2, fun x hx => r3 x (s3 x hx), ?_, ?_⟩
      · intro x hx
        rcases r4 x hx with e | ⟨m2, hm2, hd2, e2⟩
        · rcases s4 x e with e3 | e3
          · exact Or.inl e3
          · exact Or.inr ⟨m, by simp, hd, e3⟩
        · exact Or.inr ⟨m2, by simp [hm2], hd2, e2⟩
      · intro m2 hm2 hd2
        rcases List.mem_cons.mp hm2 with e | e
        · subst e
          exact ⟨x0, r3 x0 hx0, hx0e⟩
        · exact r5 m2 e hd2
    · simp only [hd, if_false]
      obtain ⟨r1, r2, r3, r4, r5⟩ := ih res hvr hs hp
      refine ⟨r1, r2, r3, ?_, ?_⟩
      · intro x hx
        rcases r4 x hx with e | ⟨m2, hm2, hd2, e2⟩
        · exact Or.inl e
        · exact Or.inr ⟨m2, by simp [hm2], hd2, e2⟩
      · intro m2 hm2 hd2
        rcases List.mem_cons.mp hm2 with e | e
        · subst e; exact absurd hd2 hd
        · exact r5 m2 e hd2

theorem access_domains_of_members_append :
    ∀ (a b : List sipe_container_member) (res : List (Option String)),
      access_domains_of_members (a ++ b) res
        = access_domains_of_members b (access_domains_of_members a res) := by
  intro a
  induction a with
  | nil => intro b res; rfl
  | cons m rest ih =>
    intro b res
    simp only [List.cons_append, access_domains_of_members]
    exact ih b _

theorem access_domains_of_containers_flat :
    ∀ (store : List sipe_container) (res : List (Option String)),
      access_domains_of_containers store res
        = access_domains_of_members (store.map (fun c => c.members)).flatten res := by
  intro store
  induction store with
  | nil => intro res; rfl
  | cons c rest ih =>
    intro res
    simp only [access_domains_of_containers, List.map_cons, List.flatten_cons,
      access_domains_of_members_append]
    exact ih _

/-- For a store whose `domain` members all have a value,
`sipe_ocs2007_get_access_domains` returns values of `domain` members (the type compared
ignoring case) of the containers of the store, for every such member a text equal to its
value ignoring ASCII case, in strictly ascending order of `g_ascii_strcasecmp`, so that no
two returned texts are equal ignoring case; the list is empty exactly when no container has
a `domain` member. -/
theorem access_domains_sorted_unique_of_valued (store : List sipe_container)
    (hv : ∀ m ∈ domain_members store, m.value.isSome = true) :
    (∀ x ∈ sipe_ocs2007_get_access_domains store, ∃ m ∈ domain_members store, x = m.value) ∧
    (∀ m ∈ domain_members store, ∃ x ∈ sipe_ocs2007_get_access_domains store,
      g_ascii_strcasecmp x m.value = Ordering.eq) ∧
    (sipe_ocs2007_get_access_domains store).Pairwise
      (fun a b => g_ascii_strcasecmp a b = Ordering.lt) ∧
    (sipe_ocs2007_get_access_domains store = [] ↔ domain_members store = []) := by
  have hmem : ∀ m, m ∈ domain_members store ↔
      m ∈ (store.map (fun c => c.members)).flatten ∧
        sipe_strcase_equal m.type (some "domain") = true := by
    intro m
    simp only [domain_members, List.mem_filter]
  obtain ⟨_, r2, _, r4, r5⟩ := access_domains_of_members_spec
    (store.map (fun c => c.members)).flatten []
    (fun m hm hd => hv m ((hmem m).mpr ⟨hm, hd⟩)) (by simp) List.Pairwise.nil
  unfold sipe_ocs2007_get_access_domains
  rw [access_domains_of_containers_flat]
  have h1 : ∀ x ∈ access_domains_of_members (store.map (fun c => c.members)).flatten [],
      ∃ m ∈ domain_members store, x = m.value := by
    intro x hx
    rcases r4 x hx with e | ⟨m, hm, hd, e⟩
    · simp at e
    · exact ⟨m, (hmem m).mpr ⟨hm, hd⟩, e⟩
  have h2 : ∀ m ∈ domain_members store,
      ∃ x ∈ access_domains_of_members (store.map (fun c => c.members)).flatten [],
        g_ascii_strcasecmp x m.value = Ordering.eq :=
    fun m hm => r5 m ((hmem m).mp hm).1 ((hmem m).mp hm).2
  refine ⟨h1, h2, r2, ?_⟩
  constructor
  · intro he
    rw [List.eq_nil_iff_forall_not_mem]
    intro m hm
    obtain ⟨x, hx, _⟩ := h2 m hm
    rw [he] at hx
    simp at hx
  · intro he
    rw [List.eq_nil_iff_forall_not_mem]
    intro x hx
    obtain ⟨m, hm, _⟩ := h1 x hx
    rw [he] at hm
    simp at hm

/-- An evaluation of the lemma on the valued stores: two containers with three domain
members, two of which differ in case only. -/
theorem access_domains_of_valued_example :
    sipe_ocs2007_get_access_domains
        [⟨300, 1, [⟨some "domain", some "partner.example"⟩, ⟨some "user", some "b@x.example"⟩]⟩,
         ⟨200, 1, [⟨some "Domain", some "Alpha.example"⟩,
                   ⟨some "domain", some "PARTNER.example"⟩]⟩]
      = [some "Alpha.example", some "partner.example"] ∧
    (sipe_ocs2007_get_access_domains
        [⟨300, 1, [⟨some "domain", some "partner.example"⟩, ⟨some "user", some "b@x.example"⟩]⟩,
         ⟨200, 1, [⟨some "Domain", some "Alpha.example"⟩,
                   ⟨some "domain", some "PARTNER.example"⟩]⟩]).Pairwise
      (fun a b => g_ascii_strcasecmp a b = Ordering.lt) :=
  ⟨by decide,
   (access_domains_sorted_unique_of_valued
      [⟨300, 1, [⟨some "domain", some "partner.example"⟩, ⟨some "user", some "b@x.example"⟩]⟩,
       ⟨200, 1, [⟨some "Domain", some "Alpha.example"⟩,
                 ⟨some "domain", some "PARTNER.example"⟩]⟩]
      (by decide)).2.2.1⟩

/-- C38 (evaluation at the failing input): container 300 holds a `domain` member without a
value followed by the `domain` members `b.example` and `a.example`. The function returns the
list with the single missing value: `g_ascii_strcasecmp` returns 0 when an argument is
`NULL`, so every later value is taken for a duplicate of the first entry and is dropped. -/
theorem access_domains_lost_after_missing_value :
    domain_members
        [⟨300, 1, [⟨some "domain", none⟩, ⟨some "domain", some "b.example"⟩,
                   ⟨some "domain", some "a.example"⟩]⟩]
      = [⟨some "domain", none⟩, ⟨some "domain", some "b.example"⟩,
         ⟨some "domain", some "a.example"⟩] ∧
    sipe_ocs2007_get_access_domains
        [⟨300, 1, [⟨some "domain", none⟩, ⟨some "domain", some "b.example"⟩,
                   ⟨some "domain", some "a.example"⟩]⟩]
      = [none] := by
  decide

/-! ## The signature string -/

/-- C40: `sipmsg_breakdown_get_string` returns nothing exactly when the realm is `NULL` or
the static empty marker; otherwise it returns the fields protocol, rand, num, realm,
target_name, call_id, cseq, method, from_url, from_tag, to_tag and expires (empty when
`NULL`), each between `<` and `>` and in this order, followed by `<response>` exactly when
the response code is not 0. The result does not depend on to_url and on the two asserted
identity fields. -/
theorem breakdown_string_format (null_text : String) (m : sipmsg_breakdown) :
    (sipmsg_breakdown_get_string null_text m = none ↔
      m.realm = breakdown_field.null ∨ m.realm = breakdown_field.empty_string) ∧
    (∀ r : String, m.realm = breakdown_field.text r →
      sipmsg_breakdown_get_string null_text m
        = some (String.join
            (([m.protocol, m.rand, m.num, m.realm, m.target_name, m.call_id, m.cseq, m.method,
                m.from_url, m.from_tag, m.to_tag].map
                  (fun f => "<" ++ percent_s null_text f ++ ">")) ++
              ["<" ++ (if m.expires = breakdown_field.null then ""
                       else percent_s null_text m.expires) ++ ">",
               if m.response ≠ 0 then "<" ++ toString m.response ++ ">" else ""]))) ∧
    (∀ to_url sip_uri tel_uri : breakdown_field,
      sipmsg_breakdown_get_string null_text
          { m with to_url := to_url, p_assertet_identity_sip_uri := sip_uri,
                   p_assertet_identity_tel_uri := tel_uri }
        = sipmsg_breakdown_get_string null_text m) := by
  refine ⟨?_, ?_, ?_⟩
  · unfold sipmsg_breakdown_get_string
    cases hr : m.realm <;> simp
  · intro r hr
    unfold sipmsg_breakdown_get_string
    simp only [hr, false_or, if_false, reduceCtorEq]
    have hsplit : ∀ x : String, "><" ++ x = ">" ++ ("<" ++ x) := by
      intro x
      rw [← String.append_assoc]
      rfl
    simp [String.join, String.append_assoc, hsplit]
  · intro to_url sip_uri tel_uri
    rfl

/-- Witness of `breakdown_string_format`: a response 200 to a REGISTER with realm and without
an Expires header. -/
theorem breakdown_string_format_witness :
    sipmsg_breakdown_get_string "(null)"
        { method := breakdown_field.text "REGISTER", response := 200,
          protocol := breakdown_field.text "NTLM", rand := breakdown_field.text "r1",
          num := breakdown_field.text "7", realm := breakdown_field.text "SIP realm",
          target_name := breakdown_field.text "srv", call_id := breakdown_field.text "c1",
          cseq := breakdown_field.text "3", from_url := breakdown_field.text "sip:a@x",
          from_tag := breakdown_field.text "ft", to_url := breakdown_field.text "sip:b@x",
          to_tag := breakdown_field.empty_string,
          p_assertet_identity_sip_uri := breakdown_field.empty_string,
          p_assertet_identity_tel_uri := breakdown_field.empty_string,
          expires := breakdown_field.null }
      = some "<NTLM><r1><7><SIP realm><srv><c1><3><REGISTER><sip:a@x><ft><><><200>" :=
  ((breakdown_string_format "(null)" _).2.1 "SIP realm" rfl).trans (by decide)


/-! ## The keys of the requests of the engine -/

/-- Two key texts are equal only for the same category, instance and container. -/
theorem publication_key_eq_iff (category1 category2 : String)
    (inst1 container1 inst2 container2 : Nat) :
    publication_key category1 inst1 container1 = publication_key category2 inst2 container2 ↔
      category1 = category2 ∧ inst1 = inst2 ∧ container1 = container2 := by
  constructor
  · intro h
    have hd := congrArg (fun s => s.data.reverse) h
    simp only [publication_key, key_of_strings_reverse, List.cons.injEq, true_and] at hd
    have hlt : ¬ (48 ≤ ('<' : Char).toNat ∧ ('<' : Char).toNat ≤ 57) := by decide
    obtain ⟨e1, r1⟩ := digit_run_unique '<' hlt _ _ _ _ (repr_digits_reverse container1)
      (repr_digits_reverse container2) hd
    simp only [List.cons.injEq, true_and] at r1
    obtain ⟨e2, r2⟩ := digit_run_unique '<' hlt _ _ _ _ (repr_digits_reverse inst1)
      (repr_digits_reverse inst2) r1
    simp only [List.cons.injEq, true_and, List.append_cancel_right_eq] at r2
    refine ⟨String.ext (List.reverse_injective r2), ?_, ?_⟩
    · exact repr_injective _ _ (String.ext (List.reverse_injective e2))
    · exact repr_injective _ _ (String.ext (List.reverse_injective e1))
  · rintro ⟨e1, e2, e3⟩
    rw [e1, e2, e3]

/-- The key the reconciler builds for an element of a request is the key under which the
cache holds the publication of the element. -/
theorem request_nodes_keys (doc : List publication_xml) :
    (request_nodes doc).map node_key = doc.map emitted_key := by
  simp [request_nodes, node_key, emitted_key, publication_key, Function.comp_def]

/-- The keys of the fragment of the state builder: none, or those of containers 2 and 3 of
its instance. -/
theorem state_builder_key_texts (ext : Externals) (cache : PublicationCache)
    (status : Option String) (is_user_state : Bool) :
    (fragment_or_empty (sipe_publish_get_category_state ext cache status is_user_state)).map
        emitted_key = [] ∨
    (fragment_or_empty (sipe_publish_get_category_state ext cache status is_user_state)).map
        emitted_key =
      [publication_key "state"
         (if is_user_state then ext.sipe_get_pub_instance PubKey.SIPE_PUB_STATE_USER
          else ext.sipe_get_pub_instance PubKey.SIPE_PUB_STATE_MACHINE) 2,
       publication_key "state"
         (if is_user_state then ext.sipe_get_pub_instance PubKey.SIPE_PUB_STATE_USER
          else ext.sipe_get_pub_instance PubKey.SIPE_PUB_STATE_MACHINE) 3] := by
  unfold sipe_publish_get_category_state
  simp only []
  cases is_user_state <;> simp only [Bool.false_eq_true, if_false, if_true] <;> split <;>
    simp [fragment_or_empty, emitted_key]

/-- The publication elements of the request of `send_publish_category_initial` have pairwise
distinct keys. -/
theorem initial_publish_keys_distinct (ext : Externals) (rext : RoamingExternals)
    (cache : PublicationCache) (status : Option String) :
    ((request_nodes (send_publish_category_initial ext rext cache status).2).map
      node_key).Nodup := by
  rw [request_nodes_keys]
  unfold send_publish_category_initial sipe_publish_get_category_state_machine
    sipe_publish_get_category_device
  simp only [List.map_append, List.map_cons, List.map_nil]
  rcases state_builder_key_texts ext cache (rext.sipe_set_initial_status status) false with h | h <;>
    rw [h] <;> simp [emitted_key, publication_key_eq_iff]
/-- The keys of the fragment of the calendar state builder: none, or those of containers 2
and 3 of its instance. -/
theorem state_calendar_key_texts (ext : Externals) (cache : PublicationCache)
    (event : Option sipe_cal_event) (uri : Option String) (cal_satus : Int) :
    (fragment_or_empty
        (sipe_publish_get_category_state_calendar ext cache event uri cal_satus)).map
        emitted_key = [] ∨
    (fragment_or_empty
        (sipe_publish_get_category_state_calendar ext cache event uri cal_satus)).map
        emitted_key =
      [publication_key "state"
         (if cal_satus = SIPE_CAL_OOF then
            ext.sipe_get_pub_instance PubKey.SIPE_PUB_STATE_CALENDAR_OOF
          else ext.sipe_get_pub_instance PubKey.SIPE_PUB_STATE_CALENDAR) 2,
       publication_key "state"
         (if cal_satus = SIPE_CAL_OOF then
            ext.sipe_get_pub_instance PubKey.SIPE_PUB_STATE_CALENDAR_OOF
          else ext.sipe_get_pub_instance PubKey.SIPE_PUB_STATE_CALENDAR) 3] := by
  unfold sipe_publish_get_category_state_calendar
  simp only []
  repeat' split
  all_goals simp [fragment_or_empty, emitted_key]

theorem presence_publish_calendar_key_texts (ext : Externals) (cache : PublicationCache)
    (cal : sipe_calendar) (event : Option sipe_cal_event) :
    ((fragment_or_empty (presence_publish_calendar ext cache cal event).1).map emitted_key = [] ∨
      (fragment_or_empty (presence_publish_calendar ext cache cal event).1).map emitted_key =
        [publication_key "state"
           (ext.sipe_get_pub_instance PubKey.SIPE_PUB_STATE_CALENDAR_OOF) 2,
         publication_key "state"
           (ext.sipe_get_pub_instance PubKey.SIPE_PUB_STATE_CALENDAR_OOF) 3]) ∧
    ((fragment_or_empty (presence_publish_calendar ext cache cal event).2).map emitted_key = [] ∨
      (fragment_or_empty (presence_publish_calendar ext cache cal event).2).map emitted_key =
        [publication_key "state" (ext.sipe_get_pub_instance PubKey.SIPE_PUB_STATE_CALENDAR) 2,
         publication_key "state"
           (ext.sipe_get_pub_instance PubKey.SIPE_PUB_STATE_CALENDAR) 3]) := by
  have h1 := fun ev => state_calendar_key_texts ext cache ev cal.email SIPE_CAL_OOF
  have h2 := fun ev => state_calendar_key_texts ext cache ev cal.email SIPE_CAL_BUSY
  simp only [SIPE_CAL_BUSY_ne_OOF, if_true, if_false] at h1 h2
  unfold presence_publish_calendar
  repeat' split
  all_goals exact ⟨h1 _, h2 _⟩

theorem working_hours_key_texts (cache : PublicationCache) (cal : Option sipe_calendar) :
    (fragment_or_empty (sipe_publish_get_category_cal_working_hours cache cal)).map
        emitted_key = [] ∨
    (fragment_or_empty (sipe_publish_get_category_cal_working_hours cache cal)).map
        emitted_key =
      [publication_key "calendarData" 0 1, publication_key "calendarData" 0 100,
       publication_key "calendarData" 0 200, publication_key "calendarData" 0 300,
       publication_key "calendarData" 0 400, publication_key "calendarData" 0 32000] := by
  unfold sipe_publish_get_category_cal_working_hours
  simp only []
  repeat' split
  all_goals simp [fragment_or_empty, emitted_key, working_hours_publication]

theorem free_busy_key_texts (ext : Externals) (cache : PublicationCache)
    (cal : Option sipe_calendar) :
    (fragment_or_empty (sipe_publish_get_category_cal_free_busy ext cache cal)).map
        emitted_key = [] ∨
    (fragment_or_empty (sipe_publish_get_category_cal_free_busy ext cache cal)).map
        emitted_key =
      [publication_key "calendarData"
         (ext.sipe_get_pub_instance PubKey.SIPE_PUB_CALENDAR_DATA) 1,
       publication_key "calendarData"
         (ext.sipe_get_pub_instance PubKey.SIPE_PUB_CALENDAR_DATA) 100,
       publication_key "calendarData"
         (ext.sipe_get_pub_instance PubKey.SIPE_PUB_CALENDAR_DATA) 200,
       publication_key "calendarData"
         (ext.sipe_get_pub_instance PubKey.SIPE_PUB_CALENDAR_DATA) 300,
       publication_key "calendarData"
         (ext.sipe_get_pub_instance PubKey.SIPE_PUB_CALENDAR_DATA) 400,
       publication_key "calendarData"
         (ext.sipe_get_pub_instance PubKey.SIPE_PUB_CALENDAR_DATA) 32000] := by
  unfold sipe_publish_get_category_cal_free_busy
  simp only []
  repeat' split
  all_goals simp [fragment_or_empty, emitted_key, free_busy_publication]

theorem oof_note_key_texts (ext : Externals) (cache : PublicationCache)
    (note : Option String) (note_start note_end : Int) :
    (fragment_or_empty
        (sipe_publish_get_category_note ext cache note (some "OOF") note_start note_end)).map
        emitted_key = [] ∨
    (fragment_or_empty
        (sipe_publish_get_category_note ext cache note (some "OOF") note_start note_end)).map
        emitted_key =
      [publication_key "note" (ext.sipe_get_pub_instance PubKey.SIPE_PUB_NOTE_OOF) 200,
       publication_key "note" (ext.sipe_get_pub_instance PubKey.SIPE_PUB_NOTE_OOF) 300,
       publication_key "note" (ext.sipe_get_pub_instance PubKey.SIPE_PUB_NOTE_OOF) 400] := by
  have hs : sipe_strequal (some "OOF") (some "OOF") = true := by decide
  unfold sipe_publish_get_category_note
  simp only [hs, if_true]
  repeat' split
  all_goals simp [fragment_or_empty, emitted_key]

/-- The publication elements of a request of `sipe_ocs2007_presence_publish` have pairwise
distinct keys, as the instances of the two calendar states differ and the instance of the
free/busy data is not 0, the instance of the working hours. -/
theorem presence_publish_keys_distinct (ext : Externals) (cache : PublicationCache)
    (cal : Option sipe_calendar) (event : Option sipe_cal_event) (oof_note : Option String)
    (batch : List publication_xml)
    (hcal : ext.sipe_get_pub_instance PubKey.SIPE_PUB_STATE_CALENDAR_OOF
      ≠ ext.sipe_get_pub_instance PubKey.SIPE_PUB_STATE_CALENDAR)
    (hdata : ext.sipe_get_pub_instance PubKey.SIPE_PUB_CALENDAR_DATA ≠ 0)
    (hb : sipe_ocs2007_presence_publish ext cache cal event oof_note = some batch) :
    ((request_nodes batch).map node_key).Nodup := by
  rw [request_nodes_keys]
  cases cal with
  | none => simp [sipe_ocs2007_presence_publish] at hb
  | some c =>
    unfold sipe_ocs2007_presence_publish at hb
    simp only [] at hb
    by_cases hall : ((sipe_publish_get_category_cal_working_hours cache (some c)).isNone &&
        (sipe_publish_get_category_cal_free_busy ext cache (some c)).isNone &&
        (presence_publish_calendar ext cache c event).1.isNone &&
        (presence_publish_calendar ext cache c event).2.isNone &&
        (sipe_publish_get_category_note ext cache oof_note (some "OOF")
          (if sipe_strequal (some "Scheduled") c.oof_state = true then c.oof_start else 0)
          (if sipe_strequal (some "Scheduled") c.oof_state = true then c.oof_end else 0)).isNone)
        = true
    · rw [if_pos hall] at hb
      cases hb
    · rw [if_neg hall] at hb
      simp only [Option.some.injEq] at hb
      rw [← hb]
      simp only [List.map_append]
      have hd0 : (0 : Nat) ≠ ext.sipe_get_pub_instance PubKey.SIPE_PUB_CALENDAR_DATA :=
        fun e => hdata e.symm
      rcases working_hours_key_texts cache (some c) with h1 | h1 <;>
      rcases free_busy_key_texts ext cache (some c) with h2 | h2 <;>
      rcases (presence_publish_calendar_key_texts ext cache c event).1 with h3 | h3 <;>
      rcases (presence_publish_calendar_key_texts ext cache c event).2 with h4 | h4 <;>
      rcases oof_note_key_texts ext cache oof_note
        (if sipe_strequal (some "Scheduled") c.oof_state = true then c.oof_start else 0)
        (if sipe_strequal (some "Scheduled") c.oof_state = true then c.oof_end else 0)
        with h5 | h5 <;>
      rw [h1, h2, h3, h4, h5] <;>
      simp [publication_key_eq_iff, hcal, hdata, hd0]
/-- The ingestion records every user state publication under the key of its own category,
instance and container. -/
theorem process_categories_user_state_own_keys (ext : Externals) (rext : RoamingExternals) :
    ∀ (nodes : List xml_category) (st : sipe_account_data × roaming_locals),
      (∀ kv ∈ st.1.user_state_publications.getD [],
        kv.1 = publication_key kv.2.category kv.2.inst kv.2.container) →
      ∀ kv ∈ (process_categories ext rext nodes st).1.user_state_publications.getD [],
        kv.1 = publication_key kv.2.category kv.2.inst kv.2.container := by
  intro nodes
  induction nodes with
  | nil => intro st h; exact h
  | cons node rest ih =>
    intro st h
    simp only [process_categories]
    apply ih
    rw [(process_category_frame_fields ext rext node st.1 st.2).2.1]
    split
    · intro kv hkv
      simp only [Option.getD_some] at hkv
      rcases mem_insert _ _ _ kv hkv with e | e
      · exact h kv e
      · rw [e]; rfl
    · exact h

/-- The publication elements of the request of `sipe_ocs2007_reset_status` have pairwise
distinct keys when the recorded user state publications stand under their own keys, as the
ingestion records them. -/
theorem reset_status_keys_distinct (sip : sipe_account_data) (doc : List publication_xml)
    (hown : ∀ kv ∈ sip.user_state_publications.getD [],
      kv.1 = publication_key kv.2.category kv.2.inst kv.2.container)
    (hkeys : ((sip.user_state_publications.getD []).map Prod.fst).Nodup)
    (hdoc : sipe_ocs2007_reset_status sip = some doc) :
    ((request_nodes doc).map node_key).Nodup := by
  rw [request_nodes_keys]
  unfold sipe_ocs2007_reset_status at hdoc
  cases ht : sip.user_state_publications with
  | none => rw [ht] at hdoc; cases hdoc
  | some t =>
    rw [ht] at hdoc hown hkeys
    simp only [Option.getD_some] at hown hkeys
    simp only [] at hdoc
    split at hdoc
    · cases hdoc
    · simp only [Option.some.injEq] at hdoc
      rw [← hdoc, List.map_map]
      have he : t.map (emitted_key ∘ fun kv => sipe_publish_get_cat_state_user_to_clear kv.2)
          = t.map Prod.fst := by
        apply List.map_congr_left
        intro kv hkv
        rw [hown kv hkv]
        rfl
      rw [he]
      exact hkeys
end Sipe
